import Mathlib

/-!
# Region-scan consistency and retry (`br/pkg/restore/split/split.go`)

A shallow embedding of the region-scan checkers and scanners of
`br/pkg/restore/split/split.go`, followed by the theorems proved about it.

Conventions of the embedding:

* a Go `[]byte` key is a `List Nat` of byte values; `nil` and the empty slice are both `[]`
  (the source only ever takes `len`, `bytes.Compare` and `bytes.Equal` of a key, none of which
  tells them apart, and none of which depends on the bound 256 of a byte);
* a Go `error` is `Option Error`, `none` being `nil`;
* `errors.Annotatef(kind, format, args...)` is the record of its three arguments;
* the metadata-service client is a state machine: a query takes the state of the service and
  returns the answer with the next state.
-/

namespace Split

/-! ## Data model -/

/-- A key: the bytes of a Go `[]byte`, each a value below 256. -/
abbrev Key := List Nat

/-- The epoch of a region (`metapb.RegionEpoch`), only ever printed. -/
structure RegionEpoch where
  ConfVer : Nat
  Version : Nat
  deriving DecidableEq, Repr

/-- The region descriptor (`metapb.Region`): the fields the source reads. -/
structure Region where
  Id : Nat
  StartKey : Key
  EndKey : Key
  RegionEpoch : RegionEpoch
  deriving DecidableEq, Repr

/-- The `RegionInfo` of the package: a pointer to the region descriptor. -/
structure RegionInfo where
  Region : Region
  deriving DecidableEq, Repr

/-- The normalized error classes (`berrors`) the source names, and any other class. -/
inductive ErrKind where
  | ErrPDBatchScanRegion
  | ErrRestoreInvalidRange
  | other (code : Nat)
  deriving DecidableEq, Repr

/-- One formatted argument of an annotated error message. -/
inductive Arg where
  /-- A key printed through `redact.Key`. -/
  | key (k : Key)
  /-- A key printed through `hex.EncodeToString`. -/
  | hex (k : Key)
  /-- A region identifier printed with `%d`. -/
  | int (n : Nat)
  /-- A region epoch printed through its `String()`. -/
  | epoch (e : RegionEpoch)
  /-- The text of an underlying error, `err.Error()`. -/
  | str (s : String)
  deriving DecidableEq, Repr

/-- A Go error value: its normalized class, the format of its message and the arguments. -/
structure Error where
  kind : ErrKind
  format : String
  args : List Arg
  deriving DecidableEq, Repr

/-- The `errors.Annotatef(kind, format, args...)` of the source. -/
def Annotatef (kind : ErrKind) (format : String) (args : List Arg) : Error :=
  { kind := kind, format := format, args := args }

/-- The `berrors.ErrPDBatchScanRegion.Equal(err)` of the source: is the error of the scan class. -/
def isErrPDBatchScanRegion (err : Error) : Bool :=
  decide (err.kind = ErrKind.ErrPDBatchScanRegion)

/-! ## Byte-slice primitives -/

/-- Go's `bytes.Compare`: lexicographic order of two byte slices, as -1, 0 or 1. -/
def bytesCompare : Key → Key → Int
  | [], [] => 0
  | [], _ :: _ => -1
  | _ :: _, [] => 1
  | a :: as, b :: bs =>
    if a < b then -1 else if b < a then 1 else bytesCompare as bs

/-- Go's `bytes.Equal`: the two slices have the same length and the same bytes. -/
def bytesEqual (a b : Key) : Bool := decide (a = b)

/-! ## Consistency checkers -/

/-- The gap loop of `CheckRegionConsistency`: `for _, r := range regions[1:]` with the running
`cur`, returning at the first pair whose keys differ. -/
def checkRegionGaps (cur : RegionInfo) : List RegionInfo → Option Error
  | [] => none
  | r :: rest =>
    if !bytesEqual cur.Region.EndKey r.Region.StartKey then
      some (Annotatef ErrKind.ErrPDBatchScanRegion
        "region %d's endKey not equal to next region %d's startKey, endKey: %s, startKey: %s, region epoch: %s %s"
        [Arg.int cur.Region.Id, Arg.int r.Region.Id,
         Arg.key cur.Region.EndKey, Arg.key r.Region.StartKey,
         Arg.epoch cur.Region.RegionEpoch, Arg.epoch r.Region.RegionEpoch])
    else checkRegionGaps r rest

/-- The full checker `CheckRegionConsistency(startKey, endKey, regions)`. -/
def CheckRegionConsistency (startKey endKey : Key) (regions : List RegionInfo) : Option Error :=
  match regions with
  | [] =>
    some (Annotatef ErrKind.ErrPDBatchScanRegion
      "scan region return empty result, startKey: %s, endKey: %s"
      [Arg.key startKey, Arg.key endKey])
  | first :: rest =>
    let last := (first :: rest).getLast (List.cons_ne_nil first rest)
    if bytesCompare first.Region.StartKey startKey > 0 then
      some (Annotatef ErrKind.ErrPDBatchScanRegion
        "first region %d's startKey(%s) > startKey(%s), region epoch: %s"
        [Arg.int first.Region.Id, Arg.key first.Region.StartKey, Arg.key startKey,
         Arg.epoch first.Region.RegionEpoch])
    else if last.Region.EndKey.length ≠ 0 ∧ bytesCompare last.Region.EndKey endKey < 0 then
      some (Annotatef ErrKind.ErrPDBatchScanRegion
        "last region %d's endKey(%s) < endKey(%s), region epoch: %s"
        [Arg.int last.Region.Id, Arg.key last.Region.EndKey, Arg.key endKey,
         Arg.epoch last.Region.RegionEpoch])
    else checkRegionGaps first rest

/-- The gap loop of `CheckPartRegionConsistency`; its message carries the two keys only. -/
def checkPartRegionGaps (cur : RegionInfo) : List RegionInfo → Option Error
  | [] => none
  | r :: rest =>
    if !bytesEqual cur.Region.EndKey r.Region.StartKey then
      some (Annotatef ErrKind.ErrPDBatchScanRegion
        "region endKey not equal to next region startKey, endKey: %s, startKey: %s"
        [Arg.key cur.Region.EndKey, Arg.key r.Region.StartKey])
    else checkPartRegionGaps r rest

/-- The partial checker `CheckPartRegionConsistency(startKey, endKey, regions)`. -/
def CheckPartRegionConsistency (startKey endKey : Key) (regions : List RegionInfo) :
    Option Error :=
  match regions with
  | [] =>
    some (Annotatef ErrKind.ErrPDBatchScanRegion
      "scan region return empty result, startKey: %s, endKey: %s"
      [Arg.key startKey, Arg.key endKey])
  | first :: rest =>
    if bytesCompare first.Region.StartKey startKey > 0 then
      some (Annotatef ErrKind.ErrPDBatchScanRegion
        "first region's startKey > startKey, startKey: %s, regionStartKey: %s"
        [Arg.key startKey, Arg.key first.Region.StartKey])
    else checkPartRegionGaps first rest

/-! ## The invariants of a scan result, as the specification words them -/

/-- Invariant 4: for every adjacent pair, the end key of the one is the start key of the next. -/
def Gapless (regions : List RegionInfo) : Prop :=
  ∀ (i : Nat) (a b : RegionInfo), regions[i]? = some a → regions[i + 1]? = some b →
    a.Region.EndKey = b.Region.StartKey

/-- Invariant 2: the first region's start key is at most the requested start key. -/
def StartCovered (startKey : Key) (regions : List RegionInfo) : Prop :=
  ∀ first ∈ regions.head?, bytesCompare first.Region.StartKey startKey ≤ 0

/-- Invariant 3: the last region's end key is empty, or at least the requested end key. -/
def EndCovered (endKey : Key) (regions : List RegionInfo) : Prop :=
  ∀ last ∈ regions.getLast?, last.Region.EndKey = [] ∨ bytesCompare last.Region.EndKey endKey ≥ 0

/-- A region contains a key: its start key is at most the key, and its end key is empty or
beyond the key. -/
def Region.Contains (r : Region) (k : Key) : Prop :=
  bytesCompare r.StartKey k ≤ 0 ∧ (r.EndKey = [] ∨ bytesCompare k r.EndKey < 0)

/-- The region with its end key replaced. -/
def RegionInfo.withEndKey (r : RegionInfo) (k : Key) : RegionInfo :=
  { Region := { r.Region with EndKey := k } }

/-- An error message names a region identifier: the identifier is one of its arguments. -/
def Error.NamesRegion (err : Error) (id : Nat) : Prop :=
  Arg.int id ∈ err.args

/-! ## Retry state and retry driver (external collaborators) -/

/-- Modelled from the spec: `utils.RetryState`, the exponential-backoff counter of section 2,
absent from the sources at hand. It holds the attempt budget, the attempts consumed, the cap of the
delay and the next delay (durations in nanoseconds). -/
structure RetryState where
  maxRetry : Int
  retryTimes : Int
  maxBackoff : Int
  nextBackoff : Int
  deriving DecidableEq, Repr

/-- Modelled from the spec: `utils.InitialRetryState(maxRetryTimes, initialBackoff, maxBackoff)`,
a fresh counter with nothing consumed. -/
def InitialRetryState (maxRetryTimes initialBackoff maxBackoff : Int) : RetryState :=
  { maxRetry := maxRetryTimes, retryTimes := 0,
    maxBackoff := maxBackoff, nextBackoff := initialBackoff }

/-- Modelled from the spec: `RetryState.ExponentialBackoff`, "compute the next delay via
exponential growth from a small base capped at a configured maximum"; one attempt is consumed. -/
def RetryState.ExponentialBackoff (rs : RetryState) : Int × RetryState :=
  let doubled := rs.nextBackoff * 2
  (rs.nextBackoff,
   { rs with retryTimes := rs.retryTimes + 1,
             nextBackoff := if doubled > rs.maxBackoff then rs.maxBackoff else doubled })

/-- Modelled from the spec: `RetryState.StopRetry`, the force-stop: no attempt remains. -/
def RetryState.StopRetry (rs : RetryState) : RetryState :=
  { rs with retryTimes := rs.maxRetry }

/-- Modelled from the spec: `RetryState.ReduceRetry`, "reduce the retry budget's
consumed-attempt counter" by one. -/
def RetryState.ReduceRetry (rs : RetryState) : RetryState :=
  { rs with retryTimes := rs.retryTimes - 1 }

/-- Modelled from the spec: `RetryState.Attempt`, the attempts remaining. -/
def RetryState.Attempt (rs : RetryState) : Int :=
  rs.maxRetry - rs.retryTimes

/-- The backoff policy `WaitRegionOnlineBackoffer`. -/
structure WaitRegionOnlineBackoffer where
  Stat : RetryState
  deriving DecidableEq, Repr

/-- One millisecond of `time.Duration`, in nanoseconds. -/
def Millisecond : Int := 1000000

/-- One second of `time.Duration`, in nanoseconds. -/
def Second : Int := 1000000000

/-- The constructor `NewWaitRegionOnlineBackoffer()`; the package variable
`WaitRegionOnlineAttemptTimes` (set from a configuration default that is not in the sources at
hand) is the parameter. -/
def NewWaitRegionOnlineBackoffer (WaitRegionOnlineAttemptTimes : Int) :
    WaitRegionOnlineBackoffer :=
  { Stat := InitialRetryState WaitRegionOnlineAttemptTimes (Millisecond * 10) (Second * 2) }

/-- The method `WaitRegionOnlineBackoffer.NextBackoff(err)`: the delay and the next state of the
policy. The failpoint `hint-scan-region-backoff` is inactive outside tests and left out. -/
def WaitRegionOnlineBackoffer.NextBackoff (b : WaitRegionOnlineBackoffer) (err : Error) :
    Int × WaitRegionOnlineBackoffer :=
  if isErrPDBatchScanRegion err then
    let (delayTime, stat) := b.Stat.ExponentialBackoff
    (delayTime, { Stat := stat })
  else
    (0, { Stat := b.Stat.StopRetry })

/-- The method `WaitRegionOnlineBackoffer.Attempt()`: the remaining attempts. -/
def WaitRegionOnlineBackoffer.Attempt (b : WaitRegionOnlineBackoffer) : Int :=
  b.Stat.Attempt

/-- How a Go call ends: it returns a value, or a runtime panic unwinds it. -/
inductive Outcome (α : Type) where
  | returned (a : α)
  | panicked

/-- Modelled from the spec: `utils.WithRetry(ctx, retryableFunc, backoffer)`, the generic retry
driver of section 6, absent from the sources at hand: "it invokes the operation, and on failure
sleeps for the policy's computed delay and re-invokes, stopping on success, policy-signaled
exhaustion, or cancellation". The operation works on the variables `S` it captures and on the
policy `WaitRegionOnlineBackoffer`; `ctxDone n` tells whether the context is found cancelled after
the failure number `n` (from 0) of this call. Both callers discard the driver's own return value,
so the model returns the captured variables and the policy only. `none` is "out of fuel". -/
def WithRetry {S : Type} (ctxDone : Nat → Bool)
    (retryableFunc : S → WaitRegionOnlineBackoffer →
      Option (Outcome (Option Error × S × WaitRegionOnlineBackoffer))) :
    Nat → Nat → S → WaitRegionOnlineBackoffer → Option (Outcome (S × WaitRegionOnlineBackoffer))
  | 0, _, st, b => if b.Attempt > 0 then none else some (Outcome.returned (st, b))
  | fuel + 1, n, st, b =>
    if b.Attempt > 0 then
      match retryableFunc st b with
      | none => none
      | some Outcome.panicked => some Outcome.panicked
      | some (Outcome.returned (none, st1, b1)) => some (Outcome.returned (st1, b1))
      | some (Outcome.returned (some err, st1, b1)) =>
        let b2 := (b1.NextBackoff err).2
        if ctxDone n then some (Outcome.returned (st1, b2))
        else WithRetry ctxDone retryableFunc fuel (n + 1) st1 b2
    else some (Outcome.returned (st, b))

/-! ## The query capability -/

/-- An error returned by the query capability: its class and its text (`err.Error()`). -/
structure ClientError where
  kind : ErrKind
  text : String
  deriving DecidableEq, Repr

/-- The query capability `SplitClient.ScanRegions(ctx, key, endKey, limit)` over the states `σ` of
the metadata service: the batch and the error it returns, and the next state of the service. -/
structure SplitClient (σ : Type) where
  ScanRegions : σ → Key → Key → Int → (List RegionInfo × Option ClientError) × σ

/-- One invocation of the query capability: the arguments it was given. -/
structure ScanCall where
  key : Key
  endKey : Key
  limit : Int
  deriving DecidableEq, Repr

/-- The variables a scanner's retried closure captures, with the state of the service and the
record of the queries issued so far: `regions` is `lastRegions` in `PaginateScanRegion` and
`regions` in `ScanRegionsWithRetry`. -/
structure ScanVars (σ : Type) where
  client : σ
  calls : List ScanCall
  regions : List RegionInfo
  err : Option Error

/-! ## Paginated scanner -/

/-- How the paging loop of one attempt ends. -/
inductive PageLoop (σ : Type) where
  /-- A query failed: the closure returns the wrapped error. -/
  | failed (err : Error) (client : σ) (calls : List ScanCall)
  /-- A `break`: the regions accumulated by the attempt. -/
  | done (regions : List RegionInfo) (client : σ) (calls : List ScanCall)
  /-- The access `batch[len(batch)-1]` on an empty page: index out of range. -/
  | indexOutOfRange (client : σ) (calls : List ScanCall)

/-- The paging loop `for { ... }` of an attempt of `PaginateScanRegion`, from the cursor
`scanStartKey` with `regions` accumulated so far; `none` is "out of fuel". -/
def scanPages {σ : Type} (c : SplitClient σ) (endKey : Key) (limit : Int) :
    Nat → σ → List ScanCall → List RegionInfo → Key → Option (PageLoop σ)
  | 0, _, _, _, _ => none
  | fuel + 1, client, calls, regions, scanStartKey =>
    let answer := c.ScanRegions client scanStartKey endKey limit
    let batch := answer.1.1
    let calls1 := calls ++ [{ key := scanStartKey, endKey := endKey, limit := limit }]
    match answer.1.2 with
    | some err =>
      some (PageLoop.failed
        (Annotatef ErrKind.ErrPDBatchScanRegion "scan regions from start-key:%s, err: %s"
          [Arg.key scanStartKey, Arg.str err.text])
        answer.2 calls1)
    | none =>
      let regions1 := regions ++ batch
      if (batch.length : Int) < limit then
        some (PageLoop.done regions1 answer.2 calls1)
      else
        match batch.getLast? with
        | none => some (PageLoop.indexOutOfRange answer.2 calls1)
        | some lastRegion =>
          let next := lastRegion.Region.EndKey
          if next.length = 0 ∨ (endKey.length > 0 ∧ bytesCompare next endKey ≥ 0) then
            some (PageLoop.done regions1 answer.2 calls1)
          else
            scanPages c endKey limit fuel answer.2 calls1 regions1 next

/-- The closure retried by `PaginateScanRegion`: one attempt. -/
def paginateAttempt {σ : Type} (c : SplitClient σ) (startKey endKey : Key) (limit : Int)
    (fuel : Nat) (v : ScanVars σ) (backoffer : WaitRegionOnlineBackoffer) :
    Option (Outcome (Option Error × ScanVars σ × WaitRegionOnlineBackoffer)) :=
  match scanPages c endKey limit fuel v.client v.calls [] startKey with
  | none => none
  | some (PageLoop.indexOutOfRange _ _) => some Outcome.panicked
  | some (PageLoop.failed err client calls) =>
    some (Outcome.returned
      (some err, { v with client := client, calls := calls, err := some err }, backoffer))
  | some (PageLoop.done regions client calls) =>
    let backoffer1 : WaitRegionOnlineBackoffer :=
      if regions.length ≠ v.regions.length then { Stat := backoffer.Stat.ReduceRetry }
      else backoffer
    let err := CheckRegionConsistency startKey endKey regions
    some (Outcome.returned
      (err, { client := client, calls := calls, regions := regions, err := err }, backoffer1))

/-- What a scanner returns, with what it leaves behind: the queries issued, the state of the
service and the policy at return. -/
structure ScanReturn (σ : Type) where
  regions : List RegionInfo
  err : Option Error
  calls : List ScanCall
  client : σ
  backoffer : WaitRegionOnlineBackoffer

/-- The error both scanners return for a reversed range. -/
def invalidRange (startKey endKey : Key) : Error :=
  Annotatef ErrKind.ErrRestoreInvalidRange "startKey > endKey, startKey: %s, endkey: %s"
    [Arg.hex startKey, Arg.hex endKey]

/-- The scanner `PaginateScanRegion(ctx, client, startKey, endKey, limit)`, run from the state
`client` of the service; `none` is "out of fuel". -/
def PaginateScanRegion {σ : Type} (c : SplitClient σ) (WaitRegionOnlineAttemptTimes : Int)
    (ctxDone : Nat → Bool) (fuel : Nat) (client : σ) (startKey endKey : Key) (limit : Int) :
    Option (Outcome (ScanReturn σ)) :=
  if endKey.length ≠ 0 ∧ bytesCompare startKey endKey > 0 then
    some (Outcome.returned
      { regions := [], err := some (invalidRange startKey endKey), calls := [],
        client := client, backoffer := NewWaitRegionOnlineBackoffer WaitRegionOnlineAttemptTimes })
  else
    match WithRetry ctxDone (paginateAttempt c startKey endKey limit fuel) fuel 0
        { client := client, calls := [], regions := [], err := none }
        (NewWaitRegionOnlineBackoffer WaitRegionOnlineAttemptTimes) with
    | none => none
    | some Outcome.panicked => some Outcome.panicked
    | some (Outcome.returned (v, backoffer)) =>
      some (Outcome.returned
        { regions := v.regions, err := v.err, calls := v.calls, client := v.client,
          backoffer := backoffer })

/-! ## Single-batch scanner -/

/-- The closure retried by `ScanRegionsWithRetry`: one attempt, one query. -/
def scanAttempt {σ : Type} (c : SplitClient σ) (startKey endKey : Key) (limit : Int)
    (v : ScanVars σ) (backoffer : WaitRegionOnlineBackoffer) :
    Option (Outcome (Option Error × ScanVars σ × WaitRegionOnlineBackoffer)) :=
  let answer := c.ScanRegions v.client startKey endKey limit
  let calls1 := v.calls ++ [{ key := startKey, endKey := endKey, limit := limit }]
  match answer.1.2 with
  | some clientErr =>
    let err := Annotatef ErrKind.ErrPDBatchScanRegion "scan regions from start-key:%s, err: %s"
      [Arg.key startKey, Arg.str clientErr.text]
    some (Outcome.returned
      (some err,
       { client := answer.2, calls := calls1, regions := answer.1.1, err := some err },
       backoffer))
  | none =>
    let err := CheckPartRegionConsistency startKey endKey answer.1.1
    some (Outcome.returned
      (err, { client := answer.2, calls := calls1, regions := answer.1.1, err := err },
       backoffer))

/-- The scanner `ScanRegionsWithRetry(ctx, client, startKey, endKey, limit)`, run from the state
`client` of the service; `none` is "out of fuel". -/
def ScanRegionsWithRetry {σ : Type} (c : SplitClient σ) (WaitRegionOnlineAttemptTimes : Int)
    (ctxDone : Nat → Bool) (fuel : Nat) (client : σ) (startKey endKey : Key) (limit : Int) :
    Option (Outcome (ScanReturn σ)) :=
  if endKey.length ≠ 0 ∧ bytesCompare startKey endKey > 0 then
    some (Outcome.returned
      { regions := [], err := some (invalidRange startKey endKey), calls := [],
        client := client, backoffer := NewWaitRegionOnlineBackoffer WaitRegionOnlineAttemptTimes })
  else
    match WithRetry ctxDone (scanAttempt c startKey endKey limit) fuel 0
        { client := client, calls := [], regions := [], err := none }
        (NewWaitRegionOnlineBackoffer WaitRegionOnlineAttemptTimes) with
    | none => none
    | some Outcome.panicked => some Outcome.panicked
    | some (Outcome.returned (v, backoffer)) =>
      some (Outcome.returned
        { regions := v.regions, err := v.err, calls := v.calls, client := v.client,
          backoffer := backoffer })

/-! ## Query capabilities that serve pages -/

/-- The query capability, from the state `client` and the cursor `key`, answers the successive
queries of one attempt with the pages `pages`, one after the other, and then with the page
`final`; the cursor of each next query is the end key of the last region of the page before. -/
def ServesPages {σ : Type} (c : SplitClient σ) (endKey : Key) (limit : Int) :
    σ → Key → List (List RegionInfo) → List RegionInfo → Prop
  | client, key, [], final => (c.ScanRegions client key endKey limit).1 = (final, none)
  | client, key, page :: pages, final =>
    (c.ScanRegions client key endKey limit).1 = (page, none) ∧
    ∃ lastRegion, page.getLast? = some lastRegion ∧
      ServesPages c endKey limit (c.ScanRegions client key endKey limit).2
        lastRegion.Region.EndKey pages final

/-- A scripted query capability: its state is the pages still to serve; it answers each query
with the next page, and with the empty page when none is left. -/
def scriptedClient : SplitClient (List (List RegionInfo)) :=
  { ScanRegions := fun script _ _ _ =>
      match script with
      | [] => (([], none), [])
      | page :: rest => ((page, none), rest) }

/-- A query capability that answers every query with the same page and no error. -/
def constantClient (page : List RegionInfo) : SplitClient Unit :=
  { ScanRegions := fun _ _ _ _ => ((page, none), ()) }

/-! ## Records kept of a run -/

/-- The queries recorded at the end of the paging loop of one attempt. -/
def PageLoop.calls {σ : Type} : PageLoop σ → List ScanCall
  | PageLoop.failed _ _ calls => calls
  | PageLoop.done _ _ calls => calls
  | PageLoop.indexOutOfRange _ calls => calls

/-- The delays `NextBackoff` returns when the errors `errs` are reported to the policy one after
the other. -/
def WaitRegionOnlineBackoffer.delays (b : WaitRegionOnlineBackoffer) : List Error → List Int
  | [] => []
  | err :: errs => (b.NextBackoff err).1 :: (b.NextBackoff err).2.delays errs

/-- A retried operation with a record kept of what each of its attempts returned; the operation
itself does not see the record. -/
def recordReturns {S : Type}
    (retryableFunc : S → WaitRegionOnlineBackoffer →
      Option (Outcome (Option Error × S × WaitRegionOnlineBackoffer)))
    (st : S × List (Option Error)) (b : WaitRegionOnlineBackoffer) :
    Option (Outcome (Option Error × (S × List (Option Error)) × WaitRegionOnlineBackoffer)) :=
  match retryableFunc st.1 b with
  | none => none
  | some Outcome.panicked => some Outcome.panicked
  | some (Outcome.returned (err, st1, b1)) =>
    some (Outcome.returned (err, (st1, st.2 ++ [err]), b1))

/-- The run of `PaginateScanRegion` together with the record of what each attempt of the run
returned, in order. -/
def PaginateScanRegionAttempts {σ : Type} (c : SplitClient σ)
    (WaitRegionOnlineAttemptTimes : Int) (ctxDone : Nat → Bool) (fuel : Nat) (client : σ)
    (startKey endKey : Key) (limit : Int) :
    Option (Outcome (ScanReturn σ × List (Option Error))) :=
  if endKey.length ≠ 0 ∧ bytesCompare startKey endKey > 0 then
    some (Outcome.returned
      ({ regions := [], err := some (invalidRange startKey endKey), calls := [],
         client := client,
         backoffer := NewWaitRegionOnlineBackoffer WaitRegionOnlineAttemptTimes }, []))
  else
    match WithRetry ctxDone (recordReturns (paginateAttempt c startKey endKey limit fuel)) fuel 0
        ({ client := client, calls := [], regions := [], err := none }, [])
        (NewWaitRegionOnlineBackoffer WaitRegionOnlineAttemptTimes) with
    | none => none
    | some Outcome.panicked => some Outcome.panicked
    | some (Outcome.returned (v, backoffer)) =>
      some (Outcome.returned
        ({ regions := v.1.regions, err := v.1.err, calls := v.1.calls, client := v.1.client,
           backoffer := backoffer }, v.2))

/-- The run of `ScanRegionsWithRetry` together with the record of what each attempt of the run
returned, in order. -/
def ScanRegionsWithRetryAttempts {σ : Type} (c : SplitClient σ)
    (WaitRegionOnlineAttemptTimes : Int) (ctxDone : Nat → Bool) (fuel : Nat) (client : σ)
    (startKey endKey : Key) (limit : Int) :
    Option (Outcome (ScanReturn σ × List (Option Error))) :=
  if endKey.length ≠ 0 ∧ bytesCompare startKey endKey > 0 then
    some (Outcome.returned
      ({ regions := [], err := some (invalidRange startKey endKey), calls := [],
         client := client,
         backoffer := NewWaitRegionOnlineBackoffer WaitRegionOnlineAttemptTimes }, []))
  else
    match WithRetry ctxDone (recordReturns (scanAttempt c startKey endKey limit)) fuel 0
        ({ client := client, calls := [], regions := [], err := none }, [])
        (NewWaitRegionOnlineBackoffer WaitRegionOnlineAttemptTimes) with
    | none => none
    | some Outcome.panicked => some Outcome.panicked
    | some (Outcome.returned (v, backoffer)) =>
      some (Outcome.returned
        ({ regions := v.1.regions, err := v.1.err, calls := v.1.calls, client := v.1.client,
           backoffer := backoffer }, v.2))

/-- The value a scanner returns, out of a run kept with its record. -/
def withoutRecord {σ : Type} :
    Option (Outcome (ScanReturn σ × List (Option Error))) → Option (Outcome (ScanReturn σ))
  | none => none
  | some Outcome.panicked => some Outcome.panicked
  | some (Outcome.returned (ret, _)) => some (Outcome.returned ret)

/-- A query capability that fails every query with the same error. -/
def failingClient (err : ClientError) : SplitClient Unit :=
  { ScanRegions := fun _ _ _ _ => (([], some err), ()) }

end Split

/-!
# Logical and unary operators (`pkg/expression/builtin_op.go`)

A shallow embedding of the integer signatures of the logical operators, of the `IS TRUE` and
`IS FALSE` signatures, and of the unary `NOT` and unary minus.

Conventions of the embedding:

* an `int64` is an `Int`; the conversions `uint64(x)` and the wrap of the `int64` arithmetic are
  written out with `% 2 ^ 64`;
* what `evalInt` returns, `(int64, bool, error)`, is a triple `Int × Bool × Option EvalError`;
* the evaluation of an argument, `b.args[i].EvalInt(ctx, row)` for the row at hand, takes the
  evaluation context and returns the triple with the context it leaves;
* a `float64` and a `types.MyDecimal` are values of a type given with the only test the source
  makes on them, `input == 0` and `input.IsZero()`.
-/

namespace Expression

/-! ## Data model -/

/-- The errors of an evaluation: the overflow error built by
`types.ErrOverflow.GenWithStackByArgs(typeName, fmt.Sprintf("-%v", x))`, kept with the number `x`
it prints after the dash, and any other error. -/
inductive EvalError where
  | ErrOverflow (typeName : String) (minusOf : Int)
  | other (code : Nat)
  deriving DecidableEq, Repr

/-- What `evalInt` returns: the value, the NULL flag and the error. -/
abbrev IntResult := Int × Bool × Option EvalError

/-- The evaluation of an integer argument, `EvalInt(ctx, row)`, over the contexts `σ`. -/
abbrev EvalIntFn (σ : Type) := σ → IntResult × σ

/-- The evaluation of an argument of another type, `EvalReal(ctx, row)` or
`EvalDecimal(ctx, row)`, with values in `α`. -/
abbrev EvalFn (σ α : Type) := σ → (α × Bool × Option EvalError) × σ

/-- An argument that evaluates to the same outcome in every context and leaves it as it is. -/
def constantOutcome {σ : Type} (r : IntResult) : EvalIntFn σ := fun ctx => (r, ctx)

/-- The constant `math.MinInt64`. -/
def MinInt64 : Int := -9223372036854775808

/-- The constant `math.MaxInt64`. -/
def MaxInt64 : Int := 9223372036854775807

/-- The Go conversion `uint64(x)` of an `int64`. -/
def toUint64 (x : Int) : Int := x % 2 ^ 64

/-- The Go conversion to `int64` of an integer result, with the wrap of the 64-bit arithmetic. -/
def toInt64 (x : Int) : Int := (x + 2 ^ 63) % 2 ^ 64 - 2 ^ 63

/-! ## Logical AND and OR -/

/-- The method `builtinLogicAndSig.evalInt`, over the evaluations of its two arguments. -/
def builtinLogicAndSig.evalInt {σ : Type} (arg0 arg1 : EvalIntFn σ) : EvalIntFn σ := fun ctx =>
  match arg0 ctx with
  | ((v0, isNull0, err0), ctx1) =>
    if err0 ≠ none ∨ (isNull0 = false ∧ v0 = 0) then ((0, decide (err0 ≠ none), err0), ctx1)
    else
      match arg1 ctx1 with
      | ((v1, isNull1, err1), ctx2) =>
        if err1 ≠ none ∨ (isNull1 = false ∧ v1 = 0) then
          ((0, decide (err1 ≠ none), err1), ctx2)
        else if isNull0 = true ∨ isNull1 = true then ((0, true, none), ctx2)
        else ((1, false, none), ctx2)

/-- The method `builtinLogicOrSig.evalInt`, over the evaluations of its two arguments. -/
def builtinLogicOrSig.evalInt {σ : Type} (arg0 arg1 : EvalIntFn σ) : EvalIntFn σ := fun ctx =>
  match arg0 ctx with
  | ((v0, isNull0, err0), ctx1) =>
    if err0 ≠ none then ((0, true, err0), ctx1)
    else if isNull0 = false ∧ v0 ≠ 0 then ((1, false, none), ctx1)
    else
      match arg1 ctx1 with
      | ((v1, isNull1, err1), ctx2) =>
        if err1 ≠ none then ((0, true, err1), ctx2)
        else if isNull1 = false ∧ v1 ≠ 0 then ((1, false, none), ctx2)
        else if isNull0 = true ∨ isNull1 = true then ((0, true, none), ctx2)
        else ((0, false, none), ctx2)

/-! ## IS TRUE and IS FALSE -/

/-- The signature `builtinRealIsTrueSig`: its field `keepNull`. -/
structure builtinRealIsTrueSig where
  keepNull : Bool

/-- The method `builtinRealIsTrueSig.evalInt`; `eqZero` is the test `input == 0` of a
`float64`. -/
def builtinRealIsTrueSig.evalInt {σ F : Type} (b : builtinRealIsTrueSig) (eqZero : F → Bool)
    (arg : EvalFn σ F) : EvalIntFn σ := fun ctx =>
  match arg ctx with
  | ((input, isNull, err), ctx1) =>
    if err ≠ none then ((0, true, err), ctx1)
    else if b.keepNull = true ∧ isNull = true then ((0, true, none), ctx1)
    else if isNull = true ∨ eqZero input = true then ((0, false, none), ctx1)
    else ((1, false, none), ctx1)

/-- The signature `builtinDecimalIsTrueSig`: its field `keepNull`. -/
structure builtinDecimalIsTrueSig where
  keepNull : Bool

/-- The method `builtinDecimalIsTrueSig.evalInt`; `IsZero` is the method of `types.MyDecimal`. -/
def builtinDecimalIsTrueSig.evalInt {σ D : Type} (b : builtinDecimalIsTrueSig)
    (IsZero : D → Bool) (arg : EvalFn σ D) : EvalIntFn σ := fun ctx =>
  match arg ctx with
  | ((input, isNull, err), ctx1) =>
    if err ≠ none then ((0, true, err), ctx1)
    else if b.keepNull = true ∧ isNull = true then ((0, true, none), ctx1)
    else if isNull = true ∨ IsZero input = true then ((0, false, none), ctx1)
    else ((1, false, none), ctx1)

/-- The signature `builtinIntIsTrueSig`: its field `keepNull`. -/
structure builtinIntIsTrueSig where
  keepNull : Bool

/-- The method `builtinIntIsTrueSig.evalInt`. -/
def builtinIntIsTrueSig.evalInt {σ : Type} (b : builtinIntIsTrueSig) (arg : EvalIntFn σ) :
    EvalIntFn σ := fun ctx =>
  match arg ctx with
  | ((input, isNull, err), ctx1) =>
    if err ≠ none then ((0, true, err), ctx1)
    else if b.keepNull = true ∧ isNull = true then ((0, true, none), ctx1)
    else if isNull = true ∨ input = 0 then ((0, false, none), ctx1)
    else ((1, false, none), ctx1)

/-- The signature `builtinRealIsFalseSig`: its field `keepNull`. -/
structure builtinRealIsFalseSig where
  keepNull : Bool

/-- The method `builtinRealIsFalseSig.evalInt`; `eqZero` is the test `input == 0` of a
`float64`, and `input != 0` its negation. -/
def builtinRealIsFalseSig.evalInt {σ F : Type} (b : builtinRealIsFalseSig) (eqZero : F → Bool)
    (arg : EvalFn σ F) : EvalIntFn σ := fun ctx =>
  match arg ctx with
  | ((input, isNull, err), ctx1) =>
    if err ≠ none then ((0, true, err), ctx1)
    else if b.keepNull = true ∧ isNull = true then ((0, true, none), ctx1)
    else if isNull = true ∨ eqZero input = false then ((0, false, none), ctx1)
    else ((1, false, none), ctx1)

/-- The signature `builtinDecimalIsFalseSig`: its field `keepNull`. -/
structure builtinDecimalIsFalseSig where
  keepNull : Bool

/-- The method `builtinDecimalIsFalseSig.evalInt`; `IsZero` is the method of
`types.MyDecimal`. -/
def builtinDecimalIsFalseSig.evalInt {σ D : Type} (b : builtinDecimalIsFalseSig)
    (IsZero : D → Bool) (arg : EvalFn σ D) : EvalIntFn σ := fun ctx =>
  match arg ctx with
  | ((input, isNull, err), ctx1) =>
    if err ≠ none then ((0, true, err), ctx1)
    else if b.keepNull = true ∧ isNull = true then ((0, true, none), ctx1)
    else if isNull = true ∨ IsZero input = false then ((0, false, none), ctx1)
    else ((1, false, none), ctx1)

/-- The signature `builtinIntIsFalseSig`: its field `keepNull`. -/
structure builtinIntIsFalseSig where
  keepNull : Bool

/-- The method `builtinIntIsFalseSig.evalInt`. -/
def builtinIntIsFalseSig.evalInt {σ : Type} (b : builtinIntIsFalseSig) (arg : EvalIntFn σ) :
    EvalIntFn σ := fun ctx =>
  match arg ctx with
  | ((input, isNull, err), ctx1) =>
    if err ≠ none then ((0, true, err), ctx1)
    else if b.keepNull = true ∧ isNull = true then ((0, true, none), ctx1)
    else if isNull = true ∨ input ≠ 0 then ((0, false, none), ctx1)
    else ((1, false, none), ctx1)

/-! ## Unary NOT and unary minus -/

/-- The method `builtinUnaryNotIntSig.evalInt`. -/
def builtinUnaryNotIntSig.evalInt {σ : Type} (arg : EvalIntFn σ) : EvalIntFn σ := fun ctx =>
  match arg ctx with
  | ((v, isNull, err), ctx1) =>
    if isNull = true ∨ err ≠ none then ((0, true, err), ctx1)
    else if v = 0 then ((1, false, none), ctx1)
    else ((0, false, none), ctx1)

/-- The evaluation types `types.EvalType` the source names. -/
inductive EvalType where
  | ETInt
  | ETReal
  | ETDecimal
  | ETString
  | ETDatetime
  | ETTimestamp
  | ETDuration
  | ETJson
  deriving DecidableEq, Repr

/-- A constant expression `*Constant`, as far as `handleIntOverflow` and `typeInfer` read it: the
evaluation type `GetType().EvalType()`, the flag `mysql.HasUnsignedFlag(GetType().GetFlag())`,
and what `Value.GetUint64()` and `Value.GetInt64()` return. -/
structure Constant where
  evalType : EvalType
  unsignedFlag : Bool
  uint64Value : Int
  int64Value : Int
  deriving DecidableEq, Repr

/-- An argument expression of `typeInfer`: a constant, or an expression of another kind with its
evaluation type. -/
inductive ArgExpression where
  | constant (arg : Constant)
  | nonConstant (evalType : EvalType)
  deriving DecidableEq, Repr

/-- The evaluation type of an argument, `argExpr.GetType().EvalType()`. -/
def ArgExpression.evalType : ArgExpression → EvalType
  | ArgExpression.constant arg => arg.evalType
  | ArgExpression.nonConstant tp => tp

/-- The method `unaryMinusFunctionClass.handleIntOverflow`. -/
def unaryMinusFunctionClass.handleIntOverflow (arg : Constant) : Bool :=
  if arg.unsignedFlag = true then
    if arg.uint64Value > toUint64 (-MinInt64) then true else false
  else
    if arg.int64Value = MinInt64 then true else false

/-- The method `unaryMinusFunctionClass.typeInfer`: the return type and the overflow flag. -/
def unaryMinusFunctionClass.typeInfer (argExpr : ArgExpression) : EvalType × Bool :=
  let tp0 := argExpr.evalType
  let tp := if tp0 ≠ EvalType.ETInt ∧ tp0 ≠ EvalType.ETDecimal then EvalType.ETReal else tp0
  match argExpr with
  | ArgExpression.constant arg =>
    if tp = EvalType.ETInt then
      if unaryMinusFunctionClass.handleIntOverflow arg = true then (EvalType.ETDecimal, true)
      else (tp, false)
    else (tp, false)
  | ArgExpression.nonConstant _ => (tp, false)

/-- The method `builtinUnaryMinusIntSig.evalInt`; `unsignedFlag` is
`mysql.HasUnsignedFlag(b.args[0].GetType().GetFlag())`. -/
def builtinUnaryMinusIntSig.evalInt {σ : Type} (unsignedFlag : Bool) (arg : EvalIntFn σ) :
    EvalIntFn σ := fun ctx =>
  match arg ctx with
  | ((val, isNull, err), ctx1) =>
    if err ≠ none ∨ isNull = true then ((val, isNull, err), ctx1)
    else if unsignedFlag = true then
      if toUint64 val > toUint64 (-MinInt64) then
        ((0, false, some (EvalError.ErrOverflow "BIGINT" (toUint64 val))), ctx1)
      else if toUint64 val = toUint64 (-MinInt64) then ((MinInt64, false, none), ctx1)
      else ((toInt64 (-val), false, none), ctx1)
    else if val = MinInt64 then
      ((0, false, some (EvalError.ErrOverflow "BIGINT" val)), ctx1)
    else ((toInt64 (-val), false, none), ctx1)

end Expression

namespace Split

/-! ## Lemmas on `bytes.Compare` -/

theorem bytesCompare_nil_right (a : Key) : 0 ≤ bytesCompare a [] := by
  cases a <;> simp [bytesCompare]

theorem bytesCompare_eq_zero_iff (a b : Key) : bytesCompare a b = 0 ↔ a = b := by
  induction a generalizing b with
  | nil => cases b <;> simp [bytesCompare]
  | cons x xs ih =>
    cases b with
    | nil => simp [bytesCompare]
    | cons y ys =>
      simp only [bytesCompare, List.cons.injEq]
      split_ifs with h1 h2
      · constructor
        · intro h; exact absurd h (by decide)
        · rintro ⟨h, -⟩; omega
      · constructor
        · intro h; exact absurd h (by decide)
        · rintro ⟨h, -⟩; omega
      · rw [ih]
        constructor
        · intro h; exact ⟨by omega, h⟩
        · rintro ⟨-, h⟩; exact h

theorem bytesCompare_swap (a b : Key) : bytesCompare b a = - bytesCompare a b := by
  induction a generalizing b with
  | nil => cases b <;> simp [bytesCompare]
  | cons x xs ih =>
    cases b with
    | nil => simp [bytesCompare]
    | cons y ys =>
      simp only [bytesCompare]
      split_ifs <;> first | omega | exact ih ys

theorem bytesCompare_trans_aux (a : Key) : ∀ b c : Key,
    (bytesCompare a b ≤ 0 → bytesCompare b c ≤ 0 → bytesCompare a c ≤ 0) ∧
    (bytesCompare a b ≤ 0 → bytesCompare b c < 0 → bytesCompare a c < 0) ∧
    (bytesCompare a b < 0 → bytesCompare b c ≤ 0 → bytesCompare a c < 0) := by
  induction a with
  | nil =>
    intro b c
    cases b <;> cases c <;> simp [bytesCompare]
  | cons x xs ih =>
    intro b c
    cases b with
    | nil => simp [bytesCompare]
    | cons y ys =>
      cases c with
      | nil => simp [bytesCompare]
      | cons z zs =>
        have h := ih ys zs
        simp only [bytesCompare]
        split_ifs <;> omega

theorem bytesCompare_le_trans {a b c : Key} (h1 : bytesCompare a b ≤ 0)
    (h2 : bytesCompare b c ≤ 0) : bytesCompare a c ≤ 0 :=
  (bytesCompare_trans_aux a b c).1 h1 h2

theorem bytesCompare_lt_of_le_of_lt {a b c : Key} (h1 : bytesCompare a b ≤ 0)
    (h2 : bytesCompare b c < 0) : bytesCompare a c < 0 :=
  (bytesCompare_trans_aux a b c).2.1 h1 h2

theorem bytesCompare_lt_of_lt_of_le {a b c : Key} (h1 : bytesCompare a b < 0)
    (h2 : bytesCompare b c ≤ 0) : bytesCompare a c < 0 :=
  (bytesCompare_trans_aux a b c).2.2 h1 h2

/-! ## Lemmas on the invariants -/

theorem gapless_singleton (cur : RegionInfo) : Gapless [cur] := by
  intro i a b _ hb
  simp at hb

theorem gapless_cons_cons (cur r : RegionInfo) (rest : List RegionInfo) :
    Gapless (cur :: r :: rest) ↔
      cur.Region.EndKey = r.Region.StartKey ∧ Gapless (r :: rest) := by
  constructor
  · intro h
    refine ⟨h 0 cur r (by simp) (by simp), ?_⟩
    intro i a b ha hb
    exact h (i + 1) a b (by simpa using ha) (by simpa using hb)
  · rintro ⟨h0, h⟩ i a b ha hb
    cases i with
    | zero =>
      simp at ha hb
      subst ha; subst hb; exact h0
    | succ i => exact h i a b (by simpa using ha) (by simpa using hb)

theorem checkRegionGaps_eq_none_iff (cur : RegionInfo) (rest : List RegionInfo) :
    checkRegionGaps cur rest = none ↔ Gapless (cur :: rest) := by
  induction rest generalizing cur with
  | nil => simp [checkRegionGaps, gapless_singleton]
  | cons r rest ih =>
    rw [gapless_cons_cons, checkRegionGaps]
    by_cases h : cur.Region.EndKey = r.Region.StartKey
    · simp [bytesEqual, h, ih]
    · simp [bytesEqual, h]

theorem checkPartRegionGaps_eq_none_iff (cur : RegionInfo) (rest : List RegionInfo) :
    checkPartRegionGaps cur rest = none ↔ Gapless (cur :: rest) := by
  induction rest generalizing cur with
  | nil => simp [checkPartRegionGaps, gapless_singleton]
  | cons r rest ih =>
    rw [gapless_cons_cons, checkPartRegionGaps]
    by_cases h : cur.Region.EndKey = r.Region.StartKey
    · simp [bytesEqual, h, ih]
    · simp [bytesEqual, h]

/-! ## The checkers -/

theorem fullCheck_accepts_iff (startKey endKey : Key)
    (regions : List RegionInfo) :
    CheckRegionConsistency startKey endKey regions = none ↔
      regions ≠ [] ∧ StartCovered startKey regions ∧ EndCovered endKey regions ∧
        Gapless regions := by
  cases regions with
  | nil => simp [CheckRegionConsistency]
  | cons first rest =>
    simp only [CheckRegionConsistency, StartCovered, EndCovered, ne_eq, not_false_eq_true,
      true_and, List.head?_cons, Option.mem_def, Option.some.injEq, forall_eq',
      List.getLast?_eq_getLast _ (List.cons_ne_nil first rest), reduceCtorEq,
      List.length_eq_zero]
    split_ifs with h1 h2
    · simp only [reduceCtorEq, false_iff]
      rintro ⟨h, -⟩; omega
    · simp only [reduceCtorEq, false_iff]
      rintro ⟨-, h, -⟩
      rcases h with h | h
      · exact h2.1 h
      · omega
    · rw [checkRegionGaps_eq_none_iff]
      constructor
      · intro hg
        refine ⟨by omega, ?_, hg⟩
        by_cases he : ((first :: rest).getLast (List.cons_ne_nil first rest)).Region.EndKey = []
        · exact Or.inl he
        · right
          by_contra hlt
          exact h2 ⟨he, by omega⟩
      · rintro ⟨-, -, hg⟩; exact hg

theorem partCheck_accepts_iff (startKey endKey : Key) (regions : List RegionInfo) :
    CheckPartRegionConsistency startKey endKey regions = none ↔
      regions ≠ [] ∧ StartCovered startKey regions ∧ Gapless regions := by
  cases regions with
  | nil => simp [CheckPartRegionConsistency]
  | cons first rest =>
    simp only [CheckPartRegionConsistency, StartCovered, ne_eq, not_false_eq_true,
      true_and, List.head?_cons, Option.mem_def, Option.some.injEq, forall_eq', reduceCtorEq]
    split_ifs with h1
    · simp only [reduceCtorEq, false_iff]
      rintro ⟨h, -⟩; omega
    · rw [checkPartRegionGaps_eq_none_iff]
      constructor
      · intro hg; exact ⟨by omega, hg⟩
      · rintro ⟨-, hg⟩; exact hg

theorem checkRegionGaps_kind (cur : RegionInfo) (rest : List RegionInfo) (err : Error)
    (h : checkRegionGaps cur rest = some err) : err.kind = ErrKind.ErrPDBatchScanRegion := by
  induction rest generalizing cur with
  | nil => simp [checkRegionGaps] at h
  | cons r rest ih =>
    rw [checkRegionGaps] at h
    split_ifs at h
    · cases h; rfl
    · exact ih r h

theorem fullCheck_kind (startKey endKey : Key) (regions : List RegionInfo) (err : Error)
    (h : CheckRegionConsistency startKey endKey regions = some err) :
    err.kind = ErrKind.ErrPDBatchScanRegion := by
  cases regions with
  | nil => simp [CheckRegionConsistency] at h; subst h; rfl
  | cons first rest =>
    simp only [CheckRegionConsistency] at h
    split_ifs at h
    · cases h; rfl
    · cases h; rfl
    · exact checkRegionGaps_kind first rest err h

theorem checkPartRegionGaps_shape (cur : RegionInfo) (rest : List RegionInfo) (err : Error)
    (h : checkPartRegionGaps cur rest = some err) :
    err.kind = ErrKind.ErrPDBatchScanRegion ∧ ∀ id : Nat, ¬ err.NamesRegion id := by
  induction rest generalizing cur with
  | nil => simp [checkPartRegionGaps] at h
  | cons r rest ih =>
    rw [checkPartRegionGaps] at h
    split_ifs at h
    · cases h; simp [Annotatef, Error.NamesRegion]
    · exact ih r h

theorem partCheck_shape (startKey endKey : Key) (regions : List RegionInfo) (err : Error)
    (h : CheckPartRegionConsistency startKey endKey regions = some err) :
    err.kind = ErrKind.ErrPDBatchScanRegion ∧ ∀ id : Nat, ¬ err.NamesRegion id := by
  cases regions with
  | nil =>
    simp [CheckPartRegionConsistency] at h; subst h; simp [Annotatef, Error.NamesRegion]
  | cons first rest =>
    simp only [CheckPartRegionConsistency] at h
    split_ifs at h
    · cases h; simp [Annotatef, Error.NamesRegion]
    · exact checkPartRegionGaps_shape first rest err h

theorem checkPartRegionGaps_last_endKey (cur : RegionInfo) (init : List RegionInfo)
    (last : RegionInfo) (k : Key) :
    checkPartRegionGaps cur (init ++ [last.withEndKey k]) =
      checkPartRegionGaps cur (init ++ [last]) := by
  induction init generalizing cur with
  | nil => simp [checkPartRegionGaps, RegionInfo.withEndKey]
  | cons r init ih => simp [checkPartRegionGaps, ih]

theorem partCheck_last_endKey (startKey endKey : Key) (init : List RegionInfo)
    (last : RegionInfo) (k : Key) :
    CheckPartRegionConsistency startKey endKey (init ++ [last.withEndKey k]) =
      CheckPartRegionConsistency startKey endKey (init ++ [last]) := by
  cases init with
  | nil => simp [CheckPartRegionConsistency, checkPartRegionGaps, RegionInfo.withEndKey]
  | cons first init =>
    simp [CheckPartRegionConsistency, checkPartRegionGaps_last_endKey]

theorem partCheck_endKey (startKey endKey endKey1 : Key) (regions : List RegionInfo)
    (h : regions ≠ []) :
    CheckPartRegionConsistency startKey endKey1 regions =
      CheckPartRegionConsistency startKey endKey regions := by
  cases regions with
  | nil => exact absurd rfl h
  | cons first rest => rfl

theorem checkRegionGaps_first_gap (cur : RegionInfo) (rest : List RegionInfo) (i : Nat)
    (a b : RegionInfo) (ha : (cur :: rest)[i]? = some a) (hb : (cur :: rest)[i + 1]? = some b)
    (hgap : a.Region.EndKey ≠ b.Region.StartKey) (hpre : Gapless ((cur :: rest).take (i + 1))) :
    checkRegionGaps cur rest =
      some (Annotatef ErrKind.ErrPDBatchScanRegion
        "region %d's endKey not equal to next region %d's startKey, endKey: %s, startKey: %s, region epoch: %s %s"
        [Arg.int a.Region.Id, Arg.int b.Region.Id,
         Arg.key a.Region.EndKey, Arg.key b.Region.StartKey,
         Arg.epoch a.Region.RegionEpoch, Arg.epoch b.Region.RegionEpoch]) := by
  induction rest generalizing cur i with
  | nil => simp at hb
  | cons r rest ih =>
    cases i with
    | zero =>
      simp at ha hb
      subst ha; subst hb
      simp [checkRegionGaps, bytesEqual, hgap]
    | succ i =>
      have hpre1 : Gapless (cur :: r :: List.take i rest) := by simpa using hpre
      rw [gapless_cons_cons] at hpre1
      rw [checkRegionGaps]
      simp only [bytesEqual, hpre1.1, decide_True, Bool.not_true, Bool.false_eq_true, if_false]
      exact ih r i (by simpa using ha) (by simpa using hb) (by simpa using hpre1.2)

theorem not_gapless_of_gap (regions : List RegionInfo) (i : Nat) (a b : RegionInfo)
    (ha : regions[i]? = some a) (hb : regions[i + 1]? = some b)
    (hgap : a.Region.EndKey ≠ b.Region.StartKey) : ¬ Gapless regions :=
  fun h => hgap (h i a b ha hb)

theorem chain_contains (k : Key) (cur : RegionInfo) (rest : List RegionInfo)
    (hgap : Gapless (cur :: rest)) (hstart : bytesCompare cur.Region.StartKey k ≤ 0)
    (hend : ∀ last ∈ (cur :: rest).getLast?,
      last.Region.EndKey = [] ∨ bytesCompare k last.Region.EndKey < 0) :
    ∃ r ∈ cur :: rest, r.Region.Contains k := by
  induction rest generalizing cur with
  | nil => exact ⟨cur, by simp, hstart, hend cur (by simp)⟩
  | cons r rest ih =>
    rw [gapless_cons_cons] at hgap
    by_cases hc : cur.Region.EndKey = [] ∨ bytesCompare k cur.Region.EndKey < 0
    · exact ⟨cur, by simp, hstart, hc⟩
    · have hr : bytesCompare r.Region.StartKey k ≤ 0 := by
        rw [← hgap.1, bytesCompare_swap]
        have : ¬ bytesCompare k cur.Region.EndKey < 0 := fun h => hc (Or.inr h)
        omega
      obtain ⟨x, hx, hcon⟩ := ih r hgap.2 hr (by
        intro last hl
        exact hend last (by simpa [List.getLast?_cons_cons] using hl))
      exact ⟨x, List.mem_cons_of_mem _ hx, hcon⟩

/-- Coverage of a bounded range: a list accepted by `CheckRegionConsistency` for a range with a
non-empty `endKey` contains every key of the range. -/
theorem bounded_range_covered (startKey endKey k : Key) (regions : List RegionInfo)
    (hacc : CheckRegionConsistency startKey endKey regions = none)
    (hlo : bytesCompare startKey k ≤ 0) (hhi : bytesCompare k endKey < 0) :
    ∃ r ∈ regions, r.Region.Contains k := by
  rw [fullCheck_accepts_iff] at hacc
  obtain ⟨hne, hs, he, hg⟩ := hacc
  cases regions with
  | nil => exact absurd rfl hne
  | cons first rest =>
    refine chain_contains k first rest hg (bytesCompare_le_trans (hs first (by simp)) hlo) ?_
    intro last hl
    rcases he last hl with h | h
    · exact Or.inl h
    · right
      have : bytesCompare endKey last.Region.EndKey ≤ 0 := by
        rw [bytesCompare_swap]; omega
      exact bytesCompare_lt_of_lt_of_le hhi this

/-! ## The retry driver and the scanners -/

theorem WithRetry_post {S : Type} (P : S → Prop) (ctxDone : Nat → Bool)
    (fn : S → WaitRegionOnlineBackoffer →
      Option (Outcome (Option Error × S × WaitRegionOnlineBackoffer)))
    (hfn : ∀ st b e st1 b1, fn st b = some (Outcome.returned (e, st1, b1)) → P st1) :
    ∀ (fuel n : Nat) (st : S) (b : WaitRegionOnlineBackoffer) (st1 : S)
      (b1 : WaitRegionOnlineBackoffer), (P st ∨ b.Attempt > 0) →
      WithRetry ctxDone fn fuel n st b = some (Outcome.returned (st1, b1)) → P st1 := by
  intro fuel
  induction fuel with
  | zero =>
    intro n st b st1 b1 h hrun
    rw [WithRetry] at hrun
    by_cases ha : b.Attempt > 0
    · rw [if_pos ha] at hrun; cases hrun
    · rw [if_neg ha] at hrun
      simp only [Option.some.injEq, Outcome.returned.injEq, Prod.mk.injEq] at hrun
      obtain ⟨rfl, rfl⟩ := hrun
      rcases h with h | h
      · exact h
      · exact absurd h ha
  | succ fuel ih =>
    intro n st b st1 b1 h hrun
    rw [WithRetry] at hrun
    by_cases ha : b.Attempt > 0
    · rw [if_pos ha] at hrun
      cases hq : fn st b with
      | none => rw [hq] at hrun; cases hrun
      | some o =>
        cases o with
        | panicked => rw [hq] at hrun; cases hrun
        | returned r =>
          obtain ⟨e, st2, b2⟩ := r
          have hP := hfn _ _ _ _ _ hq
          rw [hq] at hrun
          cases e with
          | none =>
            simp only [Option.some.injEq, Outcome.returned.injEq, Prod.mk.injEq] at hrun
            obtain ⟨rfl, rfl⟩ := hrun
            exact hP
          | some err =>
            simp only at hrun
            by_cases hc : ctxDone n = true
            · rw [if_pos hc] at hrun
              simp only [Option.some.injEq, Outcome.returned.injEq, Prod.mk.injEq] at hrun
              obtain ⟨rfl, rfl⟩ := hrun
              exact hP
            · rw [if_neg hc] at hrun
              exact ih _ _ _ _ _ (Or.inl hP) hrun
    · rw [if_neg ha] at hrun
      simp only [Option.some.injEq, Outcome.returned.injEq, Prod.mk.injEq] at hrun
      obtain ⟨rfl, rfl⟩ := hrun
      rcases h with h | h
      · exact h
      · exact absurd h ha

theorem scanPages_failed_kind {σ : Type} (c : SplitClient σ) (endKey : Key) (limit : Int) :
    ∀ (fuel : Nat) (client : σ) (calls : List ScanCall) (regions : List RegionInfo)
      (key : Key) (err : Error) (client1 : σ) (calls1 : List ScanCall),
      scanPages c endKey limit fuel client calls regions key =
        some (PageLoop.failed err client1 calls1) →
      err.kind = ErrKind.ErrPDBatchScanRegion := by
  intro fuel
  induction fuel with
  | zero => intro client calls regions key err client1 calls1 h; simp [scanPages] at h
  | succ fuel ih =>
    intro client calls regions key err client1 calls1 h
    rw [scanPages] at h
    simp only at h
    split at h
    · simp only [Option.some.injEq, PageLoop.failed.injEq] at h
      rw [← h.1]; rfl
    · split_ifs at h
      · cases h
      · split at h
        · cases h
        · split_ifs at h
          · cases h
          · exact ih _ _ _ _ _ _ _ h

theorem paginateAttempt_post {σ : Type} (c : SplitClient σ) (startKey endKey : Key)
    (limit : Int) (fuel : Nat) (v : ScanVars σ) (b : WaitRegionOnlineBackoffer)
    (e : Option Error) (v1 : ScanVars σ) (b1 : WaitRegionOnlineBackoffer)
    (h : paginateAttempt c startKey endKey limit fuel v b = some (Outcome.returned (e, v1, b1))) :
    (v1.err = none → CheckRegionConsistency startKey endKey v1.regions = none) ∧
    (∀ err, v1.err = some err → err.kind = ErrKind.ErrPDBatchScanRegion) := by
  unfold paginateAttempt at h
  split at h
  · cases h
  · cases h
  · next err client calls heq =>
    cases h
    refine ⟨fun h0 => by simp at h0, fun err1 he => ?_⟩
    simp only [Option.some.injEq] at he
    subst he
    exact scanPages_failed_kind c endKey limit _ _ _ _ _ _ _ _ heq
  · next regions client calls heq =>
    cases h
    exact ⟨fun h0 => h0, fun err he => fullCheck_kind _ _ _ err he⟩

theorem partCheck_kind (startKey endKey : Key) (regions : List RegionInfo) (err : Error)
    (h : CheckPartRegionConsistency startKey endKey regions = some err) :
    err.kind = ErrKind.ErrPDBatchScanRegion :=
  (partCheck_shape startKey endKey regions err h).1

theorem scanAttempt_post {σ : Type} (c : SplitClient σ) (startKey endKey : Key)
    (limit : Int) (v : ScanVars σ) (b : WaitRegionOnlineBackoffer)
    (e : Option Error) (v1 : ScanVars σ) (b1 : WaitRegionOnlineBackoffer)
    (h : scanAttempt c startKey endKey limit v b = some (Outcome.returned (e, v1, b1))) :
    (v1.err = none → CheckPartRegionConsistency startKey endKey v1.regions = none) ∧
    (∀ err, v1.err = some err → err.kind = ErrKind.ErrPDBatchScanRegion) := by
  unfold scanAttempt at h
  simp only at h
  split at h
  · cases h
    exact ⟨fun h0 => by simp at h0, fun err he => by simp at he; subst he; rfl⟩
  · cases h
    exact ⟨fun h0 => h0, fun err he => partCheck_kind _ _ _ err he⟩

theorem scanPages_serves {σ : Type} (c : SplitClient σ) (endKey : Key) (limit : Int)
    (final : List RegionInfo) (hfinal : (final.length : Int) < limit) :
    ∀ (pages : List (List RegionInfo)) (fuel : Nat) (client : σ) (calls : List ScanCall)
      (acc : List RegionInfo) (key : Key),
      pages.length < fuel →
      (∀ page ∈ pages, (page.length : Int) = limit) →
      (∀ page ∈ pages, ∀ r, page.getLast? = some r →
        r.Region.EndKey ≠ [] ∧ (endKey = [] ∨ bytesCompare r.Region.EndKey endKey < 0)) →
      ServesPages c endKey limit client key pages final →
      ∃ client1 newCalls,
        scanPages c endKey limit fuel client calls acc key =
          some (PageLoop.done (acc ++ pages.flatten ++ final) client1 (calls ++ newCalls)) ∧
        newCalls.length = pages.length + 1 := by
  intro pages
  induction pages with
  | nil =>
    intro fuel client calls acc key hfuel _ _ hserve
    obtain ⟨fuel, rfl⟩ : ∃ f, fuel = f + 1 := ⟨fuel - 1, by simp at hfuel; omega⟩
    simp only [ServesPages] at hserve
    refine ⟨(c.ScanRegions client key endKey limit).2,
      [{ key := key, endKey := endKey, limit := limit }], ?_, rfl⟩
    rw [scanPages]
    simp only [hserve, if_pos hfinal, List.flatten_nil, List.append_nil]
  | cons page pages ih =>
    intro fuel client calls acc key hfuel hsize hcursor hserve
    obtain ⟨fuel, rfl⟩ : ∃ f, fuel = f + 1 := ⟨fuel - 1, by simp at hfuel; omega⟩
    simp only [ServesPages] at hserve
    obtain ⟨hanswer, lastRegion, hlast, hrest⟩ := hserve
    have hlen : ¬ (page.length : Int) < limit := by
      have := hsize page (by simp)
      omega
    obtain ⟨hne, hbelow⟩ := hcursor page (by simp) lastRegion hlast
    have hstop : ¬ (lastRegion.Region.EndKey.length = 0 ∨
        (endKey.length > 0 ∧ bytesCompare lastRegion.Region.EndKey endKey ≥ 0)) := by
      rintro (h | ⟨h1, h2⟩)
      · exact hne (List.length_eq_zero.1 h)
      · rcases hbelow with h | h
        · simp [h] at h1
        · omega
    obtain ⟨client1, newCalls, hrun, hcount⟩ :=
      ih fuel (c.ScanRegions client key endKey limit).2
        (calls ++ [{ key := key, endKey := endKey, limit := limit }]) (acc ++ page)
        lastRegion.Region.EndKey (by simp at hfuel; omega)
        (fun q hq => hsize q (List.mem_cons_of_mem _ hq))
        (fun q hq => hcursor q (List.mem_cons_of_mem _ hq)) hrest
    refine ⟨client1, { key := key, endKey := endKey, limit := limit } :: newCalls, ?_, by
      simp [hcount]⟩
    rw [scanPages]
    simp only [hanswer, if_neg hlen, hlast, if_neg hstop, hrun, List.flatten_cons,
      List.append_assoc, List.singleton_append]

theorem length_flatten_of_full (limit : Int) (pages : List (List RegionInfo))
    (hsize : ∀ page ∈ pages, (page.length : Int) = limit) :
    (pages.flatten.length : Int) = pages.length * limit := by
  induction pages with
  | nil => simp
  | cons page pages ih =>
    have h1 := hsize page (by simp)
    have h2 := ih (fun q hq => hsize q (List.mem_cons_of_mem _ hq))
    simp only [List.flatten_cons, List.length_append, List.length_cons, Nat.cast_add,
      Nat.cast_one, h1, h2]
    ring

theorem page_count_floor (limit k f : Int) (hlimit : 1 ≤ limit) (hf0 : 0 ≤ f) (hf : f < limit) :
    (k * limit + f) / limit = k := by
  have h := (Int.ediv_emod_unique (a := k * limit + f) (b := limit) (r := f) (q := k)
    (by omega)).2 ⟨by ring, hf0, hf⟩
  exact h.1

theorem page_count_ceil (limit k f : Int) (hf0 : 1 ≤ f) (hf : f < limit) :
    (k * limit + f + limit - 1) / limit = k + 1 := by
  have h := (Int.ediv_emod_unique (a := k * limit + f + limit - 1) (b := limit) (r := f - 1)
    (q := k + 1) (by omega)).2 ⟨by ring, by omega, by omega⟩
  exact h.1

/-! ## The backoff policy -/

theorem NextBackoff_of_scan (b : WaitRegionOnlineBackoffer) (err : Error)
    (h : err.kind = ErrKind.ErrPDBatchScanRegion) :
    b.NextBackoff err = (b.Stat.ExponentialBackoff.1, { Stat := b.Stat.ExponentialBackoff.2 }) := by
  simp [WaitRegionOnlineBackoffer.NextBackoff, isErrPDBatchScanRegion, h]

theorem NextBackoff_of_other (b : WaitRegionOnlineBackoffer) (err : Error)
    (h : err.kind ≠ ErrKind.ErrPDBatchScanRegion) :
    b.NextBackoff err = (0, { Stat := b.Stat.StopRetry }) := by
  simp [WaitRegionOnlineBackoffer.NextBackoff, isErrPDBatchScanRegion, h]

theorem NextBackoff_attempt_of_scan (b : WaitRegionOnlineBackoffer) (err : Error)
    (h : err.kind = ErrKind.ErrPDBatchScanRegion) :
    (b.NextBackoff err).2.Attempt = b.Attempt - 1 := by
  rw [NextBackoff_of_scan b err h]
  simp only [WaitRegionOnlineBackoffer.Attempt, RetryState.Attempt,
    RetryState.ExponentialBackoff]
  omega

theorem NextBackoff_attempt_of_other (b : WaitRegionOnlineBackoffer) (err : Error)
    (h : err.kind ≠ ErrKind.ErrPDBatchScanRegion) :
    (b.NextBackoff err).2.Attempt = 0 := by
  rw [NextBackoff_of_other b err h]
  simp [WaitRegionOnlineBackoffer.Attempt, RetryState.Attempt, RetryState.StopRetry]

theorem delays_length (errs : List Error) :
    ∀ b : WaitRegionOnlineBackoffer, (b.delays errs).length = errs.length := by
  induction errs with
  | nil => intro b; rfl
  | cons err errs ih => intro b; simp [WaitRegionOnlineBackoffer.delays, ih]

theorem capped_double (x M : Int) (n : Nat) (h0 : 0 < x) (hM : x ≤ M) :
    min ((if x * 2 > M then M else x * 2) * 2 ^ n) M = min (x * 2 ^ (n + 1)) M := by
  have hp : (1 : Int) ≤ 2 ^ n := one_le_pow₀ (by norm_num)
  have hpow : x * 2 ^ (n + 1) = x * 2 * 2 ^ n := by ring
  split_ifs with h
  · have h1 : M ≤ M * 2 ^ n := by nlinarith
    have h2 : M ≤ x * 2 ^ (n + 1) := by rw [hpow]; nlinarith
    rw [min_eq_right h1, min_eq_right h2]
  · rw [hpow]

theorem delays_closed_form (errs : List Error) :
    ∀ (b : WaitRegionOnlineBackoffer), (∀ e ∈ errs, e.kind = ErrKind.ErrPDBatchScanRegion) →
      0 < b.Stat.nextBackoff → b.Stat.nextBackoff ≤ b.Stat.maxBackoff →
      ∀ (n : Nat) (d : Int), (b.delays errs)[n]? = some d →
        d = min (b.Stat.nextBackoff * 2 ^ n) b.Stat.maxBackoff := by
  induction errs with
  | nil => intro b _ _ _ n d h; simp [WaitRegionOnlineBackoffer.delays] at h
  | cons err errs ih =>
    intro b hk h0 hM n d h
    have hscan := NextBackoff_of_scan b err (hk err (by simp))
    simp only [WaitRegionOnlineBackoffer.delays, hscan] at h
    cases n with
    | zero =>
      simp only [List.getElem?_cons_zero, Option.some.injEq] at h
      rw [← h]
      simp [RetryState.ExponentialBackoff, min_eq_left hM]
    | succ n =>
      simp only [List.getElem?_cons_succ] at h
      have hnext : (b.Stat.ExponentialBackoff.2).nextBackoff =
          if b.Stat.nextBackoff * 2 > b.Stat.maxBackoff then b.Stat.maxBackoff
          else b.Stat.nextBackoff * 2 := rfl
      have hmax : (b.Stat.ExponentialBackoff.2).maxBackoff = b.Stat.maxBackoff := rfl
      have h0' : 0 < (b.Stat.ExponentialBackoff.2).nextBackoff := by
        rw [hnext]; split_ifs <;> omega
      have hM' : (b.Stat.ExponentialBackoff.2).nextBackoff ≤
          (b.Stat.ExponentialBackoff.2).maxBackoff := by
        rw [hnext, hmax]; split_ifs <;> omega
      have := ih { Stat := b.Stat.ExponentialBackoff.2 }
        (fun e he => hk e (List.mem_cons_of_mem _ he)) h0' hM' n d h
      rw [this]
      simp only [hnext, hmax]
      exact capped_double _ _ n h0 hM

theorem checkPartRegionGaps_first_gap (cur : RegionInfo) (rest : List RegionInfo) (i : Nat)
    (a b : RegionInfo) (ha : (cur :: rest)[i]? = some a) (hb : (cur :: rest)[i + 1]? = some b)
    (hgap : a.Region.EndKey ≠ b.Region.StartKey) (hpre : Gapless ((cur :: rest).take (i + 1))) :
    checkPartRegionGaps cur rest =
      some (Annotatef ErrKind.ErrPDBatchScanRegion
        "region endKey not equal to next region startKey, endKey: %s, startKey: %s"
        [Arg.key a.Region.EndKey, Arg.key b.Region.StartKey]) := by
  induction rest generalizing cur i with
  | nil => simp at hb
  | cons r rest ih =>
    cases i with
    | zero =>
      simp at ha hb
      subst ha; subst hb
      simp [checkPartRegionGaps, bytesEqual, hgap]
    | succ i =>
      have hpre1 : Gapless (cur :: r :: List.take i rest) := by simpa using hpre
      rw [gapless_cons_cons] at hpre1
      rw [checkPartRegionGaps]
      simp only [bytesEqual, hpre1.1, decide_True, Bool.not_true, Bool.false_eq_true, if_false]
      exact ih r i (by simpa using ha) (by simpa using hb) (by simpa using hpre1.2)

theorem fullCheck_of_covered (startKey endKey : Key) (first : RegionInfo)
    (rest : List RegionInfo) (hs : StartCovered startKey (first :: rest))
    (he : EndCovered endKey (first :: rest)) :
    CheckRegionConsistency startKey endKey (first :: rest) = checkRegionGaps first rest := by
  have h1 : ¬ bytesCompare first.Region.StartKey startKey > 0 := by
    have := hs first (by simp)
    omega
  have h2 : ¬ (((first :: rest).getLast (List.cons_ne_nil first rest)).Region.EndKey.length
      ≠ 0 ∧ bytesCompare ((first :: rest).getLast
        (List.cons_ne_nil first rest)).Region.EndKey endKey < 0) := by
    rintro ⟨hlen, hlt⟩
    rcases he _ (List.getLast?_eq_getLast _ (List.cons_ne_nil first rest)) with h | h
    · exact hlen (by simp [h])
    · omega
  simp only [CheckRegionConsistency]
  rw [if_neg h1, if_neg h2]

theorem partCheck_of_covered (startKey endKey : Key) (first : RegionInfo)
    (rest : List RegionInfo) (hs : StartCovered startKey (first :: rest)) :
    CheckPartRegionConsistency startKey endKey (first :: rest) =
      checkPartRegionGaps first rest := by
  have h1 : ¬ bytesCompare first.Region.StartKey startKey > 0 := by
    have := hs first (by simp)
    omega
  simp only [CheckPartRegionConsistency]
  rw [if_neg h1]

theorem scanPages_of_query_error {σ : Type} (c : SplitClient σ) (endKey : Key) (limit : Int)
    (fuel : Nat) (client : σ) (calls : List ScanCall) (regions : List RegionInfo) (key : Key)
    (clientErr : ClientError)
    (h : (c.ScanRegions client key endKey limit).1.2 = some clientErr) :
    scanPages c endKey limit (fuel + 1) client calls regions key =
      some (PageLoop.failed
        (Annotatef ErrKind.ErrPDBatchScanRegion "scan regions from start-key:%s, err: %s"
          [Arg.key key, Arg.str clientErr.text])
        (c.ScanRegions client key endKey limit).2
        (calls ++ [{ key := key, endKey := endKey, limit := limit }])) := by
  rw [scanPages]
  simp only [h]

theorem WithRetry_attempt_le {S : Type} (ctxDone : Nat → Bool)
    (fn : S → WaitRegionOnlineBackoffer →
      Option (Outcome (Option Error × S × WaitRegionOnlineBackoffer)))
    (hfn : ∀ st b e st1 b1, fn st b = some (Outcome.returned (e, st1, b1)) →
      b1 = b ∧ ∀ err, e = some err → err.kind = ErrKind.ErrPDBatchScanRegion) :
    ∀ (fuel n : Nat) (st : S) (b : WaitRegionOnlineBackoffer) (st1 : S)
      (b1 : WaitRegionOnlineBackoffer),
      WithRetry ctxDone fn fuel n st b = some (Outcome.returned (st1, b1)) →
      b1.Attempt ≤ b.Attempt := by
  intro fuel
  induction fuel with
  | zero =>
    intro n st b st1 b1 hrun
    rw [WithRetry] at hrun
    by_cases ha : b.Attempt > 0
    · rw [if_pos ha] at hrun; cases hrun
    · rw [if_neg ha] at hrun
      simp only [Option.some.injEq, Outcome.returned.injEq, Prod.mk.injEq] at hrun
      obtain ⟨rfl, rfl⟩ := hrun
      exact le_rfl
  | succ fuel ih =>
    intro n st b st1 b1 hrun
    rw [WithRetry] at hrun
    by_cases ha : b.Attempt > 0
    · rw [if_pos ha] at hrun
      cases hq : fn st b with
      | none => rw [hq] at hrun; cases hrun
      | some o =>
        cases o with
        | panicked => rw [hq] at hrun; cases hrun
        | returned r =>
          obtain ⟨e, st2, b2⟩ := r
          obtain ⟨hb, hkind⟩ := hfn _ _ _ _ _ hq
          subst hb
          rw [hq] at hrun
          cases e with
          | none =>
            simp only [Option.some.injEq, Outcome.returned.injEq, Prod.mk.injEq] at hrun
            obtain ⟨rfl, rfl⟩ := hrun
            exact le_rfl
          | some err =>
            have hstep := NextBackoff_attempt_of_scan b2 err (hkind err rfl)
            simp only at hrun
            by_cases hc : ctxDone n = true
            · rw [if_pos hc] at hrun
              simp only [Option.some.injEq, Outcome.returned.injEq, Prod.mk.injEq] at hrun
              obtain ⟨rfl, rfl⟩ := hrun
              omega
            · rw [if_neg hc] at hrun
              have := ih _ _ _ _ _ hrun
              omega
    · rw [if_neg ha] at hrun
      simp only [Option.some.injEq, Outcome.returned.injEq, Prod.mk.injEq] at hrun
      obtain ⟨rfl, rfl⟩ := hrun
      exact le_rfl

theorem scanAttempt_backoffer {σ : Type} (c : SplitClient σ) (startKey endKey : Key)
    (limit : Int) (v : ScanVars σ) (b : WaitRegionOnlineBackoffer)
    (e : Option Error) (v1 : ScanVars σ) (b1 : WaitRegionOnlineBackoffer)
    (h : scanAttempt c startKey endKey limit v b = some (Outcome.returned (e, v1, b1))) :
    b1 = b ∧ v1.err = e := by
  unfold scanAttempt at h
  simp only at h
  split at h
  · cases h; exact ⟨rfl, rfl⟩
  · cases h; exact ⟨rfl, rfl⟩

theorem paginateAttempt_of_done {σ : Type} (c : SplitClient σ) (startKey endKey : Key)
    (limit : Int) (fuel : Nat) (v : ScanVars σ) (b : WaitRegionOnlineBackoffer)
    (regions : List RegionInfo) (client1 : σ) (calls1 : List ScanCall)
    (h : scanPages c endKey limit fuel v.client v.calls [] startKey =
      some (PageLoop.done regions client1 calls1)) :
    paginateAttempt c startKey endKey limit fuel v b =
      some (Outcome.returned
        (CheckRegionConsistency startKey endKey regions,
         { client := client1, calls := calls1, regions := regions,
           err := CheckRegionConsistency startKey endKey regions },
         if regions.length ≠ v.regions.length then { Stat := b.Stat.ReduceRetry } else b)) := by
  unfold paginateAttempt
  rw [h]

theorem ReduceRetry_attempt (b : WaitRegionOnlineBackoffer) :
    ({ Stat := b.Stat.ReduceRetry } : WaitRegionOnlineBackoffer).Attempt = b.Attempt + 1 := by
  simp only [WaitRegionOnlineBackoffer.Attempt, RetryState.Attempt, RetryState.ReduceRetry]
  omega

theorem WithRetry_succ_ok {S : Type} (ctxDone : Nat → Bool)
    (fn : S → WaitRegionOnlineBackoffer →
      Option (Outcome (Option Error × S × WaitRegionOnlineBackoffer)))
    (fuel n : Nat) (st : S) (b : WaitRegionOnlineBackoffer) (st1 : S)
    (b1 : WaitRegionOnlineBackoffer) (ha : b.Attempt > 0)
    (hq : fn st b = some (Outcome.returned (none, st1, b1))) :
    WithRetry ctxDone fn (fuel + 1) n st b = some (Outcome.returned (st1, b1)) := by
  rw [WithRetry, if_pos ha, hq]

theorem WithRetry_succ_err {S : Type} (ctxDone : Nat → Bool)
    (fn : S → WaitRegionOnlineBackoffer →
      Option (Outcome (Option Error × S × WaitRegionOnlineBackoffer)))
    (fuel n : Nat) (st : S) (b : WaitRegionOnlineBackoffer) (err : Error) (st1 : S)
    (b1 : WaitRegionOnlineBackoffer) (ha : b.Attempt > 0)
    (hq : fn st b = some (Outcome.returned (some err, st1, b1))) :
    WithRetry ctxDone fn (fuel + 1) n st b =
      if ctxDone n then some (Outcome.returned (st1, (b1.NextBackoff err).2))
      else WithRetry ctxDone fn fuel (n + 1) st1 (b1.NextBackoff err).2 := by
  rw [WithRetry, if_pos ha, hq]

theorem WithRetry_exhausted {S : Type} (ctxDone : Nat → Bool)
    (fn : S → WaitRegionOnlineBackoffer →
      Option (Outcome (Option Error × S × WaitRegionOnlineBackoffer)))
    (fuel n : Nat) (st : S) (b : WaitRegionOnlineBackoffer) (ha : ¬ b.Attempt > 0) :
    WithRetry ctxDone fn fuel n st b = some (Outcome.returned (st, b)) := by
  cases fuel with
  | zero => rw [WithRetry, if_neg ha]
  | succ fuel => rw [WithRetry, if_neg ha]

theorem WithRetry_recorded {S : Type} (ctxDone : Nat → Bool)
    (fn : S → WaitRegionOnlineBackoffer →
      Option (Outcome (Option Error × S × WaitRegionOnlineBackoffer))) :
    ∀ (fuel n : Nat) (st : S) (log : List (Option Error)) (b : WaitRegionOnlineBackoffer),
      WithRetry ctxDone fn fuel n st b =
        match WithRetry ctxDone (recordReturns fn) fuel n (st, log) b with
        | none => none
        | some Outcome.panicked => some Outcome.panicked
        | some (Outcome.returned (v, b1)) => some (Outcome.returned (v.1, b1)) := by
  intro fuel
  induction fuel with
  | zero =>
    intro n st log b
    rw [WithRetry, WithRetry]
    by_cases ha : b.Attempt > 0
    · rw [if_pos ha, if_pos ha]
    · rw [if_neg ha, if_neg ha]
  | succ fuel ih =>
    intro n st log b
    rw [WithRetry, WithRetry]
    by_cases ha : b.Attempt > 0
    · rw [if_pos ha, if_pos ha]
      simp only [recordReturns]
      cases hq : fn st b with
      | none => rfl
      | some o =>
        cases o with
        | panicked => rfl
        | returned r =>
          obtain ⟨e, st1, b1⟩ := r
          cases e with
          | none => rfl
          | some err =>
            simp only
            by_cases hc : ctxDone n = true
            · rw [if_pos hc, if_pos hc]
            · rw [if_neg hc, if_neg hc]
              exact ih _ _ _ _
    · rw [if_neg ha, if_neg ha]

theorem recorded_last {S : Type} (Q : Option Error → S → Prop) (ctxDone : Nat → Bool)
    (fn : S → WaitRegionOnlineBackoffer →
      Option (Outcome (Option Error × S × WaitRegionOnlineBackoffer)))
    (hfn : ∀ st b e st1 b1, fn st b = some (Outcome.returned (e, st1, b1)) → Q e st1)
    (fuel n : Nat) (st : S) (b : WaitRegionOnlineBackoffer) (v : S × List (Option Error))
    (b1 : WaitRegionOnlineBackoffer)
    (hrun : WithRetry ctxDone (recordReturns fn) fuel n (st, []) b =
      some (Outcome.returned (v, b1))) :
    ∀ last, v.2.getLast? = some last → Q last v.1 := by
  refine WithRetry_post
    (fun p : S × List (Option Error) => ∀ last, p.2.getLast? = some last → Q last p.1)
    ctxDone (recordReturns fn) ?_ fuel n (st, []) b v b1 (Or.inl ?_) hrun
  · intro p b2 e p1 b3 h
    unfold recordReturns at h
    cases hq : fn p.1 b2 with
    | none => rw [hq] at h; cases h
    | some o =>
      cases o with
      | panicked => rw [hq] at h; cases h
      | returned r =>
        obtain ⟨e1, st1, b4⟩ := r
        rw [hq] at h
        simp only [Option.some.injEq, Outcome.returned.injEq, Prod.mk.injEq] at h
        obtain ⟨rfl, rfl, rfl⟩ := h
        intro last hlast
        have hl : (p.2 ++ [e1]).getLast? = some e1 := by simp
        rw [hl] at hlast
        simp only [Option.some.injEq] at hlast
        subst hlast
        exact hfn _ _ _ _ _ hq
  · intro last hlast
    simp at hlast

theorem scanPages_failed_form {σ : Type} (c : SplitClient σ) (endKey : Key) (limit : Int) :
    ∀ (fuel : Nat) (client : σ) (calls : List ScanCall) (regions : List RegionInfo)
      (key : Key) (err : Error) (client1 : σ) (calls1 : List ScanCall),
      scanPages c endKey limit fuel client calls regions key =
        some (PageLoop.failed err client1 calls1) →
      ∃ (cursor : Key) (text : String),
        err = Annotatef ErrKind.ErrPDBatchScanRegion "scan regions from start-key:%s, err: %s"
          [Arg.key cursor, Arg.str text] := by
  intro fuel
  induction fuel with
  | zero => intro client calls regions key err client1 calls1 h; simp [scanPages] at h
  | succ fuel ih =>
    intro client calls regions key err client1 calls1 h
    rw [scanPages] at h
    simp only at h
    split at h
    · next clientErr _ =>
      simp only [Option.some.injEq, PageLoop.failed.injEq] at h
      exact ⟨key, clientErr.text, h.1.symm⟩
    · split_ifs at h
      · cases h
      · split at h
        · cases h
        · split_ifs at h
          · cases h
          · exact ih _ _ _ _ _ _ _ h

theorem paginateAttempt_returns {σ : Type} (c : SplitClient σ) (startKey endKey : Key)
    (limit : Int) (fuel : Nat) (v : ScanVars σ) (b : WaitRegionOnlineBackoffer)
    (e : Option Error) (v1 : ScanVars σ) (b1 : WaitRegionOnlineBackoffer)
    (h : paginateAttempt c startKey endKey limit fuel v b = some (Outcome.returned (e, v1, b1))) :
    v1.err = e ∧ ∀ err, e = some err →
      (∃ (cursor : Key) (text : String),
        err = Annotatef ErrKind.ErrPDBatchScanRegion "scan regions from start-key:%s, err: %s"
          [Arg.key cursor, Arg.str text]) ∨
      CheckRegionConsistency startKey endKey v1.regions = some err := by
  unfold paginateAttempt at h
  split at h
  · cases h
  · cases h
  · next err client calls heq =>
    cases h
    refine ⟨rfl, fun err1 he => Or.inl ?_⟩
    simp only [Option.some.injEq] at he
    subst he
    exact scanPages_failed_form c endKey limit _ _ _ _ _ _ _ _ heq
  · next regions client calls heq =>
    cases h
    exact ⟨rfl, fun err he => Or.inr he⟩

theorem scanAttempt_returns {σ : Type} (c : SplitClient σ) (startKey endKey : Key)
    (limit : Int) (v : ScanVars σ) (b : WaitRegionOnlineBackoffer)
    (e : Option Error) (v1 : ScanVars σ) (b1 : WaitRegionOnlineBackoffer)
    (h : scanAttempt c startKey endKey limit v b = some (Outcome.returned (e, v1, b1))) :
    v1.err = e ∧ ∀ err, e = some err →
      (∃ text : String,
        err = Annotatef ErrKind.ErrPDBatchScanRegion "scan regions from start-key:%s, err: %s"
          [Arg.key startKey, Arg.str text]) ∨
      CheckPartRegionConsistency startKey endKey v1.regions = some err := by
  unfold scanAttempt at h
  simp only at h
  split at h
  · next clientErr _ =>
    cases h
    refine ⟨rfl, fun err he => Or.inl ⟨clientErr.text, ?_⟩⟩
    simp only [Option.some.injEq] at he
    exact he.symm
  · cases h
    exact ⟨rfl, fun err he => Or.inr he⟩

theorem scanPages_calls_extend {σ : Type} (c : SplitClient σ) (endKey : Key) (limit : Int) :
    ∀ (fuel : Nat) (client : σ) (calls : List ScanCall) (regions : List RegionInfo)
      (key : Key) (r : PageLoop σ),
      scanPages c endKey limit (fuel + 1) client calls regions key = some r →
      ∃ more, r.calls = calls ++ { key := key, endKey := endKey, limit := limit } :: more := by
  intro fuel
  induction fuel with
  | zero =>
    intro client calls regions key r h
    rw [scanPages] at h
    simp only at h
    split at h
    · cases h; exact ⟨[], rfl⟩
    · split_ifs at h
      · cases h; exact ⟨[], rfl⟩
      · split at h
        · cases h; exact ⟨[], rfl⟩
        · split_ifs at h
          · cases h; exact ⟨[], rfl⟩
          · simp [scanPages] at h
  | succ fuel ih =>
    intro client calls regions key r h
    rw [scanPages] at h
    simp only at h
    split at h
    · cases h; exact ⟨[], rfl⟩
    · split_ifs at h
      · cases h; exact ⟨[], rfl⟩
      · split at h
        · cases h; exact ⟨[], rfl⟩
        · split_ifs at h
          · cases h; exact ⟨[], rfl⟩
          · next lastRegion _ _ =>
            obtain ⟨more, hmore⟩ := ih _ _ _ _ _ h
            exact ⟨{ key := lastRegion.Region.EndKey, endKey := endKey, limit := limit } :: more,
              by rw [hmore]; simp⟩

theorem scanPages_of_stop {σ : Type} (c : SplitClient σ) (endKey : Key) (limit : Int)
    (fuel : Nat) (client : σ) (calls : List ScanCall) (regions : List RegionInfo) (key : Key)
    (batch : List RegionInfo) (client1 : σ)
    (hanswer : c.ScanRegions client key endKey limit = ((batch, none), client1))
    (hstop : (batch.length : Int) < limit ∨ ∃ last, batch.getLast? = some last ∧
      (last.Region.EndKey = [] ∨ (endKey ≠ [] ∧ bytesCompare last.Region.EndKey endKey ≥ 0))) :
    scanPages c endKey limit (fuel + 1) client calls regions key =
      some (PageLoop.done (regions ++ batch) client1
        (calls ++ [{ key := key, endKey := endKey, limit := limit }])) := by
  rw [scanPages]
  simp only [hanswer]
  by_cases hlen : (batch.length : Int) < limit
  · rw [if_pos hlen]
  · rw [if_neg hlen]
    rcases hstop with h | ⟨last, hlast, hcur⟩
    · exact absurd h hlen
    · simp only [hlast]
      rw [if_pos]
      rcases hcur with h | ⟨h1, h2⟩
      · exact Or.inl (by simp [h])
      · exact Or.inr ⟨List.length_pos.2 h1, h2⟩

theorem scanPages_of_continue {σ : Type} (c : SplitClient σ) (endKey : Key) (limit : Int)
    (fuel : Nat) (client : σ) (calls : List ScanCall) (regions : List RegionInfo) (key : Key)
    (batch : List RegionInfo) (client1 : σ) (last : RegionInfo)
    (hanswer : c.ScanRegions client key endKey limit = ((batch, none), client1))
    (hlast : batch.getLast? = some last)
    (hgo : ¬ ((batch.length : Int) < limit ∨ last.Region.EndKey = [] ∨
      (endKey ≠ [] ∧ bytesCompare last.Region.EndKey endKey ≥ 0))) :
    scanPages c endKey limit (fuel + 1) client calls regions key =
      scanPages c endKey limit fuel client1
        (calls ++ [{ key := key, endKey := endKey, limit := limit }]) (regions ++ batch)
        last.Region.EndKey := by
  rw [scanPages]
  simp only [hanswer]
  have hlen : ¬ (batch.length : Int) < limit := fun h => hgo (Or.inl h)
  rw [if_neg hlen]
  simp only [hlast]
  rw [if_neg]
  rintro (h | ⟨h1, h2⟩)
  · exact hgo (Or.inr (Or.inl (List.length_eq_zero.1 h)))
  · exact hgo (Or.inr (Or.inr ⟨List.length_pos.1 h1, h2⟩))

theorem checkRegionGaps_format (cur : RegionInfo) (rest : List RegionInfo) (err : Error)
    (h : checkRegionGaps cur rest = some err) :
    err.format =
      "region %d's endKey not equal to next region %d's startKey, endKey: %s, startKey: %s, region epoch: %s %s" := by
  induction rest generalizing cur with
  | nil => simp [checkRegionGaps] at h
  | cons r rest ih =>
    rw [checkRegionGaps] at h
    split_ifs at h
    · cases h; rfl
    · exact ih r h

theorem endCovered_of_unbounded (regions : List RegionInfo) : EndCovered [] regions :=
  fun last _ => Or.inr (bytesCompare_nil_right last.Region.EndKey)

theorem scanPages_in_range {σ : Type} (c : SplitClient σ) (endKey : Key) (limit : Int)
    (hlimit : 1 ≤ limit) :
    ∀ (fuel : Nat) (client : σ) (calls : List ScanCall) (regions : List RegionInfo)
      (key : Key) (client1 : σ) (calls1 : List ScanCall),
      scanPages c endKey limit fuel client calls regions key ≠
        some (PageLoop.indexOutOfRange client1 calls1) := by
  intro fuel
  induction fuel with
  | zero => intro client calls regions key client1 calls1 h; simp [scanPages] at h
  | succ fuel ih =>
    intro client calls regions key client1 calls1 h
    rw [scanPages] at h
    simp only at h
    split at h
    · cases h
    · split_ifs at h with hlen
      · cases h
      · split at h
        · next hlast =>
          rw [List.getLast?_eq_none_iff] at hlast
          rw [hlast] at hlen
          simp only [List.length_nil, Nat.cast_zero, not_lt] at hlen
          omega
        · split_ifs at h
          · cases h
          · exact ih _ _ _ _ _ _ h

theorem paginateAttempt_in_range {σ : Type} (c : SplitClient σ) (startKey endKey : Key)
    (limit : Int) (hlimit : 1 ≤ limit) (fuel : Nat) (v : ScanVars σ)
    (b : WaitRegionOnlineBackoffer) :
    paginateAttempt c startKey endKey limit fuel v b ≠ some Outcome.panicked := by
  intro h
  unfold paginateAttempt at h
  split at h
  · cases h
  · next heq => exact scanPages_in_range c endKey limit hlimit _ _ _ _ _ _ _ heq
  · cases h
  · cases h

theorem WithRetry_no_panic {S : Type} (ctxDone : Nat → Bool)
    (fn : S → WaitRegionOnlineBackoffer →
      Option (Outcome (Option Error × S × WaitRegionOnlineBackoffer)))
    (hfn : ∀ st b, fn st b ≠ some Outcome.panicked) :
    ∀ (fuel n : Nat) (st : S) (b : WaitRegionOnlineBackoffer),
      WithRetry ctxDone fn fuel n st b ≠ some Outcome.panicked := by
  intro fuel
  induction fuel with
  | zero =>
    intro n st b h
    rw [WithRetry] at h
    split_ifs at h
    cases h
  | succ fuel ih =>
    intro n st b h
    rw [WithRetry] at h
    by_cases ha : b.Attempt > 0
    · rw [if_pos ha] at h
      cases hq : fn st b with
      | none => rw [hq] at h; cases h
      | some o =>
        cases o with
        | panicked => exact hfn st b hq
        | returned r =>
          obtain ⟨e, st1, b1⟩ := r
          rw [hq] at h
          cases e with
          | none => cases h
          | some err =>
            simp only at h
            by_cases hc : ctxDone n = true
            · rw [if_pos hc] at h; cases h
            · rw [if_neg hc] at h
              exact ih _ _ _ h
    · rw [if_neg ha] at h; cases h

/-- C2: the full checker `CheckRegionConsistency` returns success (a nil error) if and only if
the four invariants hold: the list is non-empty, the first region's start key is at most
`startKey`, the last region's end key is empty or at least `endKey`, and every adjacent pair has
the end key of the one byte-equal to the start key of the next. -/
theorem CheckRegionConsistency_eq_none_iff (startKey endKey : Key)
    (regions : List RegionInfo) :
    CheckRegionConsistency startKey endKey regions = none ↔
      regions ≠ [] ∧ StartCovered startKey regions ∧ EndCovered endKey regions ∧
        Gapless regions :=
  fullCheck_accepts_iff startKey endKey regions

/-- C3: the partial checker `CheckPartRegionConsistency` returns success if and only if the list
is non-empty, the first region's start key is at most `startKey` and every adjacent pair has the
end key of the one equal to the start key of the next. Whether it succeeds is the same for every
`endKey` (and for a non-empty list so is the error it returns), and replacing the end key of the
last region leaves what it returns unchanged. -/
theorem CheckPartRegionConsistency_eq_none_iff (startKey endKey : Key)
    (regions : List RegionInfo) :
    (CheckPartRegionConsistency startKey endKey regions = none ↔
      regions ≠ [] ∧ StartCovered startKey regions ∧ Gapless regions) ∧
    (∀ endKey1 : Key,
      (CheckPartRegionConsistency startKey endKey1 regions = none ↔
        CheckPartRegionConsistency startKey endKey regions = none) ∧
      (regions ≠ [] → CheckPartRegionConsistency startKey endKey1 regions =
        CheckPartRegionConsistency startKey endKey regions)) ∧
    (∀ (init : List RegionInfo) (last : RegionInfo) (k : Key), regions = init ++ [last] →
      CheckPartRegionConsistency startKey endKey (init ++ [last.withEndKey k]) =
        CheckPartRegionConsistency startKey endKey regions) := by
  refine ⟨partCheck_accepts_iff startKey endKey regions, ?_, ?_⟩
  · intro endKey1
    refine ⟨?_, partCheck_endKey startKey endKey endKey1 regions⟩
    rw [partCheck_accepts_iff, partCheck_accepts_iff]
  · intro init last k h
    rw [h]
    exact partCheck_last_endKey startKey endKey init last k

/-- C3, at a concrete list: two regions `[a, b)`, `[b, c)` for the range `[a, z)`. -/
theorem CheckPartRegionConsistency_eq_none_iff_witness :
    CheckPartRegionConsistency [97] [] [⟨⟨1, [97], [98], ⟨1, 1⟩⟩⟩, ⟨⟨2, [98], [99], ⟨1, 1⟩⟩⟩] =
      CheckPartRegionConsistency [97] [122]
        [⟨⟨1, [97], [98], ⟨1, 1⟩⟩⟩, ⟨⟨2, [98], [99], ⟨1, 1⟩⟩⟩] :=
  ((CheckPartRegionConsistency_eq_none_iff [97] [122]
    [⟨⟨1, [97], [98], ⟨1, 1⟩⟩⟩, ⟨⟨2, [98], [99], ⟨1, 1⟩⟩⟩]).2.1 []).2 (by decide)

/-- C4: a gapless region list that starts correctly but whose last region's end key is non-empty
and strictly below the requested `endKey` fails `CheckRegionConsistency` (with the error of the
last region's end key) and passes `CheckPartRegionConsistency`. -/
theorem short_scan_fails_full_passes_part (startKey endKey : Key) (regions : List RegionInfo)
    (last : RegionInfo) (hne : regions ≠ []) (hstart : StartCovered startKey regions)
    (hgap : Gapless regions) (hlast : regions.getLast? = some last)
    (hend : last.Region.EndKey ≠ []) (hshort : bytesCompare last.Region.EndKey endKey < 0) :
    CheckRegionConsistency startKey endKey regions =
      some (Annotatef ErrKind.ErrPDBatchScanRegion
        "last region %d's endKey(%s) < endKey(%s), region epoch: %s"
        [Arg.int last.Region.Id, Arg.key last.Region.EndKey, Arg.key endKey,
         Arg.epoch last.Region.RegionEpoch]) ∧
    CheckPartRegionConsistency startKey endKey regions = none := by
  refine ⟨?_, (partCheck_accepts_iff startKey endKey regions).2 ⟨hne, hstart, hgap⟩⟩
  cases regions with
  | nil => exact absurd rfl hne
  | cons first rest =>
    have hl : (first :: rest).getLast (List.cons_ne_nil first rest) = last := by
      rw [List.getLast?_eq_getLast _ (List.cons_ne_nil first rest)] at hlast
      exact Option.some.inj hlast
    have hs : ¬ bytesCompare first.Region.StartKey startKey > 0 := by
      have := hstart first (by simp)
      omega
    have hlen : last.Region.EndKey.length ≠ 0 := by
      simpa [List.length_eq_zero] using hend
    simp only [CheckRegionConsistency, hl]
    rw [if_neg hs, if_pos ⟨hlen, hshort⟩]

/-- C4, at a concrete list: regions `[a, b)`, `[b, c)` for the range `[a, z)`. -/
theorem short_scan_fails_full_passes_part_witness :
    CheckRegionConsistency [97] [122]
        [⟨⟨1, [97], [98], ⟨1, 1⟩⟩⟩, ⟨⟨2, [98], [99], ⟨1, 1⟩⟩⟩] =
      some (Annotatef ErrKind.ErrPDBatchScanRegion
        "last region %d's endKey(%s) < endKey(%s), region epoch: %s"
        [Arg.int 2, Arg.key [99], Arg.key [122], Arg.epoch ⟨1, 1⟩]) ∧
    CheckPartRegionConsistency [97] [122]
        [⟨⟨1, [97], [98], ⟨1, 1⟩⟩⟩, ⟨⟨2, [98], [99], ⟨1, 1⟩⟩⟩] = none :=
  short_scan_fails_full_passes_part [97] [122]
    [⟨⟨1, [97], [98], ⟨1, 1⟩⟩⟩, ⟨⟨2, [98], [99], ⟨1, 1⟩⟩⟩] ⟨⟨2, [98], [99], ⟨1, 1⟩⟩⟩
    (by decide) (by simp [StartCovered, bytesCompare])
    (by rw [gapless_cons_cons]; exact ⟨rfl, gapless_singleton _⟩) (by rfl) (by decide)
    (by decide)

/-- C6: a non-empty region list whose first region's start key is strictly greater than the
requested `startKey` fails both checkers, whatever `endKey` and the rest of the list are; each
returns its error of the first region's start key, of the scan class. -/
theorem first_startKey_overrun_fails_both (startKey endKey : Key) (first : RegionInfo)
    (rest : List RegionInfo) (h : bytesCompare first.Region.StartKey startKey > 0) :
    CheckRegionConsistency startKey endKey (first :: rest) =
      some (Annotatef ErrKind.ErrPDBatchScanRegion
        "first region %d's startKey(%s) > startKey(%s), region epoch: %s"
        [Arg.int first.Region.Id, Arg.key first.Region.StartKey, Arg.key startKey,
         Arg.epoch first.Region.RegionEpoch]) ∧
    CheckPartRegionConsistency startKey endKey (first :: rest) =
      some (Annotatef ErrKind.ErrPDBatchScanRegion
        "first region's startKey > startKey, startKey: %s, regionStartKey: %s"
        [Arg.key startKey, Arg.key first.Region.StartKey]) := by
  constructor
  · simp only [CheckRegionConsistency]
    rw [if_pos h]
  · simp only [CheckPartRegionConsistency]
    rw [if_pos h]

/-- C6, at a concrete list: the first region starts at `b`, the range at `a`. -/
theorem first_startKey_overrun_fails_both_witness :
    CheckRegionConsistency [97] [122] [⟨⟨7, [98], [99], ⟨1, 1⟩⟩⟩] =
      some (Annotatef ErrKind.ErrPDBatchScanRegion
        "first region %d's startKey(%s) > startKey(%s), region epoch: %s"
        [Arg.int 7, Arg.key [98], Arg.key [97], Arg.epoch ⟨1, 1⟩]) ∧
    CheckPartRegionConsistency [97] [122] [⟨⟨7, [98], [99], ⟨1, 1⟩⟩⟩] =
      some (Annotatef ErrKind.ErrPDBatchScanRegion
        "first region's startKey > startKey, startKey: %s, regionStartKey: %s"
        [Arg.key [97], Arg.key [98]]) :=
  first_startKey_overrun_fails_both [97] [122] ⟨⟨7, [98], [99], ⟨1, 1⟩⟩⟩ [] (by decide)

/-- C7: on the empty region list both checkers return an error, for every `startKey` and
`endKey`, and the error is of the scan class `ErrPDBatchScanRegion`. -/
theorem empty_result_fails_both (startKey endKey : Key) :
    (∃ err, CheckRegionConsistency startKey endKey [] = some err ∧
      err.kind = ErrKind.ErrPDBatchScanRegion) ∧
    (∃ err, CheckPartRegionConsistency startKey endKey [] = some err ∧
      err.kind = ErrKind.ErrPDBatchScanRegion) :=
  ⟨⟨_, rfl, rfl⟩, ⟨_, rfl, rfl⟩⟩

/-- C1: at the unbounded range `["", "")` the full checker accepts the single region
`["", "m")`, although the key `z` of the range lies in no region of the list: the end-key test
compares with the empty `endKey` as with the lowest key, not as with "no bound". The same list
comes back from `PaginateScanRegion` with a nil error when the service answers with it. -/
theorem unbounded_range_accepted_uncovered :
    CheckRegionConsistency [] [] [⟨⟨1, [], [109], ⟨1, 1⟩⟩⟩] = none ∧
    bytesCompare [] [122] ≤ 0 ∧
    (¬ ∃ r ∈ [(⟨⟨1, [], [109], ⟨1, 1⟩⟩⟩ : RegionInfo)], r.Region.Contains [122]) ∧
    (∃ ret, PaginateScanRegion
        (constantClient [⟨⟨1, [], [109], ⟨1, 1⟩⟩⟩])
        3 (fun _ => false) 1 () [] [] 128 = some (Outcome.returned ret) ∧
      ret.err = none ∧ ret.regions = [⟨⟨1, [], [109], ⟨1, 1⟩⟩⟩]) := by
  refine ⟨by decide, by decide, ?_, ⟨_, rfl, rfl, rfl⟩⟩
  simp [Region.Contains, bytesCompare]

/-- C5, as amended: a region list with an index `i` whose region's end key differs from the start
key of region `i + 1` fails both checkers with an error of the scan class. The error of
`CheckRegionConsistency` is the gap error naming the identifiers of region `i` and region `i + 1`
when the list starts and ends correctly and no earlier pair has a gap; the error of
`CheckPartRegionConsistency` names no region identifier. -/
theorem gap_fails_both (startKey endKey : Key) (regions : List RegionInfo) (i : Nat)
    (a b : RegionInfo) (ha : regions[i]? = some a) (hb : regions[i + 1]? = some b)
    (hgap : a.Region.EndKey ≠ b.Region.StartKey) :
    (∃ err, CheckRegionConsistency startKey endKey regions = some err ∧
      err.kind = ErrKind.ErrPDBatchScanRegion) ∧
    (∃ err, CheckPartRegionConsistency startKey endKey regions = some err ∧
      err.kind = ErrKind.ErrPDBatchScanRegion ∧ ∀ id : Nat, ¬ err.NamesRegion id) ∧
    (StartCovered startKey regions → EndCovered endKey regions →
      Gapless (regions.take (i + 1)) →
      ∃ err, CheckRegionConsistency startKey endKey regions = some err ∧
        err.NamesRegion a.Region.Id ∧ err.NamesRegion b.Region.Id ∧
        err.args = [Arg.int a.Region.Id, Arg.int b.Region.Id,
          Arg.key a.Region.EndKey, Arg.key b.Region.StartKey,
          Arg.epoch a.Region.RegionEpoch, Arg.epoch b.Region.RegionEpoch]) := by
  have hng := not_gapless_of_gap regions i a b ha hb hgap
  refine ⟨?_, ?_, ?_⟩
  · cases hfull : CheckRegionConsistency startKey endKey regions with
    | none => exact absurd ((fullCheck_accepts_iff _ _ _).1 hfull).2.2.2 hng
    | some err => exact ⟨err, rfl, fullCheck_kind _ _ _ err hfull⟩
  · cases hpart : CheckPartRegionConsistency startKey endKey regions with
    | none => exact absurd ((partCheck_accepts_iff _ _ _).1 hpart).2.2 hng
    | some err => exact ⟨err, rfl, partCheck_shape _ _ _ err hpart⟩
  · intro hs he hpre
    cases regions with
    | nil => simp at ha
    | cons first rest =>
      have h1 : ¬ bytesCompare first.Region.StartKey startKey > 0 := by
        have := hs first (by simp)
        omega
      have h2 : ¬ (((first :: rest).getLast (List.cons_ne_nil first rest)).Region.EndKey.length
          ≠ 0 ∧ bytesCompare ((first :: rest).getLast
            (List.cons_ne_nil first rest)).Region.EndKey endKey < 0) := by
        rintro ⟨hlen, hlt⟩
        rcases he _ (List.getLast?_eq_getLast _ (List.cons_ne_nil first rest)) with h | h
        · exact hlen (by simp [h])
        · omega
      have hres : CheckRegionConsistency startKey endKey (first :: rest) =
          checkRegionGaps first rest := by
        simp only [CheckRegionConsistency]
        rw [if_neg h1, if_neg h2]
      rw [hres, checkRegionGaps_first_gap first rest i a b ha hb hgap hpre]
      exact ⟨_, rfl, by simp [Annotatef, Error.NamesRegion],
        by simp [Annotatef, Error.NamesRegion], rfl⟩

/-- C5, at a concrete list: regions 1 `[a, b)` and 2 `[c, d)` for the range `[a, d)`. -/
theorem gap_fails_both_witness :
    ∃ err, CheckRegionConsistency [97] [100]
        [⟨⟨1, [97], [98], ⟨1, 1⟩⟩⟩, ⟨⟨2, [99], [100], ⟨1, 1⟩⟩⟩] = some err ∧
      err.NamesRegion 1 ∧ err.NamesRegion 2 ∧
      err.args = [Arg.int 1, Arg.int 2, Arg.key [98], Arg.key [99],
        Arg.epoch ⟨1, 1⟩, Arg.epoch ⟨1, 1⟩] :=
  (gap_fails_both [97] [100] [⟨⟨1, [97], [98], ⟨1, 1⟩⟩⟩, ⟨⟨2, [99], [100], ⟨1, 1⟩⟩⟩] 0
    ⟨⟨1, [97], [98], ⟨1, 1⟩⟩⟩ ⟨⟨2, [99], [100], ⟨1, 1⟩⟩⟩ rfl rfl (by decide)).2.2
    (by simp [StartCovered, bytesCompare]) (by simp [EndCovered, bytesCompare])
    (by simpa using gapless_singleton _)

/-- C5, as stated, fails: (1) for regions 1 `[a, b)` and 2 `[c, d)` the error of the partial checker
carries the two keys and neither identifier; (2) with gaps after region 1 and after region 2 the
full checker reports the first gap and does not name region 3; (3) when the first region starts
beyond `startKey` the full checker reports that and does not name region 2 of the gap. -/
theorem gap_error_names_both_ids_counterexample :
    (([98] : Key) ≠ [99] ∧
      ∃ err, CheckPartRegionConsistency [97] [100]
          [⟨⟨1, [97], [98], ⟨1, 1⟩⟩⟩, ⟨⟨2, [99], [100], ⟨1, 1⟩⟩⟩] = some err ∧
        err.args = [Arg.key [98], Arg.key [99]] ∧
        ¬ err.NamesRegion 1 ∧ ¬ err.NamesRegion 2) ∧
    (([100] : Key) ≠ [101] ∧
      ∃ err, CheckRegionConsistency [97] [102]
          [⟨⟨1, [97], [98], ⟨1, 1⟩⟩⟩, ⟨⟨2, [99], [100], ⟨1, 1⟩⟩⟩,
           ⟨⟨3, [101], [102], ⟨1, 1⟩⟩⟩] = some err ∧
        ¬ err.NamesRegion 3) ∧
    (([99] : Key) ≠ [100] ∧
      ∃ err, CheckRegionConsistency [97] [101]
          [⟨⟨1, [98], [99], ⟨1, 1⟩⟩⟩, ⟨⟨2, [100], [101], ⟨1, 1⟩⟩⟩] = some err ∧
        ¬ err.NamesRegion 2) := by
  refine ⟨⟨by decide, _, rfl, rfl, ?_, ?_⟩, ⟨by decide, _, rfl, ?_⟩, ⟨by decide, _, rfl, ?_⟩⟩ <;>
    simp [Annotatef, Error.NamesRegion]

/-- C8: when `startKey` and `endKey` are both non-empty and `startKey > endKey`, both scanners
return the error `ErrRestoreInvalidRange` with no region list and without any query to the
capability, whatever the capability, the limit, the attempt budget and the fuel; when `endKey` is
empty or `startKey <= endKey`, no error either scanner returns is of the class
`ErrRestoreInvalidRange`. -/
theorem reversed_range_is_invalid {σ : Type} (c : SplitClient σ) (attemptTimes : Int)
    (ctxDone : Nat → Bool) (fuel : Nat) (client : σ) (startKey endKey : Key) (limit : Int) :
    (startKey ≠ [] → endKey ≠ [] → bytesCompare startKey endKey > 0 →
      (∃ ret, PaginateScanRegion c attemptTimes ctxDone fuel client startKey endKey limit =
          some (Outcome.returned ret) ∧ ret.regions = [] ∧ ret.calls = [] ∧
        ∃ err, ret.err = some err ∧ err.kind = ErrKind.ErrRestoreInvalidRange) ∧
      (∃ ret, ScanRegionsWithRetry c attemptTimes ctxDone fuel client startKey endKey limit =
          some (Outcome.returned ret) ∧ ret.regions = [] ∧ ret.calls = [] ∧
        ∃ err, ret.err = some err ∧ err.kind = ErrKind.ErrRestoreInvalidRange)) ∧
    ((endKey = [] ∨ bytesCompare startKey endKey ≤ 0) →
      (∀ ret err, PaginateScanRegion c attemptTimes ctxDone fuel client startKey endKey limit =
          some (Outcome.returned ret) → ret.err = some err →
        err.kind ≠ ErrKind.ErrRestoreInvalidRange) ∧
      (∀ ret err, ScanRegionsWithRetry c attemptTimes ctxDone fuel client startKey endKey limit =
          some (Outcome.returned ret) → ret.err = some err →
        err.kind ≠ ErrKind.ErrRestoreInvalidRange)) := by
  constructor
  · intro _ he hgt
    have hcond : endKey.length ≠ 0 ∧ bytesCompare startKey endKey > 0 :=
      ⟨by simpa [List.length_eq_zero] using he, hgt⟩
    constructor
    · unfold PaginateScanRegion
      rw [if_pos hcond]
      exact ⟨_, rfl, rfl, rfl, _, rfl, rfl⟩
    · unfold ScanRegionsWithRetry
      rw [if_pos hcond]
      exact ⟨_, rfl, rfl, rfl, _, rfl, rfl⟩
  · intro hok
    have hcond : ¬ (endKey.length ≠ 0 ∧ bytesCompare startKey endKey > 0) := by
      rintro ⟨h1, h2⟩
      rcases hok with h | h
      · exact h1 (by simp [h])
      · omega
    constructor
    · intro ret err hrun herr
      unfold PaginateScanRegion at hrun
      rw [if_neg hcond] at hrun
      split at hrun
      · cases hrun
      · cases hrun
      · next v backoffer heq =>
        simp only [Option.some.injEq, Outcome.returned.injEq] at hrun
        subst hrun
        have hP := WithRetry_post
          (fun v : ScanVars σ => ∀ err, v.err = some err → err.kind = ErrKind.ErrPDBatchScanRegion)
          ctxDone (paginateAttempt c startKey endKey limit fuel)
          (fun st b e st1 b1 h => (paginateAttempt_post c startKey endKey limit fuel st b e st1 b1
            h).2)
          fuel 0 _ _ v backoffer (Or.inl (fun err h => by simp at h)) heq
        rw [hP err herr]
        decide
    · intro ret err hrun herr
      unfold ScanRegionsWithRetry at hrun
      rw [if_neg hcond] at hrun
      split at hrun
      · cases hrun
      · cases hrun
      · next v backoffer heq =>
        simp only [Option.some.injEq, Outcome.returned.injEq] at hrun
        subst hrun
        have hP := WithRetry_post
          (fun v : ScanVars σ => ∀ err, v.err = some err → err.kind = ErrKind.ErrPDBatchScanRegion)
          ctxDone (scanAttempt c startKey endKey limit)
          (fun st b e st1 b1 h => (scanAttempt_post c startKey endKey limit st b e st1 b1 h).2)
          fuel 0 _ _ v backoffer (Or.inl (fun err h => by simp at h)) heq
        rw [hP err herr]
        decide

/-- C8, at concrete ranges: the reversed range `[b, a)` is rejected by both scanners with no
query, and for the range `[a, b)` no error of a scanner is of the class
`ErrRestoreInvalidRange`. -/
theorem reversed_range_is_invalid_witness :
    ((∃ ret, PaginateScanRegion (constantClient []) 3 (fun _ => false) 4 () [98] [97] 128 =
          some (Outcome.returned ret) ∧ ret.regions = [] ∧ ret.calls = [] ∧
        ∃ err, ret.err = some err ∧ err.kind = ErrKind.ErrRestoreInvalidRange) ∧
      (∃ ret, ScanRegionsWithRetry (constantClient []) 3 (fun _ => false) 4 () [98] [97] 128 =
          some (Outcome.returned ret) ∧ ret.regions = [] ∧ ret.calls = [] ∧
        ∃ err, ret.err = some err ∧ err.kind = ErrKind.ErrRestoreInvalidRange)) ∧
    ((∀ ret err, PaginateScanRegion (constantClient []) 3 (fun _ => false) 4 () [97] [98] 128 =
          some (Outcome.returned ret) → ret.err = some err →
        err.kind ≠ ErrKind.ErrRestoreInvalidRange) ∧
      (∀ ret err, ScanRegionsWithRetry (constantClient []) 3 (fun _ => false) 4 () [97] [98] 128 =
          some (Outcome.returned ret) → ret.err = some err →
        err.kind ≠ ErrKind.ErrRestoreInvalidRange)) :=
  ⟨(reversed_range_is_invalid (constantClient []) 3 (fun _ => false) 4 () [98] [97] 128).1
      (by decide) (by decide) (by decide),
   (reversed_range_is_invalid (constantClient []) 3 (fun _ => false) 4 () [97] [98] 128).2
      (Or.inr (by decide))⟩

/-- C9, as amended: let the limit be at least 1 and let the query capability serve full pages of
exactly `limit` regions, the last region of each having an end key that is non-empty and (for a
non-empty `endKey`) below `endKey`, and then a final page shorter than `limit`. Given fuel for
one query more than the full pages, one attempt of `PaginateScanRegion` returns, having
accumulated all regions concatenated in page order and issued exactly
`floor(totalRegions / limit) + 1` queries; this is `ceil(totalRegions / limit)` when the final
page is non-empty, and one more than that when it is empty. -/
theorem attempt_over_served_pages {σ : Type} (c : SplitClient σ) (startKey endKey : Key)
    (limit : Int) (pages : List (List RegionInfo)) (final : List RegionInfo) (fuel : Nat)
    (v : ScanVars σ) (backoffer : WaitRegionOnlineBackoffer)
    (hlimit : 1 ≤ limit) (hfuel : pages.length < fuel)
    (hsize : ∀ page ∈ pages, (page.length : Int) = limit)
    (hfinal : (final.length : Int) < limit)
    (hcursor : ∀ page ∈ pages, ∀ r, page.getLast? = some r →
      r.Region.EndKey ≠ [] ∧ (endKey = [] ∨ bytesCompare r.Region.EndKey endKey < 0))
    (hserve : ServesPages c endKey limit v.client startKey pages final) :
    ∃ err v1 backoffer1 newCalls,
      paginateAttempt c startKey endKey limit fuel v backoffer =
        some (Outcome.returned (err, v1, backoffer1)) ∧
      v1.regions = pages.flatten ++ final ∧
      v1.calls = v.calls ++ newCalls ∧
      (newCalls.length : Int) = ((pages.flatten ++ final).length : Int) / limit + 1 ∧
      (final ≠ [] → (newCalls.length : Int) =
        (((pages.flatten ++ final).length : Int) + limit - 1) / limit) ∧
      (final = [] → (newCalls.length : Int) =
        (((pages.flatten ++ final).length : Int) + limit - 1) / limit + 1) := by
  obtain ⟨client1, newCalls, hrun, hcount⟩ :=
    scanPages_serves c endKey limit final hfinal pages fuel v.client v.calls [] startKey hfuel
      hsize hcursor hserve
  have htotal : ((pages.flatten ++ final).length : Int) = pages.length * limit + final.length := by
    rw [List.length_append, Nat.cast_add, length_flatten_of_full limit pages hsize]
  have hcount1 : (newCalls.length : Int) = pages.length + 1 := by
    rw [hcount]; push_cast; rfl
  unfold paginateAttempt
  rw [hrun]
  refine ⟨_, _, _, newCalls, rfl, ?_, ?_, ?_, ?_, ?_⟩
  · simp
  · rfl
  · rw [htotal, page_count_floor limit _ _ hlimit (by omega) hfinal, hcount1]
  · intro hne
    have hpos : 1 ≤ (final.length : Int) := by
      have := List.length_pos.2 hne
      omega
    rw [htotal, page_count_ceil limit _ _ hpos hfinal, hcount1]
  · intro he
    subst he
    have h0 : ((pages.length : Int) * limit + (([] : List RegionInfo).length : Int) + limit - 1)
        = (pages.length : Int) * limit + (limit - 1) := by
      simp only [List.length_nil, Nat.cast_zero]; ring
    rw [htotal, h0, page_count_floor limit _ _ hlimit (by omega) (by omega), hcount1]

/-- C9, at a concrete capability: three regions served with limit 2 as the page `[a, b)`,
`[b, c)` and the final page `[c, d)`, for the range `[a, z)`: two queries. -/
theorem attempt_over_served_pages_witness :
    ∃ err v1 backoffer1 newCalls,
      paginateAttempt scriptedClient [97] [122] 2 2
          { client := [[⟨⟨1, [97], [98], ⟨1, 1⟩⟩⟩, ⟨⟨2, [98], [99], ⟨1, 1⟩⟩⟩],
                       [⟨⟨3, [99], [100], ⟨1, 1⟩⟩⟩]],
            calls := [], regions := [], err := none }
          (NewWaitRegionOnlineBackoffer 3) =
        some (Outcome.returned (err, v1, backoffer1)) ∧
      v1.regions = [[⟨⟨1, [97], [98], ⟨1, 1⟩⟩⟩, ⟨⟨2, [98], [99], ⟨1, 1⟩⟩⟩]].flatten ++
        [⟨⟨3, [99], [100], ⟨1, 1⟩⟩⟩] ∧
      v1.calls = [] ++ newCalls ∧
      (newCalls.length : Int) =
        (((([[⟨⟨1, [97], [98], ⟨1, 1⟩⟩⟩, ⟨⟨2, [98], [99], ⟨1, 1⟩⟩⟩]] :
          List (List RegionInfo)).flatten ++
            [(⟨⟨3, [99], [100], ⟨1, 1⟩⟩⟩ : RegionInfo)]).length : Nat) : Int)
            / 2 + 1 := by
  obtain ⟨err, v1, b1, newCalls, h1, h2, h3, h4, -, -⟩ :=
    attempt_over_served_pages scriptedClient [97] [122] 2
      [[⟨⟨1, [97], [98], ⟨1, 1⟩⟩⟩, ⟨⟨2, [98], [99], ⟨1, 1⟩⟩⟩]] [⟨⟨3, [99], [100], ⟨1, 1⟩⟩⟩] 2
      { client := [[⟨⟨1, [97], [98], ⟨1, 1⟩⟩⟩, ⟨⟨2, [98], [99], ⟨1, 1⟩⟩⟩],
                   [⟨⟨3, [99], [100], ⟨1, 1⟩⟩⟩]],
        calls := [], regions := [], err := none }
      (NewWaitRegionOnlineBackoffer 3) (by decide) (by decide) (by simp) (by decide)
      (by simp [bytesCompare]) (by simp [ServesPages, scriptedClient])
  exact ⟨err, v1, b1, newCalls, h1, h2, h3, h4⟩

/-- C9, as stated, fails: (1) with limit 2, a capability serving the full page `[a, b)`, `[b, c)`
and then the empty final page for the range `[a, z)` is queried twice, while
`ceil(2 / 2) = 1`; (2) with limit 2 and the range `[a, c)`, a capability serving the same full
page and then the final page `[c, d)` is queried once, while `ceil(3 / 2) = 2`, and the
attempt accumulates two of the three regions. -/
theorem attempt_query_count_counterexample :
    (ServesPages scriptedClient [122] 2
        [[⟨⟨1, [97], [98], ⟨1, 1⟩⟩⟩, ⟨⟨2, [98], [99], ⟨1, 1⟩⟩⟩]] [97]
        [[⟨⟨1, [97], [98], ⟨1, 1⟩⟩⟩, ⟨⟨2, [98], [99], ⟨1, 1⟩⟩⟩]] [] ∧
      ((2 : Int) + 2 - 1) / 2 = 1 ∧
      ∃ err v1 backoffer1,
        paginateAttempt scriptedClient [97] [122] 2 5
            { client := [[⟨⟨1, [97], [98], ⟨1, 1⟩⟩⟩, ⟨⟨2, [98], [99], ⟨1, 1⟩⟩⟩]],
              calls := [], regions := [], err := none }
            (NewWaitRegionOnlineBackoffer 3) =
          some (Outcome.returned (err, v1, backoffer1)) ∧
        v1.calls = [⟨[97], [122], 2⟩, ⟨[99], [122], 2⟩] ∧
        v1.regions = [⟨⟨1, [97], [98], ⟨1, 1⟩⟩⟩, ⟨⟨2, [98], [99], ⟨1, 1⟩⟩⟩]) ∧
    (ServesPages scriptedClient [99] 2
        [[⟨⟨1, [97], [98], ⟨1, 1⟩⟩⟩, ⟨⟨2, [98], [99], ⟨1, 1⟩⟩⟩], [⟨⟨3, [99], [100], ⟨1, 1⟩⟩⟩]]
        [97]
        [[⟨⟨1, [97], [98], ⟨1, 1⟩⟩⟩, ⟨⟨2, [98], [99], ⟨1, 1⟩⟩⟩]] [⟨⟨3, [99], [100], ⟨1, 1⟩⟩⟩] ∧
      ((3 : Int) + 2 - 1) / 2 = 2 ∧
      ∃ err v1 backoffer1,
        paginateAttempt scriptedClient [97] [99] 2 5
            { client := [[⟨⟨1, [97], [98], ⟨1, 1⟩⟩⟩, ⟨⟨2, [98], [99], ⟨1, 1⟩⟩⟩],
                         [⟨⟨3, [99], [100], ⟨1, 1⟩⟩⟩]],
              calls := [], regions := [], err := none }
            (NewWaitRegionOnlineBackoffer 3) =
          some (Outcome.returned (err, v1, backoffer1)) ∧
        v1.calls = [⟨[97], [99], 2⟩] ∧
        v1.regions = [⟨⟨1, [97], [98], ⟨1, 1⟩⟩⟩, ⟨⟨2, [98], [99], ⟨1, 1⟩⟩⟩]) := by
  refine ⟨⟨by simp [ServesPages, scriptedClient], by decide, _, _, _, rfl, rfl, rfl⟩,
    ⟨by simp [ServesPages, scriptedClient], by decide, _, _, _, rfl, rfl, rfl⟩⟩

/-- C10, as amended: for every run of `PaginateScanRegion` and of `ScanRegionsWithRetry` with a
positive attempt budget, a nil returned error comes with a region list that passes the scanner's
check variant (full for `PaginateScanRegion`, partial for `ScanRegionsWithRetry`): a list that
failed the check is never returned with a nil error. -/
theorem nil_error_means_checked {σ : Type} (c : SplitClient σ) (attemptTimes : Int)
    (ctxDone : Nat → Bool) (fuel : Nat) (client : σ) (startKey endKey : Key) (limit : Int)
    (hbudget : attemptTimes > 0) :
    (∀ ret, PaginateScanRegion c attemptTimes ctxDone fuel client startKey endKey limit =
        some (Outcome.returned ret) → ret.err = none →
      CheckRegionConsistency startKey endKey ret.regions = none) ∧
    (∀ ret, ScanRegionsWithRetry c attemptTimes ctxDone fuel client startKey endKey limit =
        some (Outcome.returned ret) → ret.err = none →
      CheckPartRegionConsistency startKey endKey ret.regions = none) := by
  have hattempt : (NewWaitRegionOnlineBackoffer attemptTimes).Attempt > 0 := by
    simp only [NewWaitRegionOnlineBackoffer, WaitRegionOnlineBackoffer.Attempt,
      RetryState.Attempt, InitialRetryState]
    omega
  constructor
  · intro ret hrun herr
    unfold PaginateScanRegion at hrun
    split_ifs at hrun with hcond
    · simp only [Option.some.injEq, Outcome.returned.injEq] at hrun
      subst hrun
      simp at herr
    · split at hrun
      · cases hrun
      · cases hrun
      · next v backoffer heq =>
        simp only [Option.some.injEq, Outcome.returned.injEq] at hrun
        subst hrun
        exact WithRetry_post
          (fun v : ScanVars σ => v.err = none →
            CheckRegionConsistency startKey endKey v.regions = none)
          ctxDone (paginateAttempt c startKey endKey limit fuel)
          (fun st b e st1 b1 h => (paginateAttempt_post c startKey endKey limit fuel st b e st1 b1
            h).1)
          fuel 0 _ _ v backoffer (Or.inr hattempt) heq herr
  · intro ret hrun herr
    unfold ScanRegionsWithRetry at hrun
    split_ifs at hrun with hcond
    · simp only [Option.some.injEq, Outcome.returned.injEq] at hrun
      subst hrun
      simp at herr
    · split at hrun
      · cases hrun
      · cases hrun
      · next v backoffer heq =>
        simp only [Option.some.injEq, Outcome.returned.injEq] at hrun
        subst hrun
        exact WithRetry_post
          (fun v : ScanVars σ => v.err = none →
            CheckPartRegionConsistency startKey endKey v.regions = none)
          ctxDone (scanAttempt c startKey endKey limit)
          (fun st b e st1 b1 h => (scanAttempt_post c startKey endKey limit st b e st1 b1 h).1)
          fuel 0 _ _ v backoffer (Or.inr hattempt) heq herr

/-- C10, at a concrete run: the capability answers with the regions `[a, b)`, `[b, c)` for the
range `[a, c)`; both scanners return them with a nil error, and they pass the check. -/
theorem nil_error_means_checked_witness :
    (∃ ret, PaginateScanRegion
          (constantClient [⟨⟨1, [97], [98], ⟨1, 1⟩⟩⟩, ⟨⟨2, [98], [99], ⟨1, 1⟩⟩⟩])
          3 (fun _ => false) 2 () [97] [99] 128 = some (Outcome.returned ret) ∧
        ret.err = none ∧
        ret.regions = [⟨⟨1, [97], [98], ⟨1, 1⟩⟩⟩, ⟨⟨2, [98], [99], ⟨1, 1⟩⟩⟩] ∧
        CheckRegionConsistency [97] [99] ret.regions = none) ∧
    (∃ ret, ScanRegionsWithRetry
          (constantClient [⟨⟨1, [97], [98], ⟨1, 1⟩⟩⟩, ⟨⟨2, [98], [99], ⟨1, 1⟩⟩⟩])
          3 (fun _ => false) 2 () [97] [99] 128 = some (Outcome.returned ret) ∧
        ret.err = none ∧
        ret.regions = [⟨⟨1, [97], [98], ⟨1, 1⟩⟩⟩, ⟨⟨2, [98], [99], ⟨1, 1⟩⟩⟩] ∧
        CheckPartRegionConsistency [97] [99] ret.regions = none) :=
  ⟨⟨_, rfl, rfl, rfl,
    (nil_error_means_checked
      (constantClient [⟨⟨1, [97], [98], ⟨1, 1⟩⟩⟩, ⟨⟨2, [98], [99], ⟨1, 1⟩⟩⟩])
      3 (fun _ => false) 2 () [97] [99] 128 (by decide)).1 _ rfl rfl⟩,
   ⟨_, rfl, rfl, rfl,
    (nil_error_means_checked
      (constantClient [⟨⟨1, [97], [98], ⟨1, 1⟩⟩⟩, ⟨⟨2, [98], [99], ⟨1, 1⟩⟩⟩])
      3 (fun _ => false) 2 () [97] [99] 128 (by decide)).2 _ rfl rfl⟩⟩

/-- C10, as stated, fails: (1) with a budget of one attempt and a capability that always answers
with the single region `[b, c)` for the range `[a, z)`, `PaginateScanRegion` returns the
start-key error of the full check together with the list that failed it; (2) so does
`ScanRegionsWithRetry` with the error of the partial check; (3) with a budget of zero attempts
`PaginateScanRegion` returns a nil error with the empty list, which fails the check. -/
theorem error_with_failed_list_counterexample :
    (∃ ret, PaginateScanRegion (constantClient [⟨⟨1, [98], [99], ⟨1, 1⟩⟩⟩])
          1 (fun _ => false) 2 () [97] [122] 128 = some (Outcome.returned ret) ∧
        ret.err = some (Annotatef ErrKind.ErrPDBatchScanRegion
          "first region %d's startKey(%s) > startKey(%s), region epoch: %s"
          [Arg.int 1, Arg.key [98], Arg.key [97], Arg.epoch ⟨1, 1⟩]) ∧
        ret.regions = [⟨⟨1, [98], [99], ⟨1, 1⟩⟩⟩] ∧
        CheckRegionConsistency [97] [122] ret.regions ≠ none) ∧
    (∃ ret, ScanRegionsWithRetry (constantClient [⟨⟨1, [98], [99], ⟨1, 1⟩⟩⟩])
          1 (fun _ => false) 2 () [97] [122] 128 = some (Outcome.returned ret) ∧
        ret.err = some (Annotatef ErrKind.ErrPDBatchScanRegion
          "first region's startKey > startKey, startKey: %s, regionStartKey: %s"
          [Arg.key [97], Arg.key [98]]) ∧
        ret.regions = [⟨⟨1, [98], [99], ⟨1, 1⟩⟩⟩] ∧
        CheckPartRegionConsistency [97] [122] ret.regions ≠ none) ∧
    (∃ ret, PaginateScanRegion (constantClient [⟨⟨1, [97], [98], ⟨1, 1⟩⟩⟩])
          0 (fun _ => false) 2 () [97] [98] 128 = some (Outcome.returned ret) ∧
        ret.err = none ∧ ret.regions = [] ∧
        CheckRegionConsistency [97] [98] ret.regions ≠ none) := by
  refine ⟨⟨_, rfl, rfl, rfl, by decide⟩, ⟨_, rfl, rfl, rfl, by decide⟩,
    ⟨_, rfl, rfl, rfl, by decide⟩⟩

/-- C13: for every state of a `WaitRegionOnlineBackoffer` and every error whose kind is not the
scan kind `ErrPDBatchScanRegion`, `NextBackoff` returns a zero delay and leaves the policy
stopped: `Attempt()` is 0 afterwards, whatever the attempts remaining before. -/
theorem NextBackoff_stops_on_other_error (b : WaitRegionOnlineBackoffer) (err : Error)
    (h : err.kind ≠ ErrKind.ErrPDBatchScanRegion) :
    (b.NextBackoff err).1 = 0 ∧ (b.NextBackoff err).2.Attempt = 0 :=
  ⟨by rw [NextBackoff_of_other b err h], NextBackoff_attempt_of_other b err h⟩

/-- C13, at a concrete state: a fresh policy with 1800 attempts and an invalid-range error. -/
theorem NextBackoff_stops_on_other_error_witness :
    ((NewWaitRegionOnlineBackoffer 1800).NextBackoff (invalidRange [98] [97])).1 = 0 ∧
    ((NewWaitRegionOnlineBackoffer 1800).NextBackoff (invalidRange [98] [97])).2.Attempt = 0 :=
  NextBackoff_stops_on_other_error (NewWaitRegionOnlineBackoffer 1800) (invalidRange [98] [97])
    (by decide)

/-- C14: for a freshly created `WaitRegionOnlineBackoffer` (whatever the attempt budget) and
every sequence of errors of the scan kind reported to `NextBackoff`, one delay is returned per
error, the delay number `n` (from 0) is `min (10 ms * 2 ^ n) (2 s)`; so the first delay is the
base delay of 10 ms, each next delay is the double of the one before capped at 2 s, the delays
are non-decreasing and none exceeds the cap of 2 s. -/
theorem fresh_backoff_delays (attemptTimes : Int) (errs : List Error)
    (hk : ∀ e ∈ errs, e.kind = ErrKind.ErrPDBatchScanRegion) :
    ((NewWaitRegionOnlineBackoffer attemptTimes).delays errs).length = errs.length ∧
    (∀ (n : Nat) (d : Int),
      ((NewWaitRegionOnlineBackoffer attemptTimes).delays errs)[n]? = some d →
      d = min (Millisecond * 10 * 2 ^ n) (Second * 2)) ∧
    (∀ d : Int, ((NewWaitRegionOnlineBackoffer attemptTimes).delays errs)[0]? = some d →
      d = Millisecond * 10) ∧
    (∀ (n : Nat) (d d1 : Int),
      ((NewWaitRegionOnlineBackoffer attemptTimes).delays errs)[n]? = some d →
      ((NewWaitRegionOnlineBackoffer attemptTimes).delays errs)[n + 1]? = some d1 →
      d1 = min (d * 2) (Second * 2) ∧ d ≤ d1) ∧
    (∀ (i j : Nat) (di dj : Int), i ≤ j →
      ((NewWaitRegionOnlineBackoffer attemptTimes).delays errs)[i]? = some di →
      ((NewWaitRegionOnlineBackoffer attemptTimes).delays errs)[j]? = some dj → di ≤ dj) ∧
    (∀ d ∈ (NewWaitRegionOnlineBackoffer attemptTimes).delays errs, d ≤ Second * 2) := by
  have hform : ∀ (n : Nat) (d : Int),
      ((NewWaitRegionOnlineBackoffer attemptTimes).delays errs)[n]? = some d →
      d = min (Millisecond * 10 * 2 ^ n) (Second * 2) := by
    intro n d h
    exact delays_closed_form errs (NewWaitRegionOnlineBackoffer attemptTimes) hk
      (show (0 : Int) < Millisecond * 10 by decide)
      (show Millisecond * 10 ≤ Second * 2 by decide) n d h
  have hmono : ∀ i j : Nat, i ≤ j →
      min (Millisecond * 10 * 2 ^ i) (Second * 2) ≤ min (Millisecond * 10 * 2 ^ j) (Second * 2) := by
    intro i j hij
    have hpow : (2 : Int) ^ i ≤ 2 ^ j := pow_le_pow_right₀ (by norm_num) hij
    have hms : (0 : Int) ≤ Millisecond * 10 := by decide
    exact min_le_min (mul_le_mul_of_nonneg_left hpow hms) le_rfl
  refine ⟨delays_length errs _, hform, ?_, ?_, ?_, ?_⟩
  · intro d h
    rw [hform 0 d h]
    decide
  · intro n d d1 h h1
    rw [hform n d h, hform (n + 1) d1 h1]
    refine ⟨?_, hmono n (n + 1) (Nat.le_succ n)⟩
    have hpow : Millisecond * 10 * 2 ^ (n + 1) = Millisecond * 10 * 2 ^ n * 2 := by ring
    have hs : (0 : Int) ≤ Second * 2 := by decide
    rw [hpow]
    rcases le_total (Millisecond * 10 * 2 ^ n) (Second * 2) with hle | hle
    · rw [min_eq_left hle]
    · rw [min_eq_right hle, min_eq_right (by omega), min_eq_right (by omega)]
  · intro i j di dj hij hi hj
    rw [hform i di hi, hform j dj hj]
    exact hmono i j hij
  · intro d hd
    obtain ⟨n, hn⟩ := List.getElem?_of_mem hd
    rw [hform n d hn]
    exact min_le_right _ _

/-- C14, at a concrete sequence: ten scan errors reported to a fresh policy of 1800 attempts;
the delays are 10, 20, 40, ..., 1280 ms and then 2 s twice. -/
theorem fresh_backoff_delays_witness :
    (NewWaitRegionOnlineBackoffer 1800).delays
        (List.replicate 10 (Annotatef ErrKind.ErrPDBatchScanRegion "" [])) =
      [10000000, 20000000, 40000000, 80000000, 160000000, 320000000, 640000000, 1280000000,
       2000000000, 2000000000] ∧
    ∀ d ∈ (NewWaitRegionOnlineBackoffer 1800).delays
        (List.replicate 10 (Annotatef ErrKind.ErrPDBatchScanRegion "" [])), d ≤ Second * 2 :=
  ⟨by decide,
   (fresh_backoff_delays 1800 (List.replicate 10 (Annotatef ErrKind.ErrPDBatchScanRegion "" []))
      (by intro e he; rw [List.eq_of_mem_replicate he]; rfl)).2.2.2.2.2⟩

/-- C20, as amended: for every state of a `WaitRegionOnlineBackoffer` and every error of the scan
kind `ErrPDBatchScanRegion` reported to `NextBackoff`, `Attempt()` decreases by exactly one; for
an error of any other kind `Attempt()` becomes 0. -/
theorem NextBackoff_attempt (b : WaitRegionOnlineBackoffer) (err : Error) :
    (err.kind = ErrKind.ErrPDBatchScanRegion → (b.NextBackoff err).2.Attempt = b.Attempt - 1) ∧
    (err.kind ≠ ErrKind.ErrPDBatchScanRegion → (b.NextBackoff err).2.Attempt = 0) :=
  ⟨NextBackoff_attempt_of_scan b err, NextBackoff_attempt_of_other b err⟩

/-- C20, at a concrete state: a fresh policy with 5 attempts and an empty-result scan error. -/
theorem NextBackoff_attempt_witness :
    ((NewWaitRegionOnlineBackoffer 5).NextBackoff
      (Annotatef ErrKind.ErrPDBatchScanRegion
        "scan region return empty result, startKey: %s, endKey: %s"
        [Arg.key [97], Arg.key [98]])).2.Attempt = (NewWaitRegionOnlineBackoffer 5).Attempt - 1 :=
  (NextBackoff_attempt (NewWaitRegionOnlineBackoffer 5)
    (Annotatef ErrKind.ErrPDBatchScanRegion
      "scan region return empty result, startKey: %s, endKey: %s"
      [Arg.key [97], Arg.key [98]])).1 rfl

/-- C20, as stated, fails: a fresh policy with 5 attempts remaining to which an invalid-range
error is reported has 0 attempts remaining afterwards, not 4. -/
theorem NextBackoff_attempt_counterexample :
    (NewWaitRegionOnlineBackoffer 5).Attempt = 5 ∧
    ((NewWaitRegionOnlineBackoffer 5).NextBackoff (invalidRange [98] [97])).2.Attempt = 0 ∧
    ((NewWaitRegionOnlineBackoffer 5).NextBackoff (invalidRange [98] [97])).2.Attempt ≠
      (NewWaitRegionOnlineBackoffer 5).Attempt - 1 := by
  decide

/-- C16: when the query capability returns an error, of whatever kind, the paging loop of
`PaginateScanRegion` ends at once, at any page, with that error wrapped in the scan kind
`ErrPDBatchScanRegion` and no further query; so do an attempt of `PaginateScanRegion` and an
attempt of `ScanRegionsWithRetry` whose query fails, which return the wrapped error and leave the
policy untouched. `NextBackoff` takes the exponential-backoff branch on the wrapped error: it
returns the delay of `ExponentialBackoff`, one attempt is consumed and the policy is not forced
to stop. -/
theorem query_error_is_wrapped_and_retryable {σ : Type} (c : SplitClient σ)
    (startKey endKey : Key) (limit : Int) (clientErr : ClientError) :
    (∀ (fuel : Nat) (client : σ) (calls : List ScanCall) (regions : List RegionInfo) (key : Key),
      (c.ScanRegions client key endKey limit).1.2 = some clientErr →
      scanPages c endKey limit (fuel + 1) client calls regions key =
        some (PageLoop.failed
          (Annotatef ErrKind.ErrPDBatchScanRegion "scan regions from start-key:%s, err: %s"
            [Arg.key key, Arg.str clientErr.text])
          (c.ScanRegions client key endKey limit).2
          (calls ++ [{ key := key, endKey := endKey, limit := limit }]))) ∧
    (∀ (fuel : Nat) (v : ScanVars σ) (b : WaitRegionOnlineBackoffer),
      (c.ScanRegions v.client startKey endKey limit).1.2 = some clientErr →
      ∃ v1, paginateAttempt c startKey endKey limit (fuel + 1) v b =
          some (Outcome.returned
            (some (Annotatef ErrKind.ErrPDBatchScanRegion
              "scan regions from start-key:%s, err: %s"
              [Arg.key startKey, Arg.str clientErr.text]), v1, b)) ∧
        v1.calls = v.calls ++ [{ key := startKey, endKey := endKey, limit := limit }] ∧
        v1.regions = v.regions) ∧
    (∀ (v : ScanVars σ) (b : WaitRegionOnlineBackoffer),
      (c.ScanRegions v.client startKey endKey limit).1.2 = some clientErr →
      ∃ v1, scanAttempt c startKey endKey limit v b =
          some (Outcome.returned
            (some (Annotatef ErrKind.ErrPDBatchScanRegion
              "scan regions from start-key:%s, err: %s"
              [Arg.key startKey, Arg.str clientErr.text]), v1, b)) ∧
        v1.calls = v.calls ++ [{ key := startKey, endKey := endKey, limit := limit }]) ∧
    (∀ (key : Key) (b : WaitRegionOnlineBackoffer),
      (Annotatef ErrKind.ErrPDBatchScanRegion "scan regions from start-key:%s, err: %s"
        [Arg.key key, Arg.str clientErr.text]).kind = ErrKind.ErrPDBatchScanRegion ∧
      b.NextBackoff (Annotatef ErrKind.ErrPDBatchScanRegion
          "scan regions from start-key:%s, err: %s" [Arg.key key, Arg.str clientErr.text]) =
        (b.Stat.ExponentialBackoff.1, { Stat := b.Stat.ExponentialBackoff.2 }) ∧
      (b.NextBackoff (Annotatef ErrKind.ErrPDBatchScanRegion
          "scan regions from start-key:%s, err: %s"
          [Arg.key key, Arg.str clientErr.text])).2.Attempt = b.Attempt - 1) := by
  refine ⟨?_, ?_, ?_, ?_⟩
  · intro fuel client calls regions key h
    exact scanPages_of_query_error c endKey limit fuel client calls regions key clientErr h
  · intro fuel v b h
    unfold paginateAttempt
    rw [scanPages_of_query_error c endKey limit fuel v.client v.calls [] startKey clientErr h]
    exact ⟨_, rfl, rfl, rfl⟩
  · intro v b h
    unfold scanAttempt
    simp only [h]
    exact ⟨_, rfl, rfl⟩
  · intro key b
    exact ⟨rfl, NextBackoff_of_scan b _ rfl, NextBackoff_attempt_of_scan b _ rfl⟩

/-- C16, at a concrete capability: every query fails with an error of another class; the attempt
of `ScanRegionsWithRetry` returns the wrapped error after one query. -/
theorem query_error_is_wrapped_and_retryable_witness :
    ∃ v1, scanAttempt (failingClient ⟨ErrKind.other 7, "timeout"⟩) [97] [122] 128
          { client := (), calls := [], regions := [], err := none }
          (NewWaitRegionOnlineBackoffer 3) =
        some (Outcome.returned
          (some (Annotatef ErrKind.ErrPDBatchScanRegion
            "scan regions from start-key:%s, err: %s" [Arg.key [97], Arg.str "timeout"]),
           v1, NewWaitRegionOnlineBackoffer 3)) ∧
      v1.calls = [] ++ [{ key := [97], endKey := [122], limit := 128 }] :=
  (query_error_is_wrapped_and_retryable (failingClient ⟨ErrKind.other 7, "timeout"⟩)
    [97] [122] 128 ⟨ErrKind.other 7, "timeout"⟩).2.2.1
    { client := (), calls := [], regions := [], err := none } (NewWaitRegionOnlineBackoffer 3) rfl

/-- C17: each checker reports the first violated invariant in the order empty result, start-key
overrun, (full checker only) end-key underrun, gap, whatever the later invariants are: on the
empty list the empty-result error; on a list whose first region starts beyond `startKey` the
start-key error; (full checker) on a list that starts correctly and whose last end key is
non-empty and below `endKey` the end-key error; and on a list that passes these tests and has a
gap, the gap error of the lowest index with a gap. -/
theorem first_violation_is_reported (startKey endKey : Key) (regions : List RegionInfo) :
    (regions = [] →
      CheckRegionConsistency startKey endKey regions =
        some (Annotatef ErrKind.ErrPDBatchScanRegion
          "scan region return empty result, startKey: %s, endKey: %s"
          [Arg.key startKey, Arg.key endKey]) ∧
      CheckPartRegionConsistency startKey endKey regions =
        some (Annotatef ErrKind.ErrPDBatchScanRegion
          "scan region return empty result, startKey: %s, endKey: %s"
          [Arg.key startKey, Arg.key endKey])) ∧
    (∀ first : RegionInfo, regions.head? = some first →
      bytesCompare first.Region.StartKey startKey > 0 →
      CheckRegionConsistency startKey endKey regions =
        some (Annotatef ErrKind.ErrPDBatchScanRegion
          "first region %d's startKey(%s) > startKey(%s), region epoch: %s"
          [Arg.int first.Region.Id, Arg.key first.Region.StartKey, Arg.key startKey,
           Arg.epoch first.Region.RegionEpoch]) ∧
      CheckPartRegionConsistency startKey endKey regions =
        some (Annotatef ErrKind.ErrPDBatchScanRegion
          "first region's startKey > startKey, startKey: %s, regionStartKey: %s"
          [Arg.key startKey, Arg.key first.Region.StartKey])) ∧
    (∀ last : RegionInfo, regions.getLast? = some last → StartCovered startKey regions →
      last.Region.EndKey ≠ [] → bytesCompare last.Region.EndKey endKey < 0 →
      CheckRegionConsistency startKey endKey regions =
        some (Annotatef ErrKind.ErrPDBatchScanRegion
          "last region %d's endKey(%s) < endKey(%s), region epoch: %s"
          [Arg.int last.Region.Id, Arg.key last.Region.EndKey, Arg.key endKey,
           Arg.epoch last.Region.RegionEpoch])) ∧
    (∀ (i : Nat) (a b : RegionInfo), regions[i]? = some a → regions[i + 1]? = some b →
      a.Region.EndKey ≠ b.Region.StartKey → Gapless (regions.take (i + 1)) →
      StartCovered startKey regions →
      (EndCovered endKey regions →
        CheckRegionConsistency startKey endKey regions =
          some (Annotatef ErrKind.ErrPDBatchScanRegion
            "region %d's endKey not equal to next region %d's startKey, endKey: %s, startKey: %s, region epoch: %s %s"
            [Arg.int a.Region.Id, Arg.int b.Region.Id,
             Arg.key a.Region.EndKey, Arg.key b.Region.StartKey,
             Arg.epoch a.Region.RegionEpoch, Arg.epoch b.Region.RegionEpoch])) ∧
      CheckPartRegionConsistency startKey endKey regions =
        some (Annotatef ErrKind.ErrPDBatchScanRegion
          "region endKey not equal to next region startKey, endKey: %s, startKey: %s"
          [Arg.key a.Region.EndKey, Arg.key b.Region.StartKey])) := by
  refine ⟨?_, ?_, ?_, ?_⟩
  · rintro rfl
    exact ⟨rfl, rfl⟩
  · intro first hfirst hgt
    cases regions with
    | nil => simp at hfirst
    | cons r rest =>
      simp only [List.head?_cons, Option.some.injEq] at hfirst
      subst hfirst
      constructor
      · simp only [CheckRegionConsistency]
        rw [if_pos hgt]
      · simp only [CheckPartRegionConsistency]
        rw [if_pos hgt]
  · intro last hlast hs hne hlt
    cases regions with
    | nil => simp at hlast
    | cons first rest =>
      have hl : (first :: rest).getLast (List.cons_ne_nil first rest) = last := by
        rw [List.getLast?_eq_getLast _ (List.cons_ne_nil first rest)] at hlast
        exact Option.some.inj hlast
      have h1 : ¬ bytesCompare first.Region.StartKey startKey > 0 := by
        have := hs first (by simp)
        omega
      have hlen : last.Region.EndKey.length ≠ 0 := by
        simpa [List.length_eq_zero] using hne
      simp only [CheckRegionConsistency, hl]
      rw [if_neg h1, if_pos ⟨hlen, hlt⟩]
  · intro i a b ha hb hgap hpre hs
    cases regions with
    | nil => simp at ha
    | cons first rest =>
      constructor
      · intro he
        rw [fullCheck_of_covered startKey endKey first rest hs he]
        exact checkRegionGaps_first_gap first rest i a b ha hb hgap hpre
      · rw [partCheck_of_covered startKey endKey first rest hs]
        exact checkPartRegionGaps_first_gap first rest i a b ha hb hgap hpre

/-- C17, at a concrete list that violates three invariants: for the range `[a, z)` the regions
1 `[b, c)` and 2 `[d, e)` start too late, end too early and have a gap; both checkers report the
start key. -/
theorem first_violation_is_reported_witness :
    CheckRegionConsistency [97] [122]
        [⟨⟨1, [98], [99], ⟨1, 1⟩⟩⟩, ⟨⟨2, [100], [101], ⟨1, 1⟩⟩⟩] =
      some (Annotatef ErrKind.ErrPDBatchScanRegion
        "first region %d's startKey(%s) > startKey(%s), region epoch: %s"
        [Arg.int 1, Arg.key [98], Arg.key [97], Arg.epoch ⟨1, 1⟩]) ∧
    CheckPartRegionConsistency [97] [122]
        [⟨⟨1, [98], [99], ⟨1, 1⟩⟩⟩, ⟨⟨2, [100], [101], ⟨1, 1⟩⟩⟩] =
      some (Annotatef ErrKind.ErrPDBatchScanRegion
        "first region's startKey > startKey, startKey: %s, regionStartKey: %s"
        [Arg.key [97], Arg.key [98]]) :=
  (first_violation_is_reported [97] [122]
    [⟨⟨1, [98], [99], ⟨1, 1⟩⟩⟩, ⟨⟨2, [100], [101], ⟨1, 1⟩⟩⟩]).2.1
    ⟨⟨1, [98], [99], ⟨1, 1⟩⟩⟩ rfl (by decide)

/-- C19: every attempt of `ScanRegionsWithRetry` returns after exactly one query to the
capability, made with the original `startKey`, `endKey` and `limit`; the attempt succeeds (returns
a nil error) if and only if that query succeeds and `CheckPartRegionConsistency` accepts the
returned batch; and the attempt hands back the policy as it got it, so that over a whole run the
attempts remaining never exceed the initial budget. -/
theorem scanAttempt_one_query {σ : Type} (c : SplitClient σ) (attemptTimes : Int)
    (ctxDone : Nat → Bool) (fuel : Nat) (client : σ) (startKey endKey : Key) (limit : Int) :
    (∀ (v : ScanVars σ) (b : WaitRegionOnlineBackoffer),
      ∃ err v1, scanAttempt c startKey endKey limit v b = some (Outcome.returned (err, v1, b)) ∧
        v1.calls = v.calls ++ [{ key := startKey, endKey := endKey, limit := limit }] ∧
        v1.client = (c.ScanRegions v.client startKey endKey limit).2 ∧
        v1.regions = (c.ScanRegions v.client startKey endKey limit).1.1 ∧
        v1.err = err ∧
        (err = none ↔ (c.ScanRegions v.client startKey endKey limit).1.2 = none ∧
          CheckPartRegionConsistency startKey endKey
            (c.ScanRegions v.client startKey endKey limit).1.1 = none)) ∧
    (∀ ret, ScanRegionsWithRetry c attemptTimes ctxDone fuel client startKey endKey limit =
        some (Outcome.returned ret) → ret.backoffer.Attempt ≤ attemptTimes) := by
  constructor
  · intro v b
    cases hq : (c.ScanRegions v.client startKey endKey limit).1.2 with
    | some clientErr =>
      simp only [scanAttempt, hq]
      exact ⟨_, _, rfl, rfl, rfl, rfl, rfl, by simp⟩
    | none =>
      simp only [scanAttempt, hq]
      exact ⟨_, _, rfl, rfl, rfl, rfl, rfl, by simp⟩
  · intro ret hrun
    unfold ScanRegionsWithRetry at hrun
    split_ifs at hrun with hcond
    · simp only [Option.some.injEq, Outcome.returned.injEq] at hrun
      subst hrun
      exact le_of_eq (by
        simp [NewWaitRegionOnlineBackoffer, WaitRegionOnlineBackoffer.Attempt,
          RetryState.Attempt, InitialRetryState])
    · split at hrun
      · cases hrun
      · cases hrun
      · next v backoffer heq =>
        simp only [Option.some.injEq, Outcome.returned.injEq] at hrun
        subst hrun
        have h := WithRetry_attempt_le ctxDone (scanAttempt c startKey endKey limit)
          (fun st b e st1 b1 hq =>
            ⟨(scanAttempt_backoffer c startKey endKey limit st b e st1 b1 hq).1,
             fun err he => (scanAttempt_post c startKey endKey limit st b e st1 b1 hq).2 err
               (by rw [(scanAttempt_backoffer c startKey endKey limit st b e st1 b1 hq).2, he])⟩)
          fuel 0 _ _ v backoffer heq
        have h0 : (NewWaitRegionOnlineBackoffer attemptTimes).Attempt = attemptTimes := by
          simp [NewWaitRegionOnlineBackoffer, WaitRegionOnlineBackoffer.Attempt,
            RetryState.Attempt, InitialRetryState]
        simpa [h0] using h

/-- C19, at a concrete run: the capability always answers with the region `[b, c)` for the range
`[a, z)` and a budget of 2 attempts: two attempts, two queries with the original arguments, and
no attempt left. -/
theorem scanAttempt_one_query_witness :
    ∃ ret, ScanRegionsWithRetry (constantClient [⟨⟨1, [98], [99], ⟨1, 1⟩⟩⟩])
          2 (fun _ => false) 3 () [97] [122] 128 = some (Outcome.returned ret) ∧
        ret.calls = [⟨[97], [122], 128⟩, ⟨[97], [122], 128⟩] ∧
        ret.backoffer.Attempt = 0 ∧ ret.backoffer.Attempt ≤ 2 :=
  ⟨_, rfl, rfl, rfl,
    (scanAttempt_one_query (constantClient [⟨⟨1, [98], [99], ⟨1, 1⟩⟩⟩])
      2 (fun _ => false) 3 () [97] [122] 128).2 _ rfl⟩

/-- C12: let two consecutive attempts of `PaginateScanRegion` both fail the consistency check,
on the accumulated lists `L1` and then `L2`. If the lengths of `L1` and `L2` differ, the attempts
remaining after the error of the second attempt is reported to the policy equal the attempts
remaining after the error of the first was reported; if the lengths are equal they are lower by
exactly one. -/
theorem progress_refund {σ : Type} (c : SplitClient σ) (startKey endKey : Key) (limit : Int)
    (fuel : Nat) (v0 : ScanVars σ) (b0 : WaitRegionOnlineBackoffer)
    (L1 L2 : List RegionInfo) (client1 client2 : σ) (calls1 calls2 : List ScanCall)
    (e1 e2 : Error)
    (hp1 : scanPages c endKey limit fuel v0.client v0.calls [] startKey =
      some (PageLoop.done L1 client1 calls1))
    (hc1 : CheckRegionConsistency startKey endKey L1 = some e1)
    (hp2 : scanPages c endKey limit fuel client1 calls1 [] startKey =
      some (PageLoop.done L2 client2 calls2))
    (hc2 : CheckRegionConsistency startKey endKey L2 = some e2) :
    ∃ v1 b1 v2 b2,
      paginateAttempt c startKey endKey limit fuel v0 b0 =
        some (Outcome.returned (some e1, v1, b1)) ∧
      v1.regions = L1 ∧
      paginateAttempt c startKey endKey limit fuel v1 (b1.NextBackoff e1).2 =
        some (Outcome.returned (some e2, v2, b2)) ∧
      v2.regions = L2 ∧
      (L2.length ≠ L1.length →
        (b2.NextBackoff e2).2.Attempt = (b1.NextBackoff e1).2.Attempt) ∧
      (L2.length = L1.length →
        (b2.NextBackoff e2).2.Attempt = (b1.NextBackoff e1).2.Attempt - 1) := by
  have h1 := paginateAttempt_of_done c startKey endKey limit fuel v0 b0 L1 client1 calls1 hp1
  rw [hc1] at h1
  have h2 := paginateAttempt_of_done c startKey endKey limit fuel
    { client := client1, calls := calls1, regions := L1, err := some e1 }
    ((if L1.length ≠ v0.regions.length then
        ({ Stat := b0.Stat.ReduceRetry } : WaitRegionOnlineBackoffer)
      else b0).NextBackoff e1).2 L2 client2 calls2 hp2
  rw [hc2] at h2
  refine ⟨_, _, _, _, h1, rfl, h2, rfl, ?_, ?_⟩
  · intro hne
    simp only [if_pos hne]
    rw [NextBackoff_attempt_of_scan _ e2 (fullCheck_kind _ _ _ e2 hc2), ReduceRetry_attempt]
    omega
  · intro heq
    simp only [heq, ne_eq, not_true_eq_false, if_false]
    rw [NextBackoff_attempt_of_scan _ e2 (fullCheck_kind _ _ _ e2 hc2)]

/-- C12, at a concrete capability: the service answers the first attempt with the gapped list
`[a, b)`, `[c, d)` and the second with the gapped list `[a, b)`, `[c, d)`, `[e, f)` for the
range `[a, d)`; with 3 attempts at the start, 3 remain after the first report and 3 after the
second. -/
theorem progress_refund_witness :
    ∃ v1 b1 v2 b2,
      paginateAttempt scriptedClient [97] [100] 128 1
          { client := [[⟨⟨1, [97], [98], ⟨1, 1⟩⟩⟩, ⟨⟨2, [99], [100], ⟨1, 1⟩⟩⟩],
                       [⟨⟨1, [97], [98], ⟨1, 1⟩⟩⟩, ⟨⟨2, [99], [100], ⟨1, 1⟩⟩⟩,
                        ⟨⟨3, [101], [102], ⟨1, 1⟩⟩⟩]],
            calls := [], regions := [], err := none }
          (NewWaitRegionOnlineBackoffer 3) =
        some (Outcome.returned
          (some (Annotatef ErrKind.ErrPDBatchScanRegion
            "region %d's endKey not equal to next region %d's startKey, endKey: %s, startKey: %s, region epoch: %s %s"
            [Arg.int 1, Arg.int 2, Arg.key [98], Arg.key [99], Arg.epoch ⟨1, 1⟩,
             Arg.epoch ⟨1, 1⟩]), v1, b1)) ∧
      paginateAttempt scriptedClient [97] [100] 128 1 v1
          (b1.NextBackoff (Annotatef ErrKind.ErrPDBatchScanRegion
            "region %d's endKey not equal to next region %d's startKey, endKey: %s, startKey: %s, region epoch: %s %s"
            [Arg.int 1, Arg.int 2, Arg.key [98], Arg.key [99], Arg.epoch ⟨1, 1⟩,
             Arg.epoch ⟨1, 1⟩])).2 =
        some (Outcome.returned
          (some (Annotatef ErrKind.ErrPDBatchScanRegion
            "region %d's endKey not equal to next region %d's startKey, endKey: %s, startKey: %s, region epoch: %s %s"
            [Arg.int 1, Arg.int 2, Arg.key [98], Arg.key [99], Arg.epoch ⟨1, 1⟩,
             Arg.epoch ⟨1, 1⟩]), v2, b2)) ∧
      ((b2.NextBackoff (Annotatef ErrKind.ErrPDBatchScanRegion
            "region %d's endKey not equal to next region %d's startKey, endKey: %s, startKey: %s, region epoch: %s %s"
            [Arg.int 1, Arg.int 2, Arg.key [98], Arg.key [99], Arg.epoch ⟨1, 1⟩,
             Arg.epoch ⟨1, 1⟩])).2.Attempt =
        (b1.NextBackoff (Annotatef ErrKind.ErrPDBatchScanRegion
            "region %d's endKey not equal to next region %d's startKey, endKey: %s, startKey: %s, region epoch: %s %s"
            [Arg.int 1, Arg.int 2, Arg.key [98], Arg.key [99], Arg.epoch ⟨1, 1⟩,
             Arg.epoch ⟨1, 1⟩])).2.Attempt) := by
  obtain ⟨v1, b1, v2, b2, h1, -, h2, -, h3, -⟩ :=
    progress_refund scriptedClient [97] [100] 128 1
      { client := [[⟨⟨1, [97], [98], ⟨1, 1⟩⟩⟩, ⟨⟨2, [99], [100], ⟨1, 1⟩⟩⟩],
                   [⟨⟨1, [97], [98], ⟨1, 1⟩⟩⟩, ⟨⟨2, [99], [100], ⟨1, 1⟩⟩⟩,
                    ⟨⟨3, [101], [102], ⟨1, 1⟩⟩⟩]],
        calls := [], regions := [], err := none }
      (NewWaitRegionOnlineBackoffer 3)
      [⟨⟨1, [97], [98], ⟨1, 1⟩⟩⟩, ⟨⟨2, [99], [100], ⟨1, 1⟩⟩⟩]
      [⟨⟨1, [97], [98], ⟨1, 1⟩⟩⟩, ⟨⟨2, [99], [100], ⟨1, 1⟩⟩⟩, ⟨⟨3, [101], [102], ⟨1, 1⟩⟩⟩]
      [[⟨⟨1, [97], [98], ⟨1, 1⟩⟩⟩, ⟨⟨2, [99], [100], ⟨1, 1⟩⟩⟩, ⟨⟨3, [101], [102], ⟨1, 1⟩⟩⟩]]
      [] [⟨[97], [100], 128⟩] [⟨[97], [100], 128⟩, ⟨[97], [100], 128⟩]
      (Annotatef ErrKind.ErrPDBatchScanRegion
        "region %d's endKey not equal to next region %d's startKey, endKey: %s, startKey: %s, region epoch: %s %s"
        [Arg.int 1, Arg.int 2, Arg.key [98], Arg.key [99], Arg.epoch ⟨1, 1⟩, Arg.epoch ⟨1, 1⟩])
      (Annotatef ErrKind.ErrPDBatchScanRegion
        "region %d's endKey not equal to next region %d's startKey, endKey: %s, startKey: %s, region epoch: %s %s"
        [Arg.int 1, Arg.int 2, Arg.key [98], Arg.key [99], Arg.epoch ⟨1, 1⟩, Arg.epoch ⟨1, 1⟩])
      rfl rfl rfl rfl
  exact ⟨v1, b1, v2, b2, h1, h2, h3 (by decide)⟩

/-- C11, as amended: let the range be valid, the attempt budget positive and the context not
cancelled after the first failure, and let the first paginated attempt yield a gapped list `L1`
and the second a list `L2` that passes the full check. Then, with fuel for two attempts,
`PaginateScanRegion` returns `L2` with a nil error; the consumed-attempt count of the policy at
return is 0 when `L1` and `L2` have the same length and -1 when they differ, so that the
attempts remaining are the initial budget, or the initial budget plus one. -/
theorem second_attempt_is_returned {σ : Type} (c : SplitClient σ) (attemptTimes : Int)
    (ctxDone : Nat → Bool) (fuel : Nat) (client : σ) (startKey endKey : Key) (limit : Int)
    (L1 L2 : List RegionInfo) (client1 client2 : σ) (calls1 calls2 : List ScanCall)
    (hrange : endKey = [] ∨ bytesCompare startKey endKey ≤ 0)
    (hbudget : attemptTimes > 0) (hctx : ctxDone 0 = false) (hfuel : 2 ≤ fuel)
    (hp1 : scanPages c endKey limit fuel client [] [] startKey =
      some (PageLoop.done L1 client1 calls1))
    (hgap : ¬ Gapless L1)
    (hp2 : scanPages c endKey limit fuel client1 calls1 [] startKey =
      some (PageLoop.done L2 client2 calls2))
    (hok : CheckRegionConsistency startKey endKey L2 = none) :
    ∃ ret, PaginateScanRegion c attemptTimes ctxDone fuel client startKey endKey limit =
        some (Outcome.returned ret) ∧
      ret.regions = L2 ∧ ret.err = none ∧ ret.calls = calls2 ∧
      ret.backoffer.Stat.retryTimes = (if L2.length = L1.length then 0 else -1) ∧
      ret.backoffer.Attempt =
        (if L2.length = L1.length then attemptTimes else attemptTimes + 1) := by
  have hcond : ¬ (endKey.length ≠ 0 ∧ bytesCompare startKey endKey > 0) := by
    rintro ⟨h1, h2⟩
    rcases hrange with h | h
    · exact h1 (by simp [h])
    · omega
  obtain ⟨e1, he1⟩ : ∃ e1, CheckRegionConsistency startKey endKey L1 = some e1 := by
    cases h : CheckRegionConsistency startKey endKey L1 with
    | none => exact absurd ((fullCheck_accepts_iff _ _ _).1 h).2.2.2 hgap
    | some e1 => exact ⟨e1, rfl⟩
  have hL1 : L1.length ≠ 0 := by
    intro h
    rw [List.length_eq_zero] at h
    subst h
    exact hgap (fun i a b ha _ => by simp at ha)
  have hkind := fullCheck_kind _ _ _ e1 he1
  have h0 : (NewWaitRegionOnlineBackoffer attemptTimes).Attempt = attemptTimes := by
    simp [NewWaitRegionOnlineBackoffer, WaitRegionOnlineBackoffer.Attempt,
      RetryState.Attempt, InitialRetryState]
  have h1 := paginateAttempt_of_done c startKey endKey limit fuel
    { client := client, calls := [], regions := [], err := none }
    (NewWaitRegionOnlineBackoffer attemptTimes) L1 client1 calls1 hp1
  rw [he1] at h1
  simp only [List.length_nil, ne_eq, hL1, not_false_eq_true, if_true] at h1
  have hA : ((({ Stat := (NewWaitRegionOnlineBackoffer attemptTimes).Stat.ReduceRetry } :
      WaitRegionOnlineBackoffer).NextBackoff e1).2).Attempt = attemptTimes := by
    rw [NextBackoff_attempt_of_scan _ e1 hkind, ReduceRetry_attempt, h0]
    omega
  have hAr : ((({ Stat := (NewWaitRegionOnlineBackoffer attemptTimes).Stat.ReduceRetry } :
      WaitRegionOnlineBackoffer).NextBackoff e1).2).Stat.retryTimes = 0 := by
    rw [NextBackoff_of_scan _ e1 hkind]
    simp [NewWaitRegionOnlineBackoffer, InitialRetryState, RetryState.ReduceRetry,
      RetryState.ExponentialBackoff]
  have h2 := paginateAttempt_of_done c startKey endKey limit fuel
    { client := client1, calls := calls1, regions := L1, err := some e1 }
    (({ Stat := (NewWaitRegionOnlineBackoffer attemptTimes).Stat.ReduceRetry } :
      WaitRegionOnlineBackoffer).NextBackoff e1).2 L2 client2 calls2 hp2
  rw [hok] at h2
  obtain ⟨f, rfl⟩ : ∃ f, fuel = f + 2 := ⟨fuel - 2, by omega⟩
  have step2 := WithRetry_succ_ok ctxDone (paginateAttempt c startKey endKey limit (f + 2)) f 1
    _ _ _ _ (by rw [hA]; exact hbudget) h2
  have step1 := WithRetry_succ_err ctxDone (paginateAttempt c startKey endKey limit (f + 2))
    (f + 1) 0 _ _ e1 _ _ (by rw [h0]; exact hbudget) h1
  rw [hctx] at step1
  simp only [Bool.false_eq_true, if_false, zero_add] at step1
  rw [step2] at step1
  unfold PaginateScanRegion
  rw [if_neg hcond, step1]
  refine ⟨_, rfl, rfl, rfl, rfl, ?_, ?_⟩
  · by_cases hlen : L2.length = L1.length
    · simp only [hlen, ne_eq, not_true_eq_false, if_false, if_true]
      exact hAr
    · simp only [hlen, ne_eq, not_false_eq_true, if_true, if_false]
      have hred : ∀ rs : RetryState, rs.ReduceRetry.retryTimes = rs.retryTimes - 1 :=
        fun _ => rfl
      rw [hred, hAr]
      rfl
  · by_cases hlen : L2.length = L1.length
    · simp only [hlen, ne_eq, not_true_eq_false, if_false, if_true]
      exact hA
    · simp only [hlen, ne_eq, not_false_eq_true, if_true, if_false]
      rw [ReduceRetry_attempt, hA]

/-- C11, at a concrete capability: the service answers the first attempt with the gapped list
`[a, b)`, `[c, d)` and the second with `[a, b)`, `[b, d)` for the range `[a, d)`; the second list
is returned with a nil error. -/
theorem second_attempt_is_returned_witness :
    ∃ ret, PaginateScanRegion scriptedClient 3 (fun _ => false) 2
          [[⟨⟨1, [97], [98], ⟨1, 1⟩⟩⟩, ⟨⟨2, [99], [100], ⟨1, 1⟩⟩⟩],
           [⟨⟨1, [97], [98], ⟨1, 1⟩⟩⟩, ⟨⟨3, [98], [100], ⟨1, 1⟩⟩⟩]]
          [97] [100] 128 = some (Outcome.returned ret) ∧
      ret.regions = [⟨⟨1, [97], [98], ⟨1, 1⟩⟩⟩, ⟨⟨3, [98], [100], ⟨1, 1⟩⟩⟩] ∧
      ret.err = none := by
  obtain ⟨ret, h1, h2, h3, -⟩ :=
    second_attempt_is_returned scriptedClient 3 (fun _ => false) 2
      [[⟨⟨1, [97], [98], ⟨1, 1⟩⟩⟩, ⟨⟨2, [99], [100], ⟨1, 1⟩⟩⟩],
       [⟨⟨1, [97], [98], ⟨1, 1⟩⟩⟩, ⟨⟨3, [98], [100], ⟨1, 1⟩⟩⟩]]
      [97] [100] 128
      [⟨⟨1, [97], [98], ⟨1, 1⟩⟩⟩, ⟨⟨2, [99], [100], ⟨1, 1⟩⟩⟩]
      [⟨⟨1, [97], [98], ⟨1, 1⟩⟩⟩, ⟨⟨3, [98], [100], ⟨1, 1⟩⟩⟩]
      [[⟨⟨1, [97], [98], ⟨1, 1⟩⟩⟩, ⟨⟨3, [98], [100], ⟨1, 1⟩⟩⟩]] []
      [⟨[97], [100], 128⟩] [⟨[97], [100], 128⟩, ⟨[97], [100], 128⟩]
      (Or.inr (by decide)) (by decide) rfl (by decide) rfl
      (fun h => absurd (h 0 ⟨⟨1, [97], [98], ⟨1, 1⟩⟩⟩ ⟨⟨2, [99], [100], ⟨1, 1⟩⟩⟩ rfl rfl)
        (by decide))
      rfl (by decide)
  exact ⟨ret, h1, h2, h3⟩

/-- C11, as stated, fails: (1) the service answers the first attempt with the gapped list
`[a, b)`, `[c, d)` and the second with the consistent list `[a, b)`, `[b, d)` for the range
`[a, d)`, with a budget of 3 attempts: the second list is returned with a nil error, and the
consumed-attempt count at return is 0, with 3 attempts remaining, not 2; (2) when the second
list is `[a, b)`, `[b, c)`, `[c, d)`, of another length, the consumed-attempt count at return is
-1, with 4 attempts remaining. -/
theorem consumed_attempts_counterexample :
    (CheckRegionConsistency [97] [100]
        [⟨⟨1, [97], [98], ⟨1, 1⟩⟩⟩, ⟨⟨2, [99], [100], ⟨1, 1⟩⟩⟩] =
      some (Annotatef ErrKind.ErrPDBatchScanRegion
        "region %d's endKey not equal to next region %d's startKey, endKey: %s, startKey: %s, region epoch: %s %s"
        [Arg.int 1, Arg.int 2, Arg.key [98], Arg.key [99], Arg.epoch ⟨1, 1⟩,
         Arg.epoch ⟨1, 1⟩])) ∧
    (∃ ret, PaginateScanRegion scriptedClient 3 (fun _ => false) 2
          [[⟨⟨1, [97], [98], ⟨1, 1⟩⟩⟩, ⟨⟨2, [99], [100], ⟨1, 1⟩⟩⟩],
           [⟨⟨1, [97], [98], ⟨1, 1⟩⟩⟩, ⟨⟨3, [98], [100], ⟨1, 1⟩⟩⟩]]
          [97] [100] 128 = some (Outcome.returned ret) ∧
      ret.regions = [⟨⟨1, [97], [98], ⟨1, 1⟩⟩⟩, ⟨⟨3, [98], [100], ⟨1, 1⟩⟩⟩] ∧
      ret.err = none ∧
      CheckRegionConsistency [97] [100] ret.regions = none ∧
      ret.calls = [⟨[97], [100], 128⟩, ⟨[97], [100], 128⟩] ∧
      ret.backoffer.Stat.retryTimes = 0 ∧ ret.backoffer.Attempt = 3 ∧
      ret.backoffer.Attempt ≠ 3 - 1) ∧
    (∃ ret, PaginateScanRegion scriptedClient 3 (fun _ => false) 2
          [[⟨⟨1, [97], [98], ⟨1, 1⟩⟩⟩, ⟨⟨2, [99], [100], ⟨1, 1⟩⟩⟩],
           [⟨⟨1, [97], [98], ⟨1, 1⟩⟩⟩, ⟨⟨3, [98], [99], ⟨1, 1⟩⟩⟩,
            ⟨⟨2, [99], [100], ⟨1, 1⟩⟩⟩]]
          [97] [100] 128 = some (Outcome.returned ret) ∧
      ret.regions = [⟨⟨1, [97], [98], ⟨1, 1⟩⟩⟩, ⟨⟨3, [98], [99], ⟨1, 1⟩⟩⟩,
        ⟨⟨2, [99], [100], ⟨1, 1⟩⟩⟩] ∧
      ret.err = none ∧
      ret.backoffer.Stat.retryTimes = -1 ∧ ret.backoffer.Attempt = 4 ∧
      ret.backoffer.Attempt ≠ 3 - 1) := by
  refine ⟨by decide, ⟨_, rfl, rfl, rfl, by decide, rfl, by decide, by decide, by decide⟩,
    ⟨_, rfl, rfl, rfl, by decide, by decide, by decide⟩⟩

/-- C15: each scanner returns what its run with the record of the attempts returns; and whenever
at least one attempt was made, the error returned to the caller is exactly what the last attempt
returned, nothing of the earlier attempts and no wrapper: for `PaginateScanRegion` the wrapped
failure of a query or the failure of the full check on the returned list, for
`ScanRegionsWithRetry` the wrapped failure of its query or the failure of the partial check on
the returned batch. -/
theorem last_attempt_error_is_returned {σ : Type} (c : SplitClient σ) (attemptTimes : Int)
    (ctxDone : Nat → Bool) (fuel : Nat) (client : σ) (startKey endKey : Key) (limit : Int) :
    (PaginateScanRegion c attemptTimes ctxDone fuel client startKey endKey limit =
      withoutRecord
        (PaginateScanRegionAttempts c attemptTimes ctxDone fuel client startKey endKey limit)) ∧
    (∀ ret attempts last,
      PaginateScanRegionAttempts c attemptTimes ctxDone fuel client startKey endKey limit =
        some (Outcome.returned (ret, attempts)) →
      attempts.getLast? = some last →
      ret.err = last ∧ ∀ err, last = some err →
        (∃ (cursor : Key) (text : String),
          err = Annotatef ErrKind.ErrPDBatchScanRegion "scan regions from start-key:%s, err: %s"
            [Arg.key cursor, Arg.str text]) ∨
        CheckRegionConsistency startKey endKey ret.regions = some err) ∧
    (ScanRegionsWithRetry c attemptTimes ctxDone fuel client startKey endKey limit =
      withoutRecord
        (ScanRegionsWithRetryAttempts c attemptTimes ctxDone fuel client startKey endKey
          limit)) ∧
    (∀ ret attempts last,
      ScanRegionsWithRetryAttempts c attemptTimes ctxDone fuel client startKey endKey limit =
        some (Outcome.returned (ret, attempts)) →
      attempts.getLast? = some last →
      ret.err = last ∧ ∀ err, last = some err →
        (∃ text : String,
          err = Annotatef ErrKind.ErrPDBatchScanRegion "scan regions from start-key:%s, err: %s"
            [Arg.key startKey, Arg.str text]) ∨
        CheckPartRegionConsistency startKey endKey ret.regions = some err) := by
  refine ⟨?_, ?_, ?_, ?_⟩
  · unfold PaginateScanRegion PaginateScanRegionAttempts
    split_ifs
    · rfl
    · rw [WithRetry_recorded ctxDone (paginateAttempt c startKey endKey limit fuel) fuel 0 _ []]
      cases WithRetry ctxDone (recordReturns (paginateAttempt c startKey endKey limit fuel))
          fuel 0 ({ client := client, calls := [], regions := [], err := none }, [])
          (NewWaitRegionOnlineBackoffer attemptTimes) with
      | none => rfl
      | some o => cases o <;> rfl
  · intro ret attempts last hrun hlast
    unfold PaginateScanRegionAttempts at hrun
    split_ifs at hrun
    · simp only [Option.some.injEq, Outcome.returned.injEq, Prod.mk.injEq] at hrun
      rw [← hrun.2] at hlast
      simp at hlast
    · split at hrun
      · cases hrun
      · cases hrun
      · next v backoffer heq =>
        simp only [Option.some.injEq, Outcome.returned.injEq, Prod.mk.injEq] at hrun
        obtain ⟨rfl, rfl⟩ := hrun
        exact recorded_last
          (fun e (v : ScanVars σ) => v.err = e ∧ ∀ err, e = some err →
            (∃ (cursor : Key) (text : String),
              err = Annotatef ErrKind.ErrPDBatchScanRegion
                "scan regions from start-key:%s, err: %s" [Arg.key cursor, Arg.str text]) ∨
            CheckRegionConsistency startKey endKey v.regions = some err)
          ctxDone (paginateAttempt c startKey endKey limit fuel)
          (fun st b e st1 b1 h => paginateAttempt_returns c startKey endKey limit fuel st b e
            st1 b1 h)
          fuel 0 _ _ v backoffer heq last hlast
  · unfold ScanRegionsWithRetry ScanRegionsWithRetryAttempts
    split_ifs
    · rfl
    · rw [WithRetry_recorded ctxDone (scanAttempt c startKey endKey limit) fuel 0 _ []]
      cases WithRetry ctxDone (recordReturns (scanAttempt c startKey endKey limit))
          fuel 0 ({ client := client, calls := [], regions := [], err := none }, [])
          (NewWaitRegionOnlineBackoffer attemptTimes) with
      | none => rfl
      | some o => cases o <;> rfl
  · intro ret attempts last hrun hlast
    unfold ScanRegionsWithRetryAttempts at hrun
    split_ifs at hrun
    · simp only [Option.some.injEq, Outcome.returned.injEq, Prod.mk.injEq] at hrun
      rw [← hrun.2] at hlast
      simp at hlast
    · split at hrun
      · cases hrun
      · cases hrun
      · next v backoffer heq =>
        simp only [Option.some.injEq, Outcome.returned.injEq, Prod.mk.injEq] at hrun
        obtain ⟨rfl, rfl⟩ := hrun
        exact recorded_last
          (fun e (v : ScanVars σ) => v.err = e ∧ ∀ err, e = some err →
            (∃ text : String,
              err = Annotatef ErrKind.ErrPDBatchScanRegion
                "scan regions from start-key:%s, err: %s" [Arg.key startKey, Arg.str text]) ∨
            CheckPartRegionConsistency startKey endKey v.regions = some err)
          ctxDone (scanAttempt c startKey endKey limit)
          (fun st b e st1 b1 h => scanAttempt_returns c startKey endKey limit st b e st1 b1 h)
          fuel 0 _ _ v backoffer heq last hlast

/-- C15, at a concrete run: with a budget of one attempt, the service answers the first attempt
with the gapped list `[a, b)`, `[c, d)` and the second with `[b, c)`, `[c, d)`, which starts
beyond `a`, for the range `[a, d)`; the two attempts return a gap error and a start-key error, and
the start-key error alone is returned. -/
theorem last_attempt_error_is_returned_witness :
    ∃ ret, PaginateScanRegionAttempts scriptedClient 1 (fun _ => false) 2
          [[⟨⟨1, [97], [98], ⟨1, 1⟩⟩⟩, ⟨⟨2, [99], [100], ⟨1, 1⟩⟩⟩],
           [⟨⟨3, [98], [99], ⟨1, 1⟩⟩⟩, ⟨⟨2, [99], [100], ⟨1, 1⟩⟩⟩]]
          [97] [100] 128 =
        some (Outcome.returned (ret,
          [some (Annotatef ErrKind.ErrPDBatchScanRegion
            "region %d's endKey not equal to next region %d's startKey, endKey: %s, startKey: %s, region epoch: %s %s"
            [Arg.int 1, Arg.int 2, Arg.key [98], Arg.key [99], Arg.epoch ⟨1, 1⟩,
             Arg.epoch ⟨1, 1⟩]),
           some (Annotatef ErrKind.ErrPDBatchScanRegion
            "first region %d's startKey(%s) > startKey(%s), region epoch: %s"
            [Arg.int 3, Arg.key [98], Arg.key [97], Arg.epoch ⟨1, 1⟩])])) ∧
      ret.err = some (Annotatef ErrKind.ErrPDBatchScanRegion
        "first region %d's startKey(%s) > startKey(%s), region epoch: %s"
        [Arg.int 3, Arg.key [98], Arg.key [97], Arg.epoch ⟨1, 1⟩]) :=
  ⟨_, rfl,
    ((last_attempt_error_is_returned scriptedClient 1 (fun _ => false) 2
      [[⟨⟨1, [97], [98], ⟨1, 1⟩⟩⟩, ⟨⟨2, [99], [100], ⟨1, 1⟩⟩⟩],
       [⟨⟨3, [98], [99], ⟨1, 1⟩⟩⟩, ⟨⟨2, [99], [100], ⟨1, 1⟩⟩⟩]]
      [97] [100] 128).2.1 _ _ _ rfl rfl).1⟩

/-- C18: within one attempt of `PaginateScanRegion`, after a query that succeeds with the page
`batch`: if the page has fewer than `limit` regions the loop ends with the regions accumulated;
and, `last` being the last region of the page, the loop ends there exactly when the page has
fewer than `limit` regions, or the end key of `last` is empty, or `endKey` is non-empty and the
end key of `last` is at least `endKey`; otherwise the loop goes on from the cursor that is the
end key of `last`, and its next query has that cursor and the same `endKey` and `limit`. (A
page that is empty and not shorter than `limit`, which takes a `limit` below 1, has no last
region.) -/
theorem paging_stops_or_continues {σ : Type} (c : SplitClient σ) (endKey : Key) (limit : Int)
    (fuel : Nat) (client : σ) (calls : List ScanCall) (regions : List RegionInfo) (key : Key)
    (batch : List RegionInfo) (client1 : σ)
    (hanswer : c.ScanRegions client key endKey limit = ((batch, none), client1)) :
    ((batch.length : Int) < limit →
      scanPages c endKey limit (fuel + 1) client calls regions key =
        some (PageLoop.done (regions ++ batch) client1
          (calls ++ [{ key := key, endKey := endKey, limit := limit }]))) ∧
    (∀ last : RegionInfo, batch.getLast? = some last →
      (((batch.length : Int) < limit ∨ last.Region.EndKey = [] ∨
          (endKey ≠ [] ∧ bytesCompare last.Region.EndKey endKey ≥ 0)) →
        scanPages c endKey limit (fuel + 1) client calls regions key =
          some (PageLoop.done (regions ++ batch) client1
            (calls ++ [{ key := key, endKey := endKey, limit := limit }]))) ∧
      (¬ ((batch.length : Int) < limit ∨ last.Region.EndKey = [] ∨
          (endKey ≠ [] ∧ bytesCompare last.Region.EndKey endKey ≥ 0)) →
        scanPages c endKey limit (fuel + 1) client calls regions key =
          scanPages c endKey limit fuel client1
            (calls ++ [{ key := key, endKey := endKey, limit := limit }]) (regions ++ batch)
            last.Region.EndKey ∧
        (∀ r, scanPages c endKey limit (fuel + 2) client calls regions key = some r →
          ∃ more, r.calls = calls ++
            [{ key := key, endKey := endKey, limit := limit },
             { key := last.Region.EndKey, endKey := endKey, limit := limit }] ++ more) ∧
        scanPages c endKey limit (fuel + 2) client calls regions key ≠
          some (PageLoop.done (regions ++ batch) client1
            (calls ++ [{ key := key, endKey := endKey, limit := limit }])))) := by
  refine ⟨fun hlen => scanPages_of_stop c endKey limit fuel client calls regions key batch
    client1 hanswer (Or.inl hlen), ?_⟩
  intro last hlast
  constructor
  · intro hstop
    refine scanPages_of_stop c endKey limit fuel client calls regions key batch client1 hanswer
      ?_
    rcases hstop with h | h | h
    · exact Or.inl h
    · exact Or.inr ⟨last, hlast, Or.inl h⟩
    · exact Or.inr ⟨last, hlast, Or.inr h⟩
  · intro hgo
    have hnext : ∀ r, scanPages c endKey limit (fuel + 2) client calls regions key = some r →
        ∃ more, r.calls = calls ++
          [{ key := key, endKey := endKey, limit := limit },
           { key := last.Region.EndKey, endKey := endKey, limit := limit }] ++ more := by
      intro r hr
      rw [scanPages_of_continue c endKey limit (fuel + 1) client calls regions key batch client1
        last hanswer hlast hgo] at hr
      obtain ⟨more, hmore⟩ := scanPages_calls_extend c endKey limit fuel _ _ _ _ r hr
      exact ⟨more, by rw [hmore]; simp⟩
    refine ⟨scanPages_of_continue c endKey limit fuel client calls regions key batch client1
      last hanswer hlast hgo, hnext, ?_⟩
    intro hdone
    obtain ⟨more, hmore⟩ := hnext _ hdone
    have hlen := congrArg List.length hmore
    simp [PageLoop.calls] at hlen

/-- C18, at a concrete capability: with limit 2 and the range `[a, z)`, the full page `[a, b)`,
`[b, c)` is followed by a query from the cursor `c`; the page `[c, d)` then ends the loop. -/
theorem paging_stops_or_continues_witness :
    scanPages scriptedClient [122] 2 1
        [[⟨⟨1, [97], [98], ⟨1, 1⟩⟩⟩, ⟨⟨2, [98], [99], ⟨1, 1⟩⟩⟩], [⟨⟨3, [99], [100], ⟨1, 1⟩⟩⟩]]
        [] [] [97] =
      scanPages scriptedClient [122] 2 0 [[⟨⟨3, [99], [100], ⟨1, 1⟩⟩⟩]]
        ([] ++ [{ key := [97], endKey := [122], limit := 2 }])
        ([] ++ [⟨⟨1, [97], [98], ⟨1, 1⟩⟩⟩, ⟨⟨2, [98], [99], ⟨1, 1⟩⟩⟩]) [99] ∧
    scanPages scriptedClient [122] 2 1 [[⟨⟨3, [99], [100], ⟨1, 1⟩⟩⟩]]
        [{ key := [97], endKey := [122], limit := 2 }]
        [⟨⟨1, [97], [98], ⟨1, 1⟩⟩⟩, ⟨⟨2, [98], [99], ⟨1, 1⟩⟩⟩] [99] =
      some (PageLoop.done
        ([⟨⟨1, [97], [98], ⟨1, 1⟩⟩⟩, ⟨⟨2, [98], [99], ⟨1, 1⟩⟩⟩] ++ [⟨⟨3, [99], [100], ⟨1, 1⟩⟩⟩])
        []
        ([{ key := [97], endKey := [122], limit := 2 }] ++
          [{ key := [99], endKey := [122], limit := 2 }])) :=
  ⟨(((paging_stops_or_continues scriptedClient [122] 2 0
      [[⟨⟨1, [97], [98], ⟨1, 1⟩⟩⟩, ⟨⟨2, [98], [99], ⟨1, 1⟩⟩⟩], [⟨⟨3, [99], [100], ⟨1, 1⟩⟩⟩]]
      [] [] [97] [⟨⟨1, [97], [98], ⟨1, 1⟩⟩⟩, ⟨⟨2, [98], [99], ⟨1, 1⟩⟩⟩]
      [[⟨⟨3, [99], [100], ⟨1, 1⟩⟩⟩]] rfl).2 ⟨⟨2, [98], [99], ⟨1, 1⟩⟩⟩ rfl).2
      (by simp [bytesCompare])).1,
   (paging_stops_or_continues scriptedClient [122] 2 0 [[⟨⟨3, [99], [100], ⟨1, 1⟩⟩⟩]]
      [{ key := [97], endKey := [122], limit := 2 }]
      [⟨⟨1, [97], [98], ⟨1, 1⟩⟩⟩, ⟨⟨2, [98], [99], ⟨1, 1⟩⟩⟩] [99]
      [⟨⟨3, [99], [100], ⟨1, 1⟩⟩⟩] [] rfl).1 (by decide)⟩

/-- C23: for an empty (unbounded) `endKey` the full checker accepts exactly the lists the
partial checker accepts, and no error it returns is the end-key error, whatever the end key of
the last region; and for every `endKey` a list the full checker accepts is accepted by the
partial checker. -/
theorem unbounded_full_check_agrees (startKey endKey : Key) (regions : List RegionInfo) :
    (CheckRegionConsistency startKey [] regions = none ↔
      CheckPartRegionConsistency startKey [] regions = none) ∧
    (∀ err, CheckRegionConsistency startKey [] regions = some err →
      err.format ≠ "last region %d's endKey(%s) < endKey(%s), region epoch: %s") ∧
    (CheckRegionConsistency startKey endKey regions = none →
      CheckPartRegionConsistency startKey endKey regions = none) := by
  refine ⟨?_, ?_, ?_⟩
  · rw [fullCheck_accepts_iff, partCheck_accepts_iff]
    constructor
    · rintro ⟨h1, h2, -, h4⟩; exact ⟨h1, h2, h4⟩
    · rintro ⟨h1, h2, h4⟩; exact ⟨h1, h2, endCovered_of_unbounded regions, h4⟩
  · intro err h
    cases regions with
    | nil =>
      simp only [CheckRegionConsistency, Option.some.injEq] at h
      subst h
      simp only [Annotatef]
      decide
    | cons first rest =>
      simp only [CheckRegionConsistency] at h
      split_ifs at h with h1 h2
      · cases h
        simp only [Annotatef]
        decide
      · have := bytesCompare_nil_right
          ((first :: rest).getLast (List.cons_ne_nil first rest)).Region.EndKey
        omega
      · rw [checkRegionGaps_format first rest err h]
        decide
  · intro h
    rw [fullCheck_accepts_iff] at h
    rw [partCheck_accepts_iff]
    exact ⟨h.1, h.2.1, h.2.2.2⟩

/-- C23, at a concrete list: the single region `["", "m")`, whose end key is bounded, is accepted
by both checkers for the unbounded range `["", "")`. -/
theorem unbounded_full_check_agrees_witness :
    CheckRegionConsistency [] [] [⟨⟨1, [], [109], ⟨1, 1⟩⟩⟩] = none ∧
    CheckPartRegionConsistency [] [] [⟨⟨1, [], [109], ⟨1, 1⟩⟩⟩] = none :=
  ⟨by decide,
   (unbounded_full_check_agrees [] [] [⟨⟨1, [], [109], ⟨1, 1⟩⟩⟩]).2.2 (by decide)⟩

/-- C24: for a limit of at least 1 the paging loop of `PaginateScanRegion` never takes the last
element of an empty page: the loop never ends on the out-of-range access, no attempt and no run
of the scanner panics; and the bound on the limit is needed: for a limit below 1, a query that
succeeds with the empty page is followed by the out-of-range access. -/
theorem last_element_access_in_range {σ : Type} (c : SplitClient σ) (endKey : Key)
    (limit : Int) :
    (1 ≤ limit →
      (∀ (fuel : Nat) (client : σ) (calls : List ScanCall) (regions : List RegionInfo)
          (key : Key) (client1 : σ) (calls1 : List ScanCall),
        scanPages c endKey limit fuel client calls regions key ≠
          some (PageLoop.indexOutOfRange client1 calls1)) ∧
      (∀ (startKey : Key) (fuel : Nat) (v : ScanVars σ) (b : WaitRegionOnlineBackoffer),
        paginateAttempt c startKey endKey limit fuel v b ≠ some Outcome.panicked) ∧
      (∀ (attemptTimes : Int) (ctxDone : Nat → Bool) (fuel : Nat) (client : σ) (startKey : Key),
        PaginateScanRegion c attemptTimes ctxDone fuel client startKey endKey limit ≠
          some Outcome.panicked)) ∧
    (limit ≤ 0 →
      ∀ (fuel : Nat) (client : σ) (calls : List ScanCall) (regions : List RegionInfo)
        (key : Key) (client1 : σ),
        c.ScanRegions client key endKey limit = (([], none), client1) →
        scanPages c endKey limit (fuel + 1) client calls regions key =
          some (PageLoop.indexOutOfRange client1
            (calls ++ [{ key := key, endKey := endKey, limit := limit }]))) := by
  constructor
  · intro hlimit
    refine ⟨scanPages_in_range c endKey limit hlimit,
      fun startKey fuel v b => paginateAttempt_in_range c startKey endKey limit hlimit fuel v b,
      ?_⟩
    intro attemptTimes ctxDone fuel client startKey h
    unfold PaginateScanRegion at h
    split_ifs at h
    · cases h
    split at h
    · cases h
    · next heq =>
      exact WithRetry_no_panic ctxDone (paginateAttempt c startKey endKey limit fuel)
        (fun st b => paginateAttempt_in_range c startKey endKey limit hlimit fuel st b)
        fuel 0 _ _ heq
    · cases h
  · intro hlimit fuel client calls regions key client1 hanswer
    rw [scanPages]
    simp only [hanswer]
    have hlen : ¬ ((([] : List RegionInfo).length : Int) < limit) := by
      simp only [List.length_nil, Nat.cast_zero, not_lt]
      exact hlimit
    rw [if_neg hlen]
    rfl

/-- C24, at concrete limits: with limit 1 an attempt on a service that answers with the empty
page does not panic, and with limit 0 the loop ends on the out-of-range access after its first
query. -/
theorem last_element_access_in_range_witness :
    paginateAttempt (constantClient []) [97] [122] 1 3
        { client := (), calls := [], regions := [], err := none }
        (NewWaitRegionOnlineBackoffer 3) ≠ some Outcome.panicked ∧
    scanPages (constantClient []) [122] 0 (2 + 1) () [] [] [97] =
      some (PageLoop.indexOutOfRange ()
        ([] ++ [{ key := [97], endKey := [122], limit := 0 }])) :=
  ⟨((last_element_access_in_range (constantClient []) [122] 1).1 (by decide)).2.1 [97] 3
      { client := (), calls := [], regions := [], err := none } (NewWaitRegionOnlineBackoffer 3),
   (last_element_access_in_range (constantClient []) [122] 0).2 (by decide) 2 () [] [] [97] ()
      rfl⟩

end Split

namespace Expression

/-! ## Logical AND and OR -/

/-- C26: `builtinLogicAndSig.evalInt` on arguments that evaluate without error. If the first
argument is a non-NULL zero the result is the non-NULL 0 and the context is the one the first
argument leaves, whatever the second argument is: the second argument is not evaluated.
Otherwise, the second argument being evaluated: the result is the non-NULL 0 if it is a non-NULL
zero, NULL if neither is a non-NULL zero and one of them is NULL, and the non-NULL 1 otherwise.
The result is the same when two arguments of fixed outcomes are exchanged. -/
theorem logicAnd_three_valued {σ : Type} (arg0 arg1 : EvalIntFn σ) (ctx ctx1 : σ) (v0 : Int)
    (isNull0 : Bool) (h0 : arg0 ctx = ((v0, isNull0, none), ctx1)) :
    ((isNull0 = false ∧ v0 = 0) →
      builtinLogicAndSig.evalInt arg0 arg1 ctx = ((0, false, none), ctx1)) ∧
    (∀ (v1 : Int) (isNull1 : Bool) (ctx2 : σ), arg1 ctx1 = ((v1, isNull1, none), ctx2) →
      ¬ (isNull0 = false ∧ v0 = 0) →
      ((isNull1 = false ∧ v1 = 0) →
        builtinLogicAndSig.evalInt arg0 arg1 ctx = ((0, false, none), ctx2)) ∧
      (¬ (isNull1 = false ∧ v1 = 0) → (isNull0 = true ∨ isNull1 = true) →
        builtinLogicAndSig.evalInt arg0 arg1 ctx = ((0, true, none), ctx2)) ∧
      (¬ (isNull1 = false ∧ v1 = 0) → isNull0 = false → isNull1 = false →
        builtinLogicAndSig.evalInt arg0 arg1 ctx = ((1, false, none), ctx2))) ∧
    (∀ (v1 : Int) (isNull1 : Bool),
      builtinLogicAndSig.evalInt (constantOutcome (v0, isNull0, none))
          (constantOutcome (v1, isNull1, none)) ctx =
        builtinLogicAndSig.evalInt (constantOutcome (v1, isNull1, none))
          (constantOutcome (v0, isNull0, none)) ctx) := by
  refine ⟨?_, ?_, ?_⟩
  · intro hz
    simp [builtinLogicAndSig.evalInt, h0, hz]
  · intro v1 isNull1 ctx2 h1 hnz
    refine ⟨?_, ?_, ?_⟩
    · intro hz
      simp [builtinLogicAndSig.evalInt, h0, h1, hnz, hz]
    · intro hnz1 hnull
      simp [builtinLogicAndSig.evalInt, h0, h1, hnz, hnz1, hnull]
    · intro hnz1 hn0 hn1
      have hv0 : v0 ≠ 0 := fun h => hnz ⟨hn0, h⟩
      have hv1 : v1 ≠ 0 := fun h => hnz1 ⟨hn1, h⟩
      simp [builtinLogicAndSig.evalInt, h0, h1, hn0, hn1, hv0, hv1]
  · intro v1 isNull1
    simp only [builtinLogicAndSig.evalInt, constantOutcome]
    cases isNull0 <;> cases isNull1 <;> by_cases hv0 : v0 = 0 <;> by_cases hv1 : v1 = 0 <;>
      simp [hv0, hv1]

/-- C26, at concrete arguments over a context that counts the evaluations: the first argument
is the non-NULL 0 and the second would fail; the result is the non-NULL 0 after one
evaluation. -/
theorem logicAnd_three_valued_witness :
    builtinLogicAndSig.evalInt (fun n : Nat => ((0, false, none), n + 1))
        (fun n : Nat => ((0, true, some (EvalError.other 1)), n + 1)) 0 =
      ((0, false, none), 1) :=
  (logicAnd_three_valued (fun n : Nat => ((0, false, none), n + 1))
    (fun n : Nat => ((0, true, some (EvalError.other 1)), n + 1)) 0 1 0 false rfl).1 ⟨rfl, rfl⟩

/-- C27: `builtinLogicOrSig.evalInt` on arguments that evaluate without error. If the first
argument is non-NULL and non-zero the result is the non-NULL 1 and the context is the one the
first argument leaves, whatever the second argument is: the second argument is not evaluated.
Otherwise, the second argument being evaluated: the result is the non-NULL 1 if it is non-NULL
and non-zero, NULL if neither is non-NULL and non-zero and one of them is NULL, and the non-NULL
0 otherwise. The result is the same when two arguments of fixed outcomes are exchanged. -/
theorem logicOr_three_valued {σ : Type} (arg0 arg1 : EvalIntFn σ) (ctx ctx1 : σ) (v0 : Int)
    (isNull0 : Bool) (h0 : arg0 ctx = ((v0, isNull0, none), ctx1)) :
    ((isNull0 = false ∧ v0 ≠ 0) →
      builtinLogicOrSig.evalInt arg0 arg1 ctx = ((1, false, none), ctx1)) ∧
    (∀ (v1 : Int) (isNull1 : Bool) (ctx2 : σ), arg1 ctx1 = ((v1, isNull1, none), ctx2) →
      ¬ (isNull0 = false ∧ v0 ≠ 0) →
      ((isNull1 = false ∧ v1 ≠ 0) →
        builtinLogicOrSig.evalInt arg0 arg1 ctx = ((1, false, none), ctx2)) ∧
      (¬ (isNull1 = false ∧ v1 ≠ 0) → (isNull0 = true ∨ isNull1 = true) →
        builtinLogicOrSig.evalInt arg0 arg1 ctx = ((0, true, none), ctx2)) ∧
      (¬ (isNull1 = false ∧ v1 ≠ 0) → isNull0 = false → isNull1 = false →
        builtinLogicOrSig.evalInt arg0 arg1 ctx = ((0, false, none), ctx2))) ∧
    (∀ (v1 : Int) (isNull1 : Bool),
      builtinLogicOrSig.evalInt (constantOutcome (v0, isNull0, none))
          (constantOutcome (v1, isNull1, none)) ctx =
        builtinLogicOrSig.evalInt (constantOutcome (v1, isNull1, none))
          (constantOutcome (v0, isNull0, none)) ctx) := by
  refine ⟨?_, ?_, ?_⟩
  · rintro ⟨hn, hv⟩
    simp [builtinLogicOrSig.evalInt, h0, hn, hv]
  · intro v1 isNull1 ctx2 h1 hnz
    refine ⟨?_, ?_, ?_⟩
    · rintro ⟨hn1, hv1⟩
      cases isNull0 <;> by_cases hv0 : v0 = 0 <;>
        simp_all [builtinLogicOrSig.evalInt]
    · intro hnz1 hnull
      cases isNull0 <;> cases isNull1 <;> by_cases hv0 : v0 = 0 <;> by_cases hv1 : v1 = 0 <;>
        simp_all [builtinLogicOrSig.evalInt]
    · intro hnz1 hn0 hn1
      have hv0 : v0 = 0 := by
        by_contra h; exact hnz ⟨hn0, h⟩
      have hv1 : v1 = 0 := by
        by_contra h; exact hnz1 ⟨hn1, h⟩
      simp [builtinLogicOrSig.evalInt, h0, h1, hn0, hn1, hv0, hv1]
  · intro v1 isNull1
    simp only [builtinLogicOrSig.evalInt, constantOutcome]
    cases isNull0 <;> cases isNull1 <;> by_cases hv0 : v0 = 0 <;> by_cases hv1 : v1 = 0 <;>
      simp [hv0, hv1]

/-- C27, at concrete arguments over a context that counts the evaluations: the first argument
is the non-NULL 5 and the second would fail; the result is the non-NULL 1 after one
evaluation. -/
theorem logicOr_three_valued_witness :
    builtinLogicOrSig.evalInt (fun n : Nat => ((5, false, none), n + 1))
        (fun n : Nat => ((0, true, some (EvalError.other 1)), n + 1)) 0 =
      ((1, false, none), 1) :=
  (logicOr_three_valued (fun n : Nat => ((5, false, none), n + 1))
    (fun n : Nat => ((0, true, some (EvalError.other 1)), n + 1)) 0 1 5 false rfl).1
    ⟨rfl, by decide⟩

/-- C28: De Morgan duality. For all arguments `a` and `b` and every context, `NOT (a AND b)`,
computed by `builtinUnaryNotIntSig` over `builtinLogicAndSig`, returns what `(NOT a) OR (NOT b)`
returns, computed by `builtinLogicOrSig` over `builtinUnaryNotIntSig`: the same value, NULL flag
and error, and the same context; and `NOT (a OR b)` returns what `(NOT a) AND (NOT b)` returns. -/
theorem de_morgan {σ : Type} (a b : EvalIntFn σ) (ctx : σ) :
    builtinUnaryNotIntSig.evalInt (builtinLogicAndSig.evalInt a b) ctx =
      builtinLogicOrSig.evalInt (builtinUnaryNotIntSig.evalInt a)
        (builtinUnaryNotIntSig.evalInt b) ctx ∧
    builtinUnaryNotIntSig.evalInt (builtinLogicOrSig.evalInt a b) ctx =
      builtinLogicAndSig.evalInt (builtinUnaryNotIntSig.evalInt a)
        (builtinUnaryNotIntSig.evalInt b) ctx := by
  rcases ha : a ctx with ⟨⟨v0, n0, e0⟩, c1⟩
  rcases hb : b c1 with ⟨⟨v1, n1, e1⟩, c2⟩
  constructor
  · cases n0 <;> cases n1 <;> cases e0 <;> cases e1 <;>
      by_cases hv0 : v0 = 0 <;> by_cases hv1 : v1 = 0 <;>
      simp [builtinUnaryNotIntSig.evalInt, builtinLogicAndSig.evalInt,
        builtinLogicOrSig.evalInt, ha, hb, hv0, hv1]
  · cases n0 <;> cases n1 <;> cases e0 <;> cases e1 <;>
      by_cases hv0 : v0 = 0 <;> by_cases hv1 : v1 = 0 <;>
      simp [builtinUnaryNotIntSig.evalInt, builtinLogicAndSig.evalInt,
        builtinLogicOrSig.evalInt, ha, hb, hv0, hv1]

/-- C29: for every argument and every context `builtinUnaryNotIntSig.evalInt` returns what
`builtinIntIsFalseSig.evalInt` returns with `keepNull = true`: the argument's error with the NULL
flag set when the evaluation fails, NULL for a NULL argument, the non-NULL 1 for a non-NULL zero
and the non-NULL 0 for a non-NULL non-zero argument. -/
theorem unaryNot_is_isFalse_keepNull {σ : Type} (arg : EvalIntFn σ) (ctx ctx1 : σ) (v : Int)
    (isNull : Bool) (err : Option EvalError) (harg : arg ctx = ((v, isNull, err), ctx1)) :
    builtinUnaryNotIntSig.evalInt arg ctx =
      builtinIntIsFalseSig.evalInt { keepNull := true } arg ctx ∧
    (err ≠ none → builtinUnaryNotIntSig.evalInt arg ctx = ((0, true, err), ctx1)) ∧
    (err = none → isNull = true →
      builtinUnaryNotIntSig.evalInt arg ctx = ((0, true, none), ctx1)) ∧
    (err = none → isNull = false →
      (v = 0 → builtinUnaryNotIntSig.evalInt arg ctx = ((1, false, none), ctx1)) ∧
      (v ≠ 0 → builtinUnaryNotIntSig.evalInt arg ctx = ((0, false, none), ctx1))) := by
  refine ⟨?_, ?_, ?_, ?_⟩
  · cases isNull <;> cases err <;> by_cases hv : v = 0 <;>
      simp [builtinUnaryNotIntSig.evalInt, builtinIntIsFalseSig.evalInt, harg, hv]
  · intro he
    simp [builtinUnaryNotIntSig.evalInt, harg, he]
  · intro he hn
    simp [builtinUnaryNotIntSig.evalInt, harg, he, hn]
  · intro he hn
    constructor
    · intro hv
      simp [builtinUnaryNotIntSig.evalInt, harg, he, hn, hv]
    · intro hv
      simp [builtinUnaryNotIntSig.evalInt, harg, he, hn, hv]

/-- C29, at a concrete argument: an argument that fails with the NULL flag unset; both
signatures return the error with the NULL flag set. -/
theorem unaryNot_is_isFalse_keepNull_witness :
    builtinUnaryNotIntSig.evalInt (constantOutcome (7, false, some (EvalError.other 3))) () =
      builtinIntIsFalseSig.evalInt { keepNull := true }
        (constantOutcome (7, false, some (EvalError.other 3))) () ∧
    builtinUnaryNotIntSig.evalInt (constantOutcome (7, false, some (EvalError.other 3))) () =
      ((0, true, some (EvalError.other 3)), ()) :=
  ⟨(unaryNot_is_isFalse_keepNull (constantOutcome (7, false, some (EvalError.other 3))) () ()
      7 false (some (EvalError.other 3)) rfl).1,
   (unaryNot_is_isFalse_keepNull (constantOutcome (7, false, some (EvalError.other 3))) () ()
      7 false (some (EvalError.other 3)) rfl).2.1 (by decide)⟩

/-! ## IS TRUE and IS FALSE -/

/-- C21, as amended: for the six `IS TRUE` and `IS FALSE` signatures and an argument that
evaluates without error to NULL, the function returns NULL if `keepNull` is true and the
non-NULL 0 if `keepNull` is false. For the input 0 the `IS TRUE` signatures return the non-NULL 0
and the `IS FALSE` signatures the non-NULL 1: with `keepNull` false a NULL input gives the
result of the input 0 for `IS TRUE`, and not for `IS FALSE`. -/
theorem isTrueOrFalse_null_input {σ F D : Type} (keepNull : Bool) (eqZero : F → Bool)
    (IsZero : D → Bool) (ctx ctx1 : σ) :
    (∀ (arg : EvalIntFn σ) (v : Int), arg ctx = ((v, true, none), ctx1) →
      builtinIntIsTrueSig.evalInt { keepNull := keepNull } arg ctx =
        ((0, keepNull, none), ctx1) ∧
      builtinIntIsFalseSig.evalInt { keepNull := keepNull } arg ctx =
        ((0, keepNull, none), ctx1)) ∧
    (∀ (arg : EvalFn σ F) (x : F), arg ctx = ((x, true, none), ctx1) →
      builtinRealIsTrueSig.evalInt { keepNull := keepNull } eqZero arg ctx =
        ((0, keepNull, none), ctx1) ∧
      builtinRealIsFalseSig.evalInt { keepNull := keepNull } eqZero arg ctx =
        ((0, keepNull, none), ctx1)) ∧
    (∀ (arg : EvalFn σ D) (x : D), arg ctx = ((x, true, none), ctx1) →
      builtinDecimalIsTrueSig.evalInt { keepNull := keepNull } IsZero arg ctx =
        ((0, keepNull, none), ctx1) ∧
      builtinDecimalIsFalseSig.evalInt { keepNull := keepNull } IsZero arg ctx =
        ((0, keepNull, none), ctx1)) ∧
    (∀ (arg : EvalIntFn σ), arg ctx = ((0, false, none), ctx1) →
      builtinIntIsTrueSig.evalInt { keepNull := keepNull } arg ctx = ((0, false, none), ctx1) ∧
      builtinIntIsFalseSig.evalInt { keepNull := keepNull } arg ctx =
        ((1, false, none), ctx1)) ∧
    (∀ (arg : EvalFn σ F) (x : F), eqZero x = true → arg ctx = ((x, false, none), ctx1) →
      builtinRealIsTrueSig.evalInt { keepNull := keepNull } eqZero arg ctx =
        ((0, false, none), ctx1) ∧
      builtinRealIsFalseSig.evalInt { keepNull := keepNull } eqZero arg ctx =
        ((1, false, none), ctx1)) ∧
    (∀ (arg : EvalFn σ D) (x : D), IsZero x = true → arg ctx = ((x, false, none), ctx1) →
      builtinDecimalIsTrueSig.evalInt { keepNull := keepNull } IsZero arg ctx =
        ((0, false, none), ctx1) ∧
      builtinDecimalIsFalseSig.evalInt { keepNull := keepNull } IsZero arg ctx =
        ((1, false, none), ctx1)) := by
  refine ⟨?_, ?_, ?_, ?_, ?_, ?_⟩
  · intro arg v h
    cases keepNull <;>
      simp [builtinIntIsTrueSig.evalInt, builtinIntIsFalseSig.evalInt, h]
  · intro arg x h
    cases keepNull <;>
      simp [builtinRealIsTrueSig.evalInt, builtinRealIsFalseSig.evalInt, h]
  · intro arg x h
    cases keepNull <;>
      simp [builtinDecimalIsTrueSig.evalInt, builtinDecimalIsFalseSig.evalInt, h]
  · intro arg h
    simp [builtinIntIsTrueSig.evalInt, builtinIntIsFalseSig.evalInt, h]
  · intro arg x hx h
    simp [builtinRealIsTrueSig.evalInt, builtinRealIsFalseSig.evalInt, h, hx]
  · intro arg x hx h
    simp [builtinDecimalIsTrueSig.evalInt, builtinDecimalIsFalseSig.evalInt, h, hx]

/-- C21, at a concrete argument: with `keepNull` false, `IS TRUE` of a NULL integer is the
non-NULL 0, as `IS TRUE` of 0 is. -/
theorem isTrueOrFalse_null_input_witness :
    builtinIntIsTrueSig.evalInt { keepNull := false } (constantOutcome (9, true, none)) () =
      ((0, false, none), ()) ∧
    builtinIntIsTrueSig.evalInt { keepNull := false } (constantOutcome (0, false, none)) () =
      ((0, false, none), ()) :=
  ⟨((isTrueOrFalse_null_input false (fun x : Int => decide (x = 0))
      (fun x : Int => decide (x = 0)) () ()).1 (constantOutcome (9, true, none)) 9 rfl).1,
   ((isTrueOrFalse_null_input false (fun x : Int => decide (x = 0))
      (fun x : Int => decide (x = 0)) () ()).2.2.2.1 (constantOutcome (0, false, none)) rfl).1⟩

/-- C21, as stated, fails: with `keepNull` false `builtinIntIsFalseSig.evalInt` returns the
non-NULL 0 for a NULL input and the non-NULL 1 for the input 0. -/
theorem isFalse_null_input_counterexample :
    builtinIntIsFalseSig.evalInt { keepNull := false } (constantOutcome (0, true, none)) () =
      ((0, false, none), ()) ∧
    builtinIntIsFalseSig.evalInt { keepNull := false } (constantOutcome (0, false, none)) () =
      ((1, false, none), ()) ∧
    builtinIntIsFalseSig.evalInt { keepNull := false } (constantOutcome (0, true, none)) () ≠
      builtinIntIsFalseSig.evalInt { keepNull := false } (constantOutcome (0, false, none)) () := by
  decide

/-! ## Unary minus -/

/-- C22: for an integer constant, whose unsigned value is a `uint64` and whose signed value is an
`int64`, `typeInfer` returns `(ETDecimal, true)` if and only if the constant is unsigned with a
value above 9223372036854775808 or signed with the value `math.MinInt64`, which is if and only
if the negation of the constant (read as unsigned or signed after its flag) is outside the
`int64` range; otherwise it returns `(ETInt, false)`. For an argument that is not a constant, or
not of the integer evaluation type, the overflow flag is false. -/
theorem typeInfer_overflow_iff (arg : Constant) :
    (arg.evalType = EvalType.ETInt →
      0 ≤ arg.uint64Value → arg.uint64Value < 2 ^ 64 →
      MinInt64 ≤ arg.int64Value → arg.int64Value ≤ MaxInt64 →
      (unaryMinusFunctionClass.typeInfer (ArgExpression.constant arg) =
          (EvalType.ETDecimal, true) ↔
        (arg.unsignedFlag = true ∧ arg.uint64Value > 9223372036854775808) ∨
          (arg.unsignedFlag = false ∧ arg.int64Value = MinInt64)) ∧
      (((arg.unsignedFlag = true ∧ arg.uint64Value > 9223372036854775808) ∨
          (arg.unsignedFlag = false ∧ arg.int64Value = MinInt64)) ↔
        ¬ (MinInt64 ≤ -(if arg.unsignedFlag = true then arg.uint64Value else arg.int64Value) ∧
           -(if arg.unsignedFlag = true then arg.uint64Value else arg.int64Value) ≤ MaxInt64)) ∧
      (¬ ((arg.unsignedFlag = true ∧ arg.uint64Value > 9223372036854775808) ∨
          (arg.unsignedFlag = false ∧ arg.int64Value = MinInt64)) →
        unaryMinusFunctionClass.typeInfer (ArgExpression.constant arg) =
          (EvalType.ETInt, false))) ∧
    (arg.evalType ≠ EvalType.ETInt →
      (unaryMinusFunctionClass.typeInfer (ArgExpression.constant arg)).2 = false) ∧
    (∀ tp : EvalType,
      (unaryMinusFunctionClass.typeInfer (ArgExpression.nonConstant tp)).2 = false) := by
  refine ⟨?_, ?_, ?_⟩
  · intro htp hu0 hu1 hi0 hi1
    simp only [MinInt64, MaxInt64] at hi0 hi1 ⊢
    have hc : toUint64 (-MinInt64) = 9223372036854775808 := by decide
    refine ⟨?_, ?_, ?_⟩
    · simp only [unaryMinusFunctionClass.typeInfer, ArgExpression.evalType, htp,
        unaryMinusFunctionClass.handleIntOverflow, hc]
      simp only [MinInt64]
      cases hflag : arg.unsignedFlag <;>
        by_cases hi : arg.int64Value = -9223372036854775808 <;>
        by_cases hu : arg.uint64Value > 9223372036854775808 <;>
        simp [hi, hu]
    · cases hflag : arg.unsignedFlag
      · simp only [Bool.false_eq_true, false_and, true_and, false_or, if_false]
        constructor
        · intro h; omega
        · intro h; omega
      · simp only [true_and, Bool.true_eq_false, false_and, or_false, if_true]
        constructor
        · intro h; omega
        · intro h; omega
    · intro hno
      simp only [unaryMinusFunctionClass.typeInfer, ArgExpression.evalType, htp,
        unaryMinusFunctionClass.handleIntOverflow, hc]
      simp only [MinInt64]
      cases hflag : arg.unsignedFlag <;>
        by_cases hi : arg.int64Value = -9223372036854775808 <;>
        by_cases hu : arg.uint64Value > 9223372036854775808 <;>
        simp_all
  · intro htp
    simp only [unaryMinusFunctionClass.typeInfer, ArgExpression.evalType]
    split_ifs <;> simp_all
  · intro tp
    simp [unaryMinusFunctionClass.typeInfer]

/-- C22, at concrete constants: the unsigned constant 9223372036854775809 is inferred as
`(ETDecimal, true)` and the unsigned constant 9223372036854775808 as `(ETInt, false)`. -/
theorem typeInfer_overflow_iff_witness :
    unaryMinusFunctionClass.typeInfer (ArgExpression.constant
        { evalType := EvalType.ETInt, unsignedFlag := true,
          uint64Value := 9223372036854775809, int64Value := -9223372036854775807 }) =
      (EvalType.ETDecimal, true) ∧
    unaryMinusFunctionClass.typeInfer (ArgExpression.constant
        { evalType := EvalType.ETInt, unsignedFlag := true,
          uint64Value := 9223372036854775808, int64Value := -9223372036854775808 }) =
      (EvalType.ETInt, false) :=
  ⟨((typeInfer_overflow_iff
      { evalType := EvalType.ETInt, unsignedFlag := true,
        uint64Value := 9223372036854775809, int64Value := -9223372036854775807 }).1
      rfl (by decide) (by decide) (by decide) (by decide)).1.2 (Or.inl ⟨rfl, by decide⟩),
   ((typeInfer_overflow_iff
      { evalType := EvalType.ETInt, unsignedFlag := true,
        uint64Value := 9223372036854775808, int64Value := -9223372036854775808 }).1
      rfl (by decide) (by decide) (by decide) (by decide)).2.2 (by decide)⟩

/-- C25: `builtinUnaryMinusIntSig.evalInt` on a non-NULL `int64` argument that evaluates without
error, `m` being the argument read as `uint64` when it is unsigned and as `int64` otherwise:
the function returns an error if and only if `-m` is outside the `int64` range, the error being
the overflow error of `m`; otherwise it returns exactly `-m`, non-NULL. A NULL argument that
evaluates without error yields NULL. -/
theorem unaryMinusInt_overflow_iff {σ : Type} (unsignedFlag : Bool) (arg : EvalIntFn σ)
    (ctx ctx1 : σ) (val m : Int)
    (hm : m = if unsignedFlag = true then toUint64 val else val)
    (hlo : MinInt64 ≤ val) (hhi : val ≤ MaxInt64)
    (harg : arg ctx = ((val, false, none), ctx1)) :
    ((∃ err, (builtinUnaryMinusIntSig.evalInt unsignedFlag arg ctx).1.2.2 = some err) ↔
      ¬ (MinInt64 ≤ -m ∧ -m ≤ MaxInt64)) ∧
    (¬ (MinInt64 ≤ -m ∧ -m ≤ MaxInt64) →
      builtinUnaryMinusIntSig.evalInt unsignedFlag arg ctx =
        ((0, false, some (EvalError.ErrOverflow "BIGINT" m)), ctx1)) ∧
    ((MinInt64 ≤ -m ∧ -m ≤ MaxInt64) →
      builtinUnaryMinusIntSig.evalInt unsignedFlag arg ctx = ((-m, false, none), ctx1)) ∧
    (∀ (argNull : EvalIntFn σ) (v : Int), argNull ctx = ((v, true, none), ctx1) →
      builtinUnaryMinusIntSig.evalInt unsignedFlag argNull ctx = ((v, true, none), ctx1)) := by
  have hc : toUint64 (-MinInt64) = 9223372036854775808 := by decide
  have hmod : toUint64 val = val % 18446744073709551616 := by
    simp only [toUint64]; norm_num
  have hwrap : ∀ x : Int, toInt64 x = (x + 9223372036854775808) % 18446744073709551616 -
      9223372036854775808 := by
    intro x; simp only [toInt64]; norm_num
  have hstep : ∀ r : IntResult × σ,
      builtinUnaryMinusIntSig.evalInt unsignedFlag arg ctx = r ↔
      (if unsignedFlag = true then
        if toUint64 val > 9223372036854775808 then
          ((0, false, some (EvalError.ErrOverflow "BIGINT" (toUint64 val))), ctx1)
        else if toUint64 val = 9223372036854775808 then ((MinInt64, false, none), ctx1)
        else ((toInt64 (-val), false, none), ctx1)
      else if val = MinInt64 then
        ((0, false, some (EvalError.ErrOverflow "BIGINT" val)), ctx1)
      else ((toInt64 (-val), false, none), ctx1)) = r := by
    intro r
    simp only [builtinUnaryMinusIntSig.evalInt, harg, hc]
    simp
  simp only [MinInt64, MaxInt64] at hlo hhi hstep ⊢
  have herr : ¬ (-9223372036854775808 ≤ -m ∧ -m ≤ 9223372036854775807) →
      builtinUnaryMinusIntSig.evalInt unsignedFlag arg ctx =
        ((0, false, some (EvalError.ErrOverflow "BIGINT" m)), ctx1) := by
    intro hout
    rw [hstep]
    cases unsignedFlag
    · simp only [Bool.false_eq_true, if_false] at hm ⊢
      subst hm
      have hv : m = -9223372036854775808 := by omega
      rw [if_pos hv]
    · simp only [if_true] at hm ⊢
      have hgt : toUint64 val > 9223372036854775808 := by rw [hmod]; rw [hmod] at hm; omega
      rw [if_pos hgt, hm]
  have hok : (-9223372036854775808 ≤ -m ∧ -m ≤ 9223372036854775807) →
      builtinUnaryMinusIntSig.evalInt unsignedFlag arg ctx = ((-m, false, none), ctx1) := by
    intro hin
    rw [hstep]
    cases unsignedFlag
    · simp only [Bool.false_eq_true, if_false] at hm ⊢
      subst hm
      have hv : ¬ m = -9223372036854775808 := by omega
      have hneg : toInt64 (-m) = -m := by rw [hwrap]; omega
      rw [if_neg hv, hneg]
    · simp only [if_true] at hm ⊢
      have hle : ¬ toUint64 val > 9223372036854775808 := by rw [← hm]; omega
      rw [if_neg hle]
      by_cases heq : toUint64 val = 9223372036854775808
      · rw [if_pos heq, hm, heq]
      · have hneg : toInt64 (-val) = -m := by
          rw [hwrap, hm, hmod]; rw [hmod] at heq hle; omega
        rw [if_neg heq, hneg]
  refine ⟨?_, herr, hok, ?_⟩
  · constructor
    · rintro ⟨err, he⟩ hin
      rw [hok hin] at he
      simp at he
    · intro hout
      rw [herr hout]
      exact ⟨_, rfl⟩
  · intro argNull v h
    simp [builtinUnaryMinusIntSig.evalInt, h]

/-- C25, at the two boundary arguments: the unsigned value 9223372036854775808, the `int64`
`math.MinInt64` read as `uint64`, yields `math.MinInt64` without error; the signed value
`math.MinInt64` yields the overflow error. -/
theorem unaryMinusInt_overflow_iff_witness :
    builtinUnaryMinusIntSig.evalInt true (constantOutcome (-9223372036854775808, false, none))
        () = ((-9223372036854775808, false, none), ()) ∧
    builtinUnaryMinusIntSig.evalInt false (constantOutcome (-9223372036854775808, false, none))
        () = ((0, false, some (EvalError.ErrOverflow "BIGINT" (-9223372036854775808))), ()) :=
  ⟨(unaryMinusInt_overflow_iff true (constantOutcome (-9223372036854775808, false, none)) () ()
      (-9223372036854775808) 9223372036854775808 (by decide) (by decide) (by decide) rfl).2.2.1
      (by decide),
   (unaryMinusInt_overflow_iff false (constantOutcome (-9223372036854775808, false, none)) () ()
      (-9223372036854775808) (-9223372036854775808) (by decide) (by decide) (by decide) rfl).2.1
      (by decide)⟩

end Expression
